import Mathlib

/-!
# PaintField: input-to-edit pipeline

A shallow embedding of the rectangle tool (`recttool.cpp`: tile invalidation,
the press, move and release handlers, the mouse handlers of the resize
handles, handle moves and commit), the tool event
sender (`canvastooleventsender.cpp`), the canvas navigator
(`canvasnavigator.cpp`) and the closing of a canvas (`canvascontroller.cpp`).

Conventions of the embedding:

* C++ `double` values are exact rationals (`ℚ`); `int` values are unbounded
  integers (`Int`).  Rounding of floating-point arithmetic and integer
  overflow are outside the model.
* Qt value types (`QPoint`, `QRect`, `QRectF`) follow the Qt sources the
  program is compiled against; the members used by the program are embedded
  under their Qt names.
* Collaborators that the program only reaches through a pointer (canvas,
  cursor stack, key tracker, tool) are explicit state or explicit arguments.
* A handler that dereferences a null pointer returns `none`.
* The layer scene records the selection, the current layer and the edits
  submitted to it; what it does with an edit is outside the model.
-/

namespace PaintField

/-! ## Qt and Malachite value types -/

/-- Integer point (`QPoint`). -/
structure QPoint where
  x : Int
  y : Int
deriving DecidableEq, Repr

instance : Add QPoint := ⟨fun a b => ⟨a.x + b.x, a.y + b.y⟩⟩
instance : Sub QPoint := ⟨fun a b => ⟨a.x - b.x, a.y - b.y⟩⟩

/-- Floating-point vector (`Malachite::Vec2D`, also used for `QPointF`). -/
structure Vec2D where
  x : ℚ
  y : ℚ
deriving DecidableEq, Repr

instance : Add Vec2D := ⟨fun a b => ⟨a.x + b.x, a.y + b.y⟩⟩
instance : Sub Vec2D := ⟨fun a b => ⟨a.x - b.x, a.y - b.y⟩⟩

/-- Conversion `QPoint -> Vec2D`. -/
def QPoint.toVec2D (p : QPoint) : Vec2D := ⟨p.x, p.y⟩

/-- Integer rectangle (`QRect`), stored as Qt stores it: the inclusive corner
coordinates `x1, y1, x2, y2`. -/
structure QRect where
  x1 : Int
  y1 : Int
  x2 : Int
  y2 : Int
deriving DecidableEq, Repr

/-- Constructor `QRect(left, top, width, height)`. -/
def QRect.ofSize (left top width height : Int) : QRect :=
  ⟨left, top, left + width - 1, top + height - 1⟩

def QRect.left (r : QRect) : Int := r.x1
def QRect.top (r : QRect) : Int := r.y1
def QRect.width (r : QRect) : Int := r.x2 - r.x1 + 1
def QRect.height (r : QRect) : Int := r.y2 - r.y1 + 1

/-- Member `QRect::translated(const QPoint &)`. -/
def QRect.translated (r : QRect) (p : QPoint) : QRect :=
  ⟨r.x1 + p.x, r.y1 + p.y, r.x2 + p.x, r.y2 + p.y⟩

/-- Floating-point rectangle (`QRectF`): position `xp, yp` and size `w, h`. -/
structure QRectF where
  xp : ℚ
  yp : ℚ
  w : ℚ
  h : ℚ
deriving DecidableEq, Repr

namespace QRectF

def left (r : QRectF) : ℚ := r.xp
def top (r : QRectF) : ℚ := r.yp
def right (r : QRectF) : ℚ := r.xp + r.w
def bottom (r : QRectF) : ℚ := r.yp + r.h
def topLeft (r : QRectF) : Vec2D := ⟨r.xp, r.yp⟩

/-- Default constructor `QRectF()`. -/
def null : QRectF := ⟨0, 0, 0, 0⟩

/-- Converting constructor `QRectF(const QRect &)`. -/
def ofQRect (r : QRect) : QRectF := ⟨r.left, r.top, r.width, r.height⟩

/-- Member `QRectF::isNull`: width and height are both zero. -/
def isNull (r : QRectF) : Bool := decide (r.w = 0) && decide (r.h = 0)

/-- Member `QRectF::adjusted(dx1, dy1, dx2, dy2)`. -/
def adjusted (r : QRectF) (dx1 dy1 dx2 dy2 : ℚ) : QRectF :=
  ⟨r.xp + dx1, r.yp + dy1, r.w + dx2 - dx1, r.h + dy2 - dy1⟩

/-- Member `QRectF::toAlignedRect`: the smallest integer rectangle that
contains the rectangle. -/
def toAlignedRect (r : QRectF) : QRect :=
  let xmin := ⌊r.xp⌋
  let xmax := ⌈r.xp + r.w⌉
  let ymin := ⌊r.yp⌋
  let ymax := ⌈r.yp + r.h⌉
  QRect.ofSize xmin ymin (xmax - xmin) (ymax - ymin)

/-- Member `QRectF::moveTopLeft`: moves the corner, keeps the size. -/
def moveTopLeft (r : QRectF) (p : Vec2D) : QRectF := { r with xp := p.x, yp := p.y }

/-- Member `QRectF::operator|` (bounding rectangle of two rectangles).  A null
rectangle is neutral; negative sizes are normalised. -/
def united (a b : QRectF) : QRectF :=
  if a.isNull then b
  else if b.isNull then a
  else
    let l0 := if a.w < 0 then a.xp + a.w else a.xp
    let r0 := if a.w < 0 then a.xp else a.xp + a.w
    let l := if b.w < 0 then min l0 (b.xp + b.w) else min l0 b.xp
    let r := if b.w < 0 then max r0 b.xp else max r0 (b.xp + b.w)
    let t0 := if a.h < 0 then a.yp + a.h else a.yp
    let b0 := if a.h < 0 then a.yp else a.yp + a.h
    let t := if b.h < 0 then min t0 (b.yp + b.h) else min t0 b.yp
    let bt := if b.h < 0 then max b0 b.yp else max b0 (b.yp + b.h)
    ⟨l, t, r - l, bt - t⟩

def topRight (r : QRectF) : Vec2D := ⟨r.xp + r.w, r.yp⟩
def bottomLeft (r : QRectF) : Vec2D := ⟨r.xp, r.yp + r.h⟩
def bottomRight (r : QRectF) : Vec2D := ⟨r.xp + r.w, r.yp + r.h⟩

/-- Member `QRectF::isValid`: positive width and height. -/
def isValid (r : QRectF) : Bool := decide (0 < r.w) && decide (0 < r.h)

/-- Member `QRectF::setLeft`: moves the left border, the right border stays. -/
def setLeft (r : QRectF) (pos : ℚ) : QRectF :=
  let diff := pos - r.xp
  { r with xp := r.xp + diff, w := r.w - diff }

/-- Member `QRectF::setRight`: moves the right border, the left border stays. -/
def setRight (r : QRectF) (pos : ℚ) : QRectF := { r with w := pos - r.xp }

/-- Member `QRectF::setTop`: moves the top border, the bottom border stays. -/
def setTop (r : QRectF) (pos : ℚ) : QRectF :=
  let diff := pos - r.yp
  { r with yp := r.yp + diff, h := r.h - diff }

/-- Member `QRectF::setBottom`: moves the bottom border, the top border stays. -/
def setBottom (r : QRectF) (pos : ℚ) : QRectF := { r with h := pos - r.yp }

/-- Left, right, top and bottom border of the normalised rectangle (the
local variables `l`, `r`, `t`, `b` of `QRectF::contains`). -/
def normLeft (r : QRectF) : ℚ := if r.w < 0 then r.xp + r.w else r.xp
def normRight (r : QRectF) : ℚ := if r.w < 0 then r.xp else r.xp + r.w
def normTop (r : QRectF) : ℚ := if r.h < 0 then r.yp + r.h else r.yp
def normBottom (r : QRectF) : ℚ := if r.h < 0 then r.yp else r.yp + r.h

/-- Member `QRectF::contains(const QPointF &)`: the point lies in the
normalised rectangle, borders included; a rectangle of zero width or zero
height contains no point. -/
def contains (r : QRectF) (p : Vec2D) : Bool :=
  if r.normLeft = r.normRight then false
  else if p.x < r.normLeft then false
  else if p.x > r.normRight then false
  else if r.normTop = r.normBottom then false
  else if p.y < r.normTop then false
  else if p.y > r.normBottom then false
  else true

end QRectF

/-- Set of tile keys (`Malachite::QPointSet`, a `QSet<QPoint>`). -/
abbrev QPointSet := Finset QPoint

/-! ## Tile dirty-region tracker -/

/-- Constant of `recttool.cpp`: radius of a resize handle. -/
def handleRadius : Int := 4

/-- The key of the tile whose square contains a document-space point: tile
`(kx, ky)` is the square `[kx*T, (kx+1)*T) x [ky*T, (ky+1)*T)` for the tile edge
length `T`. -/
def tileKeyOf (tileWidth : Int) (p : Vec2D) : QPoint :=
  ⟨⌊p.x / (tileWidth : ℚ)⌋, ⌊p.y / (tileWidth : ℚ)⌋⟩

/-- Modelled from the spec: `Malachite::Surface::rectToKeys` is not in src.
The set of tile keys whose tile square intersects the integer rectangle,
obtained by floor division of the left/top pixel boundary and ceil division of
the right/bottom pixel boundary by the tile edge length, on each axis. -/
def Surface.rectToKeys (tileWidth : Int) (r : QRect) : QPointSet :=
  let kx0 := ⌊(r.left : ℚ) / tileWidth⌋
  let kx1 := ⌈((r.left + r.width : Int) : ℚ) / tileWidth⌉
  let ky0 := ⌊(r.top : ℚ) / tileWidth⌋
  let ky1 := ⌈((r.top + r.height : Int) : ℚ) / tileWidth⌉
  (Finset.Ico kx0 kx1 ×ˢ Finset.Ico ky0 ky1).image (fun k => QPoint.mk k.1 k.2)

/-- Method `RectTool::Data::rectKeysWithHandleMargin`. -/
def rectKeysWithHandleMargin (tileWidth : Int) (rect : QRectF) : QPointSet :=
  let newRect := rect.adjusted (-handleRadius) (-handleRadius) handleRadius handleRadius
  Surface.rectToKeys tileWidth newRect.toAlignedRect

/-! ## Rectangle tool: data -/

/-- Affine map of the plane (`Malachite::Affine2D`, `QTransform`), as the
function it applies to a point. -/
abbrev Affine2D := Vec2D → Vec2D

/-- Dynamic type of a layer, as far as the tool distinguishes it:
`AbstractRectLayer` (rectangle, ellipse, text), `RasterLayer`, or another. -/
inductive LayerKind where
  | rect
  | raster
  | other
deriving DecidableEq, Repr

/-- Enum `AbstractRectLayer::ShapeType`. -/
inductive ShapeType where
  | ShapeTypeRect
  | ShapeTypeEllipse
deriving DecidableEq, Repr

/-- A committed layer of the layer scene (the target of a `LayerConstPtr`),
with the attributes the tool reads: its identity, its dynamic type,
`AbstractRectLayer::rect()`, `RasterLayer::surface().boundingRect()`, the name,
shape and text flag a clone of a rectangle layer carries, and `Layer::parent()`
and `Layer::index()`. -/
structure Layer where
  id : Nat
  kind : LayerKind
  rect : QRectF
  surfaceBoundingRect : QRect
  name : String
  shapeType : ShapeType
  isText : Bool
  parent : Nat
  index : Int
deriving DecidableEq, Repr

/-- Editable rectangle layer owned by the tool (`std::shared_ptr<AbstractRectLayer>`):
its rectangle, its name, its shape and whether it is a `TextLayer`; brushes
and fonts carry no geometry and are left out. -/
structure AbstractRectLayer where
  rect : QRectF
  name : String
  shapeType : ShapeType
  isText : Bool
deriving DecidableEq, Repr

/-- Member `AbstractRectLayer::setRect`. -/
def AbstractRectLayer.setRect (l : AbstractRectLayer) (r : QRectF) : AbstractRectLayer :=
  { l with rect := r }

/-- Enum `RectTool::Mode`. -/
inductive Mode where
  | NoOperation
  | Dragging
  | Inserting
  | MovingHandle
deriving DecidableEq, Repr

/-- Enum `RectTool::AddingType`. -/
inductive AddingType where
  | NoAdding
  | AddRect
  | AddEllipse
  | AddText
deriving DecidableEq, Repr

/-- Struct `RectTool::Data::LayerInfo`: a selected layer and the tool's working
copy of its geometry.  `rectLayer` is the null pointer (`none`) unless the
original layer is a rectangle layer. -/
structure LayerInfo where
  original : Layer
  rectLayer : Option AbstractRectLayer
  originalRectPos : Vec2D
  rasterBoundingRect : QRect
  rasterOffset : QPoint
deriving DecidableEq, Repr

/-- The rectangle a selected layer occupies in the tool's working state: the
rectangle of the editable rect layer, or the bounding rectangle of a raster
layer translated by its paint offset (the case split of
`RectTool::updateGraphicsItems` and of `RectTool::tabletMoveEvent`). -/
def LayerInfo.workingRect (info : LayerInfo) : Option QRectF :=
  match info.rectLayer with
  | some l => some l.rect
  | none =>
    if info.original.kind = LayerKind.raster then
      some (QRectF.ofQRect (info.rasterBoundingRect.translated info.rasterOffset))
    else none

/-- Enum `HandleType`: bits of a handle's type mask. -/
def Left : Nat := 1
def Right : Nat := 1 <<< 1
def Top : Nat := 1 <<< 2
def Bottom : Nat := 1 <<< 3

/-- Class `RectHandleItem`: the type mask and the `QGraphicsItem` attributes
the tool sets. -/
structure RectHandleItem where
  handleTypes : Nat
  pos : Vec2D
  visible : Bool
  zValue : Int
  transparent : Bool
deriving DecidableEq, Repr

/-- Class `FrameGraphicsItem`: the outline path (its vertices) and the
`QGraphicsItem` visibility. -/
structure FrameGraphicsItem where
  path : List Vec2D
  visible : Bool
deriving DecidableEq, Repr

/-- A pending layer insertion registered with `Tool::addLayerInsertion`: the
parent and the index; the layer to insert is the object `layerToAdd` points to. -/
structure LayerInsertion where
  parent : Nat
  index : Int
deriving DecidableEq, Repr

/-- Struct `RectTool::Data`, without the pointer to the layer controller. -/
structure Data where
  addingType : AddingType
  selectedLayerInfos : List LayerInfo
  handles : List RectHandleItem
  frameItem : FrameGraphicsItem
  mode : Mode
  dragDistanceEnough : Bool
  dragStartPos : Vec2D
  originalRectPos : Vec2D
  layerToAdd : Option AbstractRectLayer
  layerToAddParent : Nat
  layerToAddIndex : Int
deriving DecidableEq, Repr

/-- An undoable edit submitted to the layer scene: `setLayerProperty` with the
role `RoleRect`, `editLayer` with a `LayerMoveEdit`, or `addLayers`; each with
the text of its undo entry. -/
inductive SceneEdit where
  | setLayerProperty (layer : Layer) (rect : QRectF) (text : String)
  | editLayer (layer : Layer) (offset : QPoint) (text : String)
  | addLayers (layers : List AbstractRectLayer) (parent : Nat) (index : Int) (text : String)
deriving DecidableEq, Repr

/-- Modelled from the spec: the layer tree collaborator (`LayerScene`) is not
in src.  The root layer, the current layer if any, the selection, the edits
submitted so far (oldest first) and the identity the next added layer gets.
What the scene does with a submitted edit is not part of the model. -/
structure LayerScene where
  rootLayer : Nat
  current : Option Layer
  selection : List Layer
  edits : List SceneEdit
  nextId : Nat
deriving DecidableEq, Repr

/-- The rectangle tool with what it reaches through `Tool`: its data, the
canvas view transform and its inverse, the layer scene, the registered layer
insertions and
layer delegations, and the key sets emitted through the signal
`requestUpdate`, latest first. -/
structure RectTool where
  d : Data
  transformToView : Affine2D
  transformToScene : Affine2D
  layerScene : LayerScene
  layerInsertions : List LayerInsertion
  layerDelegations : List Layer
  requestUpdate : List QPointSet

/-- What the tool reads from its environment: the tile edge length
(`Surface::tileWidth`), the platform drag threshold
(`QApplication::startDragDistance`) and the rounding `Vec2D::toQPoint`. -/
structure ToolEnv where
  tileWidth : Int
  startDragDistance : Int
  toQPoint : Vec2D → QPoint

/-- Struct `TabletInputData`: position, pressure, rotation, tangential
pressure and tilt of a tablet sample. -/
structure TabletInputData where
  pos : Vec2D
  pressure : ℚ
  rotation : ℚ
  tangentialPressure : ℚ
  tilt : Vec2D
deriving DecidableEq, Repr

/-- Event types of the canvas events delivered to a tool. -/
inductive CanvasEventType where
  | EventCanvasMouseMove
  | EventCanvasMousePress
  | EventCanvasMouseRelease
  | EventCanvasMouseDoubleClick
  | EventCanvasTabletMove
  | EventCanvasTabletPress
  | EventCanvasTabletRelease
deriving DecidableEq, Repr

/-- Class `CanvasTabletEvent`, with the fields in the order of its
constructor: type, global position (exact and integer), view position (exact
and integer), the sample whose `pos` is the document-space position, and the
keyboard modifiers. -/
structure CanvasTabletEvent where
  type : CanvasEventType
  globalPos : Vec2D
  globalPosInt : QPoint
  viewPos : Vec2D
  viewPosInt : QPoint
  data : TabletInputData
  modifiers : Nat
deriving DecidableEq, Repr

/-! ## Rectangle tool: operations -/

/-- Method `RectTool::Data::findHandle`, as the index of the first handle whose
type mask equals `types`; `none` stands for the null pointer. -/
def findHandle (handles : List RectHandleItem) (types : Nat) : Option Nat :=
  match handles with
  | [] => none
  | h :: rest =>
    if h.handleTypes = types then some 0
    else (findHandle rest types).map (fun i => i + 1)

/-- Method `RectTool::addHandle`: appends a visible, opaque handle. -/
def addHandle (handles : List RectHandleItem) (handleTypes : Nat) (zValue : Int) :
    List RectHandleItem :=
  handles ++ [⟨handleTypes, ⟨0, 0⟩, true, zValue, false⟩]

/-- The handles created by the constructor `RectTool::RectTool`. -/
def constructedHandles : List RectHandleItem :=
  addHandle (addHandle (addHandle (addHandle (addHandle (addHandle (addHandle (addHandle []
    (Top ||| Left) 1) (Top ||| Right) 1) (Bottom ||| Left) 1) (Bottom ||| Right) 1)
    Top 0) Bottom 0) Left 0) Right 0

/-- The statement `d->findHandle(types)->setPos(pos)`; fails on a null pointer. -/
def setHandlePos (handles : List RectHandleItem) (types : Nat) (pos : Vec2D) :
    Option (List RectHandleItem) :=
  (findHandle handles types).map (fun i => handles.modify (fun h => { h with pos := pos }) i)

/-- Midpoint `(a + b) * 0.5` of two points. -/
def midpoint (a b : Vec2D) : Vec2D := ⟨(a.x + b.x) * (1 / 2), (a.y + b.y) * (1 / 2)⟩

/-- The path built by `QPainterPath::addRect`, as its vertices: a closed
outline that starts and ends at the top-left corner. -/
def rectPath (r : QRectF) : List Vec2D :=
  [r.topLeft, r.topRight, r.bottomRight, r.bottomLeft, r.topLeft]

/-- The handle part of `RectTool::updateGraphicsItems`. -/
def updateHandles (t : RectTool) : Option (List RectHandleItem) :=
  if t.d.selectedLayerInfos.length = 1 then
    let shown := t.d.handles.map (fun h => { h with visible := true })
    match t.d.selectedLayerInfos.head? with
    | some info =>
      match info.rectLayer with
      | some rectLayer =>
        let rect := rectLayer.rect
        let topLeft := t.transformToView rect.topLeft
        let topRight := t.transformToView rect.topRight
        let bottomLeft := t.transformToView rect.bottomLeft
        let bottomRight := t.transformToView rect.bottomRight
        (setHandlePos shown Left (midpoint topLeft bottomLeft)).bind fun h1 =>
        (setHandlePos h1 Right (midpoint topRight bottomRight)).bind fun h2 =>
        (setHandlePos h2 Top (midpoint topLeft topRight)).bind fun h3 =>
        (setHandlePos h3 Bottom (midpoint bottomLeft bottomRight)).bind fun h4 =>
        (setHandlePos h4 (Left ||| Top) topLeft).bind fun h5 =>
        (setHandlePos h5 (Left ||| Bottom) bottomLeft).bind fun h6 =>
        (setHandlePos h6 (Right ||| Top) topRight).bind fun h7 =>
        (setHandlePos h7 (Right ||| Bottom) bottomRight).map fun h8 =>
        h8.map (fun h => { h with transparent := decide (t.d.mode ≠ Mode.NoOperation) })
      | none => some shown
    | none => some shown
  else
    some (t.d.handles.map (fun h => { h with visible := false }))

/-- The frame part of `RectTool::updateGraphicsItems`; fails when the mode is
`Inserting` and `layerToAdd` is null. -/
def updateFrame (t : RectTool) : Option FrameGraphicsItem :=
  let shown : Option (Bool × QRectF) :=
    if t.d.mode = Mode.Inserting then
      t.d.layerToAdd.map (fun l => (true, l.rect))
    else
      some (decide (t.d.selectedLayerInfos.length ≠ 0),
        t.d.selectedLayerInfos.foldl
          (fun rect info =>
            match info.workingRect with
            | some r => rect.united r
            | none => rect)
          QRectF.null)
  shown.map fun vr =>
    if vr.2.isValid then ⟨(rectPath vr.2).map t.transformToView, vr.1⟩
    else { t.d.frameItem with visible := vr.1 }

/-- Method `RectTool::updateGraphicsItems`; `none` when it dereferences a null
pointer. -/
def updateGraphicsItems (t : RectTool) : Option RectTool :=
  (updateHandles t).bind fun handles =>
  (updateFrame t).map fun frame =>
  { t with d := { t.d with handles := handles, frameItem := frame } }

/-- The lambda `createNew` of `RectTool::startAdding`; a new layer has the
default-constructed (null) rectangle and the rectangle shape. -/
def createNew (addingType : AddingType) : AbstractRectLayer :=
  if addingType = AddingType.AddText then
    ⟨QRectF.null, "Text", ShapeType.ShapeTypeRect, true⟩
  else if addingType = AddingType.AddEllipse then
    ⟨QRectF.null, "Ellipse", ShapeType.ShapeTypeEllipse, false⟩
  else
    ⟨QRectF.null, "Rectangle", ShapeType.ShapeTypeRect, false⟩

/-- Method `RectTool::startAdding`. -/
def startAdding (t : RectTool) : RectTool :=
  let layer := createNew t.d.addingType
  let parent := match t.layerScene.current with
    | some current => current.parent
    | none => t.layerScene.rootLayer
  let index := match t.layerScene.current with
    | some current => current.index
    | none => 0
  { t with
    d := { t.d with layerToAdd := some layer, layerToAddParent := parent,
                    layerToAddIndex := index }
    layerInsertions := t.layerInsertions ++ [⟨parent, index⟩] }

/-- One iteration of the loop over `selectedLayerInfos` in the `Dragging`
branch of `RectTool::tabletMoveEvent`: extends `wholeRect` by the layer's
rectangle before and after the move and moves the working copy. -/
def dragInfo (env : ToolEnv) (delta : Vec2D) (wholeRect : QRectF) (info : LayerInfo) :
    QRectF × LayerInfo :=
  match info.rectLayer with
  | some rectLayer =>
    let rect := rectLayer.rect
    let whole1 := wholeRect.united rect
    let moved := rect.moveTopLeft (delta + info.originalRectPos)
    let whole2 := whole1.united moved
    (whole2, { info with rectLayer := some (rectLayer.setRect moved) })
  | none =>
    if info.original.kind = LayerKind.raster then
      let whole1 := wholeRect.united
        (QRectF.ofQRect (info.rasterBoundingRect.translated info.rasterOffset))
      let offset := env.toQPoint delta
      let whole2 := whole1.united
        (QRectF.ofQRect (info.rasterBoundingRect.translated offset))
      (whole2, { info with rasterOffset := offset })
    else (wholeRect, info)

/-- The loop over `selectedLayerInfos` of the `Dragging` branch. -/
def dragInfos (env : ToolEnv) (delta : Vec2D) (wholeRect : QRectF) :
    List LayerInfo → QRectF × List LayerInfo
  | [] => (wholeRect, [])
  | info :: rest =>
    let step := dragInfo env delta wholeRect info
    let tail := dragInfos env delta step.1 rest
    (tail.1, step.2 :: tail.2)

/-- Method `RectTool::tabletMoveEvent`; `none` when it dereferences a null
pointer. -/
def tabletMoveEvent (env : ToolEnv) (t : RectTool) (event : CanvasTabletEvent) :
    Option RectTool :=
  let delta := event.data.pos - t.d.dragStartPos
  if t.d.dragDistanceEnough then
    match t.d.mode with
    | Mode.Dragging =>
      let moved := dragInfos env delta QRectF.null t.d.selectedLayerInfos
      let keys := rectKeysWithHandleMargin env.tileWidth moved.1
      updateGraphicsItems
        { t with d := { t.d with selectedLayerInfos := moved.2 }
                 requestUpdate := keys :: t.requestUpdate }
    | Mode.Inserting =>
      match t.d.layerToAdd with
      | none => none
      | some layerToAdd =>
        let rect := layerToAdd.rect
        let keys1 := (∅ : QPointSet) ∪ rectKeysWithHandleMargin env.tileWidth rect
        let p1 := t.d.dragStartPos
        let p2 := event.data.pos
        let rect := (((rect.setLeft (min p1.x p2.x)).setRight (max p1.x p2.x)).setTop
          (min p1.y p2.y)).setBottom (max p1.y p2.y)
        let keys := keys1 ∪ rectKeysWithHandleMargin env.tileWidth rect
        updateGraphicsItems
          { t with d := { t.d with layerToAdd := some (layerToAdd.setRect rect) }
                   requestUpdate := keys :: t.requestUpdate }
    | _ => some t
  else
    if (env.startDragDistance : ℚ) ≤ |delta.x| + |delta.y| then
      let t1 := { t with d := { t.d with dragDistanceEnough := true } }
      if t.d.mode = Mode.Inserting then some (startAdding t1) else some t1
    else some t

/-! ## Notions used in the statements -/

/-- The point lies between the borders of the normalised rectangle. -/
def QRectF.covers (r : QRectF) (p : Vec2D) : Prop :=
  (r.normLeft ≤ p.x ∧ p.x ≤ r.normRight) ∧ (r.normTop ≤ p.y ∧ p.y ≤ r.normBottom)

/-- The point is a point of the rectangle: the rectangle is not null (a null
rectangle is empty) and the point lies between its borders. -/
def QRectF.holds (r : QRectF) (p : Vec2D) : Prop := r.isNull = false ∧ r.covers p

/-- The eight type masks `updateGraphicsItems` looks up. -/
def allHandleTypes : List Nat :=
  [Left, Right, Top, Bottom, Left ||| Top, Left ||| Bottom, Right ||| Top, Right ||| Bottom]

/-- Every type mask `updateGraphicsItems` looks up is found by `findHandle`. -/
def handlesComplete (handles : List RectHandleItem) : Prop :=
  ∀ types ∈ allHandleTypes, (findHandle handles types).isSome = true

/-! ## Sample inputs -/

/-- A tool in mode `Dragging` past the threshold: one selected rectangle layer
with the rectangle (0, 0, 10, 10), pressed at the origin. -/
def draggingTool : RectTool where
  d := {
    addingType := AddingType.NoAdding
    selectedLayerInfos :=
      [{ original := ⟨1, LayerKind.rect, ⟨0, 0, 10, 10⟩, ⟨0, 0, -1, -1⟩, "Rectangle",
           ShapeType.ShapeTypeRect, false, 0, 0⟩
         rectLayer := some ⟨⟨0, 0, 10, 10⟩, "Rectangle", ShapeType.ShapeTypeRect, false⟩
         originalRectPos := ⟨0, 0⟩
         rasterBoundingRect := ⟨0, 0, -1, -1⟩
         rasterOffset := ⟨0, 0⟩ }]
    handles := constructedHandles
    frameItem := ⟨[], false⟩
    mode := Mode.Dragging
    dragDistanceEnough := true
    dragStartPos := ⟨0, 0⟩
    originalRectPos := ⟨0, 0⟩
    layerToAdd := none
    layerToAddParent := 0
    layerToAddIndex := 0 }
  transformToView := fun p => p
  transformToScene := fun p => p
  layerScene := ⟨0, none, [], [], 2⟩
  layerInsertions := []
  layerDelegations := []
  requestUpdate := []

/-- Tile edge length 64, drag threshold 10, rounding to the nearest integer. -/
def sampleEnv : ToolEnv := ⟨64, 10, fun v => ⟨⌊v.x + 1 / 2⌋, ⌊v.y + 1 / 2⌋⟩⟩

/-- A move event whose document-space position is `pos`. -/
def moveTo (pos : Vec2D) : CanvasTabletEvent :=
  ⟨CanvasEventType.EventCanvasTabletMove, pos, ⟨0, 0⟩, pos, ⟨0, 0⟩, ⟨pos, 1, 0, 0, ⟨0, 0⟩⟩, 0⟩

/-! ## Tool event sender: events -/

/-- Event types (`QEvent::Type`) the sender distinguishes; `Other` stands for
every other type. -/
inductive QEventType where
  | MouseButtonPress
  | MouseButtonRelease
  | MouseButtonDblClick
  | MouseMove
  | TabletMove
  | TabletPress
  | TabletRelease
  | Other
deriving DecidableEq, Repr

/-- Enum `Qt::MouseButton`. -/
inductive MouseButton where
  | NoButton
  | LeftButton
  | RightButton
  | MidButton
  | XButton1
  | XButton2
deriving DecidableEq, Repr

/-- Class `QMouseEvent`: type, integer position `pos()`, exact position
`posF()`, `globalPos()`, the button that caused the event (`button()`),
modifiers and the accepted flag. -/
structure QMouseEvent where
  type : QEventType
  pos : QPoint
  posF : Vec2D
  globalPos : QPoint
  button : MouseButton
  modifiers : Nat
  accepted : Bool
deriving DecidableEq, Repr

/-- Class `QTabletEvent`, with the accessors `tabletEvent` reads. -/
structure QTabletEvent where
  type : QEventType
  pos : QPoint
  globalPos : QPoint
  hiResGlobalPos : Vec2D
  pressure : ℚ
  rotation : ℚ
  tangentialPressure : ℚ
  xTilt : Int
  yTilt : Int
  modifiers : Nat
  accepted : Bool
deriving DecidableEq, Repr

/-- Event types of a `WidgetTabletEvent`; `Other` stands for every other
value of the integer type. -/
inductive WidgetEventType where
  | EventWidgetTabletMove
  | EventWidgetTabletPress
  | EventWidgetTabletRelease
  | Other
deriving DecidableEq, Repr

/-- Class `WidgetTabletEvent`, with the fields in the order of its
constructor. -/
structure WidgetTabletEvent where
  type : WidgetEventType
  globalPosInt : QPoint
  posInt : QPoint
  globalData : TabletInputData
  modifiers : Nat
  accepted : Bool
deriving DecidableEq, Repr

/-- Class `CanvasMouseEvent`, with the fields in the order of its
constructor: type, global position, integer view position, document-space
position, modifiers. -/
structure CanvasMouseEvent where
  type : CanvasEventType
  globalPos : QPoint
  viewPos : QPoint
  scenePos : Vec2D
  modifiers : Nat
deriving DecidableEq, Repr

/-- An event handed to `Tool::toolEvent`. -/
inductive CanvasEvent where
  | mouse (e : CanvasMouseEvent)
  | tablet (e : CanvasTabletEvent)
deriving DecidableEq, Repr

/-- The tool as the sender sees it: the accepted flag an event carries when
`Tool::toolEvent` returns.  The tool is a collaborator, so the two answers are
arbitrary functions of the event. -/
structure Tool where
  tabletAccepted : CanvasTabletEvent → Bool
  mouseAccepted : CanvasMouseEvent → Bool

/-- Struct `CanvasToolEventSender::Data`: the tool (a null `QPointer` is
`none`), the canvas as the transform `Canvas::transformToScene`, and the
pressure latch. -/
structure SenderData where
  tool : Option Tool
  transformToScene : Affine2D
  mousePressure : ℚ

/-- The sender with the trace of the events it handed to `Tool::toolEvent`,
oldest first. -/
structure CanvasToolEventSender where
  d : SenderData
  delivered : List CanvasEvent

namespace CanvasToolEventSender

/-- Constructor `CanvasToolEventSender::CanvasToolEventSender`: no tool, latch
0, nothing delivered. -/
def create (transformToScene : Affine2D) : CanvasToolEventSender :=
  ⟨⟨none, transformToScene, 0⟩, []⟩

/-- Method `CanvasToolEventSender::setTool`. -/
def setTool (s : CanvasToolEventSender) (tool : Option Tool) : CanvasToolEventSender :=
  { s with d := { s.d with tool := tool } }

/-- Method `sendCanvasMouseEvent`: the returned flag and the sender afterwards. -/
def sendCanvasMouseEvent (s : CanvasToolEventSender) (event : QMouseEvent) :
    Bool × CanvasToolEventSender :=
  match s.d.tool with
  | none => (false, s)
  | some tool =>
    let toCanvasEventType : QEventType → CanvasEventType := fun type =>
      match type with
      | QEventType.MouseButtonPress => CanvasEventType.EventCanvasMousePress
      | QEventType.MouseButtonRelease => CanvasEventType.EventCanvasMouseRelease
      | QEventType.MouseButtonDblClick => CanvasEventType.EventCanvasMouseDoubleClick
      | _ => CanvasEventType.EventCanvasMouseMove
    let canvasEvent : CanvasMouseEvent :=
      ⟨toCanvasEventType event.type, event.globalPos, event.pos,
        s.d.transformToScene event.posF, event.modifiers⟩
    (tool.mouseAccepted canvasEvent,
      { s with delivered := s.delivered ++ [CanvasEvent.mouse canvasEvent] })

/-- Method `sendCanvasTabletEvent(WidgetTabletEvent *)`. -/
def sendCanvasTabletEvent (s : CanvasToolEventSender) (event : WidgetTabletEvent) :
    Bool × CanvasToolEventSender :=
  match s.d.tool with
  | none => (false, s)
  | some tool =>
    let data := event.globalData
    let globalPos := data.pos
    let viewPos := globalPos + (event.posInt - event.globalPosInt).toVec2D
    let data := { data with pos := s.d.transformToScene viewPos }
    let toCanvasEventType : WidgetEventType → CanvasEventType := fun type =>
      match type with
      | WidgetEventType.EventWidgetTabletPress => CanvasEventType.EventCanvasTabletPress
      | WidgetEventType.EventWidgetTabletRelease => CanvasEventType.EventCanvasTabletRelease
      | _ => CanvasEventType.EventCanvasTabletMove
    let canvasEvent : CanvasTabletEvent :=
      ⟨toCanvasEventType event.type, globalPos, event.globalPosInt, viewPos, event.posInt,
        data, event.modifiers⟩
    (tool.tabletAccepted canvasEvent,
      { s with delivered := s.delivered ++ [CanvasEvent.tablet canvasEvent] })

/-- Method `sendCanvasTabletEvent(QMouseEvent *)`: the tablet event
synthesized from a mouse event. -/
def sendCanvasTabletEventFromMouse (s : CanvasToolEventSender) (mouseEvent : QMouseEvent) :
    Bool × CanvasToolEventSender :=
  match s.d.tool with
  | none => (false, s)
  | some tool =>
    let toCanvasEventType : QEventType → CanvasEventType := fun type =>
      match type with
      | QEventType.MouseButtonPress => CanvasEventType.EventCanvasTabletPress
      | QEventType.MouseButtonRelease => CanvasEventType.EventCanvasTabletRelease
      | _ => CanvasEventType.EventCanvasTabletMove
    let type := toCanvasEventType mouseEvent.type
    let p1 := if type = CanvasEventType.EventCanvasTabletPress then 1 else s.d.mousePressure
    let p2 := if type = CanvasEventType.EventCanvasTabletRelease then 0 else p1
    let data : TabletInputData :=
      ⟨s.d.transformToScene mouseEvent.posF, p2, 0, 0, ⟨0, 0⟩⟩
    let tabletEvent : CanvasTabletEvent :=
      ⟨type, mouseEvent.globalPos.toVec2D, mouseEvent.globalPos, mouseEvent.pos.toVec2D,
        mouseEvent.pos, data, mouseEvent.modifiers⟩
    (tool.tabletAccepted tabletEvent,
      { d := { s.d with mousePressure := p2 }
        delivered := s.delivered ++ [CanvasEvent.tablet tabletEvent] })

/-- Method `CanvasToolEventSender::mouseEvent`: the sender afterwards and the
event with its accepted flag. -/
def mouseEvent (s : CanvasToolEventSender) (event : QMouseEvent) :
    CanvasToolEventSender × QMouseEvent :=
  match event.type with
  | QEventType.MouseButtonDblClick =>
    let r := sendCanvasMouseEvent s event
    (r.2, { event with accepted := r.1 })
  | QEventType.MouseButtonPress | QEventType.MouseButtonRelease | QEventType.MouseMove =>
    let r1 := sendCanvasTabletEventFromMouse s event
    if r1.1 then (r1.2, { event with accepted := true })
    else
      let r2 := sendCanvasMouseEvent r1.2 event
      (r2.2, { event with accepted := r2.1 })
  | _ => (s, { event with accepted := false })

/-- Method `CanvasToolEventSender::customTabletEvent`. -/
def customTabletEvent (s : CanvasToolEventSender) (event : WidgetTabletEvent) :
    CanvasToolEventSender × WidgetTabletEvent :=
  let r := sendCanvasTabletEvent s event
  (r.2, { event with accepted := r.1 })

/-- Method `CanvasToolEventSender::tabletEvent`. -/
def tabletEvent (s : CanvasToolEventSender) (event : QTabletEvent) :
    CanvasToolEventSender × QTabletEvent :=
  let toNewEventType : QEventType → WidgetEventType := fun type =>
    match type with
    | QEventType.TabletPress => WidgetEventType.EventWidgetTabletPress
    | QEventType.TabletRelease => WidgetEventType.EventWidgetTabletRelease
    | _ => WidgetEventType.EventWidgetTabletMove
  let data : TabletInputData :=
    ⟨event.hiResGlobalPos, event.pressure, event.rotation, event.tangentialPressure,
      ⟨event.xTilt, event.yTilt⟩⟩
  let widgetTabletEvent : WidgetTabletEvent :=
    ⟨toNewEventType event.type, event.globalPos, event.pos, data, event.modifiers, true⟩
  let r := customTabletEvent s widgetTabletEvent
  (r.1, { event with accepted := r.2.accepted })

/-- A run of `mouseEvent` calls, each with the tool that is set when the event
arrives. -/
def mouseEvents (s : CanvasToolEventSender) : List (Tool × QMouseEvent) → CanvasToolEventSender
  | [] => s
  | (tool, event) :: rest => mouseEvents (mouseEvent (s.setTool (some tool)) event).1 rest

end CanvasToolEventSender

/-- The pressure the spec gives to the tablet event synthesized for the latest
of a run of mouse events, listed latest first: 1 for a press, 0 for a release,
otherwise the pressure of the most recent press or release before it, and 0 if
there is none. -/
def latchedPressure : List QEventType → ℚ
  | [] => 0
  | QEventType.MouseButtonPress :: _ => 1
  | QEventType.MouseButtonRelease :: _ => 0
  | _ :: earlier => latchedPressure earlier

/-- A tool that accepts every tablet event. -/
def acceptingTool : Tool := ⟨fun _ => true, fun _ => true⟩

/-- A tool that accepts nothing. -/
def ignoringTool : Tool := ⟨fun _ => false, fun _ => false⟩

/-- A mouse event of the given type, with the left button, whose exact
position is its integer position. -/
def mouseAt (type : QEventType) (x y : Int) : QMouseEvent :=
  ⟨type, ⟨x, y⟩, ⟨x, y⟩, ⟨x, y⟩, MouseButton.LeftButton, 0, false⟩

/-- Document-space position carried by a delivered event. -/
def CanvasEvent.scenePos : CanvasEvent → Vec2D
  | CanvasEvent.mouse e => e.scenePos
  | CanvasEvent.tablet e => e.data.pos

/-- View-space (device) position carried by a delivered event. -/
def CanvasEvent.viewPos : CanvasEvent → Vec2D
  | CanvasEvent.mouse e => e.viewPos.toVec2D
  | CanvasEvent.tablet e => e.viewPos

/-- A press whose exact position (1/4, 0) rounds to the integer position (0, 0). -/
def subpixelPress : QMouseEvent :=
  ⟨QEventType.MouseButtonPress, ⟨0, 0⟩, ⟨1 / 4, 0⟩, ⟨0, 0⟩, MouseButton.LeftButton, 0, false⟩

/-- A stylus move at view position (3, 4), global position (13, 24), with the
exact global position (13.5, 24.25). -/
def stylusMove : QTabletEvent :=
  ⟨QEventType.TabletMove, ⟨3, 4⟩, ⟨13, 24⟩, ⟨27 / 2, 97 / 4⟩, 1 / 2, 0, 0, 0, 0, 0, false⟩

/-! ## Canvas navigator -/

/-- Conversion `double -> int` of C++: truncation toward zero. -/
def truncate (d : ℚ) : Int := if 0 ≤ d then ⌊d⌋ else ⌈d⌉

/-- Function `qRound(double)` of Qt (`qglobal.h`):
`d >= 0.0 ? int(d + 0.5) : int(d - double(int(d-1)) + 0.5) + int(d-1)`. -/
def qRound (d : ℚ) : Int :=
  if 0 ≤ d then truncate (d + 1 / 2)
  else truncate (d - (truncate (d - 1) : ℚ) + 1 / 2) + truncate (d - 1)

/-- Operator `QPoint * double` of Qt: both coordinates are multiplied and
rounded with `qRound`. -/
def QPoint.mul (p : QPoint) (factor : ℚ) : QPoint :=
  ⟨qRound (p.x * factor), qRound (p.y * factor)⟩

/-- Enum `CanvasNavigator::DragMode`. -/
inductive DragMode where
  | NoNavigation
  | Translating
  | Scaling
  | Rotating
deriving DecidableEq, Repr

/-- A key chord (`QKeySequence`), as its text. -/
structure QKeySequence where
  text : String
deriving DecidableEq, Repr

/-- The key tracker as the navigator uses it: the answer of
`KeyTracker::match` for each chord, with the keys held now. -/
abbrev KeyTracker := QKeySequence → Bool

/-- Cursor shapes the navigator pushes. -/
inductive CursorShape where
  | OpenHandCursor
  | ClosedHandCursor
  | SizeVerCursor
deriving DecidableEq, Repr

/-- Modelled from the spec: `CursorStack` is not in src.  Named cursor
indicators, latest first; a mode pushes a named indicator on entry and pops it
on exit. -/
abbrev CursorStack := List (String × CursorShape)

/-- Modelled from the spec: `CursorStack::add`, pushes the indicator `id`,
replacing an indicator of the same name. -/
def CursorStack.add (cs : CursorStack) (id : String) (cursor : CursorShape) : CursorStack :=
  (id, cursor) :: cs.filter (fun c => c.1 ≠ id)

/-- Modelled from the spec: `CursorStack::remove`, pops the indicator `id`. -/
def CursorStack.remove (cs : CursorStack) (id : String) : CursorStack :=
  cs.filter (fun c => c.1 ≠ id)

/-- Constant `navigatingCursorId`. -/
def navigatingCursorId : String := "paintfield.canvas.navigate"

/-- Modelled from the spec: the view transform collaborator (`Canvas`) is not
in src.  Scale, rotation in degrees and translation in device pixels, each with
a getter and a setter that stores the value. -/
structure Canvas where
  scale : ℚ
  rotation : ℚ
  translation : QPoint
deriving DecidableEq, Repr

/-- The functions of the C math library and of `QTransform` the navigator
calls: `exp2`, `atan2`, the constant `M_PI`, and the map
`p * QTransform().rotate(angle)` of an integer point. -/
structure MathEnv where
  exp2 : ℚ → ℚ
  atan2 : ℚ → ℚ → ℚ
  pi : ℚ
  rotated : ℚ → QPoint → QPoint

/-- Struct `CanvasNavigator::Data`, without the pointers to collaborators. -/
structure NavigatorData where
  scaleKeys : QKeySequence
  rotationKeys : QKeySequence
  translationKeys : QKeySequence
  navigationMode : DragMode
  navigationOrigin : QPoint
  backupScale : ℚ
  backupRotation : ℚ
  backupTranslation : QPoint
deriving DecidableEq, Repr

/-- The navigator with the collaborators it reaches: the canvas, the view
center of the controller (`CanvasViewController::viewCenter`), the key
tracker and the application cursor stack. -/
structure CanvasNavigator where
  d : NavigatorData
  canvas : Canvas
  viewCenter : QPoint
  keyTracker : KeyTracker
  cursorStack : CursorStack

namespace CanvasNavigator

/-- Method `CanvasNavigator::Data::backupTransforms`. -/
def backupTransforms (n : CanvasNavigator) : CanvasNavigator :=
  { n with d := { n.d with backupScale := n.canvas.scale,
                           backupRotation := n.canvas.rotation,
                           backupTranslation := n.canvas.translation } }

/-- Method `CanvasNavigator::beginDragTranslation`. -/
def beginDragTranslation (n : CanvasNavigator) (pos : QPoint) : CanvasNavigator :=
  backupTransforms
    { n with cursorStack := n.cursorStack.add navigatingCursorId CursorShape.ClosedHandCursor
             d := { n.d with navigationMode := DragMode.Translating, navigationOrigin := pos } }

/-- Method `CanvasNavigator::continueDragTranslation`. -/
def continueDragTranslation (n : CanvasNavigator) (pos : QPoint) : CanvasNavigator :=
  { n with canvas := { n.canvas with
      translation := n.d.backupTranslation + (pos - n.d.navigationOrigin) } }

/-- Method `CanvasNavigator::endDragTranslation`. -/
def endDragTranslation (n : CanvasNavigator) : CanvasNavigator :=
  { n with cursorStack := n.cursorStack.remove navigatingCursorId
           d := { n.d with navigationMode := DragMode.NoNavigation } }

/-- Method `CanvasNavigator::beginDragScaling`. -/
def beginDragScaling (n : CanvasNavigator) (pos : QPoint) : CanvasNavigator :=
  backupTransforms
    { n with cursorStack := n.cursorStack.add navigatingCursorId CursorShape.SizeVerCursor
             d := { n.d with navigationMode := DragMode.Scaling, navigationOrigin := pos } }

/-- Method `CanvasNavigator::continueDragScaling`. -/
def continueDragScaling (env : MathEnv) (n : CanvasNavigator) (pos : QPoint) :
    CanvasNavigator :=
  let delta := pos - n.d.navigationOrigin
  let divisor : ℚ := 100
  let scaleRatio := env.exp2 (((-delta.y : Int) : ℚ) / divisor)
  let scale := n.d.backupScale * scaleRatio
  let navigationOffset := n.d.navigationOrigin - n.viewCenter
  let translation := (n.d.backupTranslation - navigationOffset).mul scaleRatio + navigationOffset
  { n with canvas := { n.canvas with scale := scale, translation := translation } }

/-- Method `CanvasNavigator::endDragScaling`. -/
def endDragScaling (n : CanvasNavigator) : CanvasNavigator :=
  { n with cursorStack := n.cursorStack.remove navigatingCursorId
           d := { n.d with navigationMode := DragMode.NoNavigation } }

/-- Method `CanvasNavigator::beginDragRotation`. -/
def beginDragRotation (n : CanvasNavigator) (pos : QPoint) : CanvasNavigator :=
  backupTransforms
    { n with cursorStack := n.cursorStack.add navigatingCursorId CursorShape.ClosedHandCursor
             d := { n.d with navigationMode := DragMode.Rotating, navigationOrigin := pos } }

/-- Method `CanvasNavigator::continueDragRotation`. -/
def continueDragRotation (env : MathEnv) (n : CanvasNavigator) (pos : QPoint) :
    CanvasNavigator :=
  let originalDelta := n.d.navigationOrigin - n.viewCenter
  let delta := pos - n.viewCenter
  if originalDelta ≠ ⟨0, 0⟩ ∧ delta ≠ ⟨0, 0⟩ then
    let originalRotation := env.atan2 originalDelta.y originalDelta.x / env.pi * 180
    let deltaRotation := env.atan2 delta.y delta.x / env.pi * 180
    let translation := env.rotated (deltaRotation - originalRotation) n.d.backupTranslation
    { n with canvas := { n.canvas with
        rotation := n.d.backupRotation + deltaRotation - originalRotation
        translation := translation } }
  else n

/-- Method `CanvasNavigator::endDragRotation`. -/
def endDragRotation (n : CanvasNavigator) : CanvasNavigator :=
  { n with cursorStack := n.cursorStack.remove navigatingCursorId
           d := { n.d with navigationMode := DragMode.NoNavigation } }

/-- Method `CanvasNavigator::tryBeginDragNavigation`: the returned flag and the
navigator afterwards. -/
def tryBeginDragNavigation (n : CanvasNavigator) (pos : QPoint) : Bool × CanvasNavigator :=
  if n.keyTracker n.d.scaleKeys then (true, beginDragScaling n pos)
  else if n.keyTracker n.d.rotationKeys then (true, beginDragRotation n pos)
  else if n.keyTracker n.d.translationKeys then (true, beginDragTranslation n pos)
  else (false, n)

/-- Method `CanvasNavigator::continueDragNavigation`. -/
def continueDragNavigation (env : MathEnv) (n : CanvasNavigator) (pos : QPoint) :
    Bool × CanvasNavigator :=
  match n.d.navigationMode with
  | DragMode.NoNavigation => (false, n)
  | DragMode.Translating => (true, continueDragTranslation n pos)
  | DragMode.Scaling => (true, continueDragScaling env n pos)
  | DragMode.Rotating => (true, continueDragRotation env n pos)

/-- Method `CanvasNavigator::endDragNavigation`. -/
def endDragNavigation (n : CanvasNavigator) : CanvasNavigator :=
  endDragRotation (endDragScaling (endDragTranslation n))

end CanvasNavigator

/-- A math library for the examples: `exp2` is exact at integer arguments
(`exp2 (-1) = 1/2`, `exp2 1 = 2`); the other functions are not used there. -/
def sampleMath : MathEnv :=
  ⟨fun x => (2 : ℚ) ^ ⌊x⌋, fun _ _ => 0, 355 / 113, fun _ p => p⟩

/-- A key tracker that matches exactly the chords in `held`. -/
def holding (held : List QKeySequence) : KeyTracker := fun seq => decide (seq ∈ held)

/-- A navigator at rest: scale 1, rotation 0, the given translation and view
center, chords "Space+Ctrl" (scale), "Space+Shift" (rotation) and "Space"
(translation), and the given key tracker. -/
def restingNavigator (translation viewCenter : QPoint) (keyTracker : KeyTracker) :
    CanvasNavigator where
  d := {
    scaleKeys := ⟨"Space+Ctrl"⟩
    rotationKeys := ⟨"Space+Shift"⟩
    translationKeys := ⟨"Space"⟩
    navigationMode := DragMode.NoNavigation
    navigationOrigin := ⟨0, 0⟩
    backupScale := 1
    backupRotation := 0
    backupTranslation := ⟨0, 0⟩ }
  canvas := ⟨1, 0, translation⟩
  viewCenter := viewCenter
  keyTracker := keyTracker
  cursorStack := []

/-- The translation the spec gives for a scale drag, read over the rationals:
`(snapshot_translation - pivot_offset) * ratio + pivot_offset` with
`pivot_offset = origin - viewport_center`. -/
def specScalingTranslation (t0 o c : QPoint) (ratio : ℚ) : Vec2D :=
  ⟨((t0.x : ℚ) - ((o.x : ℚ) - c.x)) * ratio + ((o.x : ℚ) - c.x),
    ((t0.y : ℚ) - ((o.y : ℚ) - c.y)) * ratio + ((o.y : ℚ) - c.y)⟩

/-! ## Rectangle tool: selection, press, release and handle moves -/

/-- Constant `Qt::ShiftModifier`. -/
def ShiftModifier : Nat := 0x02000000

/-- What `QGraphicsScene::itemAt` can return at the press position: the frame
item of the tool, one of its handles, or another item. -/
inductive SceneItem where
  | frame
  | handle (index : Nat)
  | other
deriving DecidableEq, Repr

/-- Member `Layer::clone` of a rectangle layer, as the editable copy. -/
def Layer.clone (l : Layer) : AbstractRectLayer := ⟨l.rect, l.name, l.shapeType, l.isText⟩

/-- A layer object built by the tool, seen as a layer of the scene with the
given identity and place in the tree. -/
def AbstractRectLayer.asLayer (l : AbstractRectLayer) (id parent : Nat) (index : Int) : Layer :=
  ⟨id, LayerKind.rect, l.rect, ⟨0, 0, -1, -1⟩, l.name, l.shapeType, l.isText, parent, index⟩

/-- Method `RectTool::Data::LayerInfo::setOriginalLayer`. -/
def LayerInfo.setOriginalLayer (info : LayerInfo) (layer : Layer) : LayerInfo :=
  let info1 := { info with original := layer }
  let info2 :=
    if layer.kind = LayerKind.rect then
      { info1 with rectLayer := some layer.clone, originalRectPos := layer.clone.rect.topLeft }
    else info1
  if layer.kind = LayerKind.raster then
    { info2 with rasterBoundingRect := layer.surfaceBoundingRect, rasterOffset := ⟨0, 0⟩ }
  else info2

/-- The two statements `Data::LayerInfo info; info.setOriginalLayer(layer);` of
`RectTool::updateSelected`: a default-constructed info (null `rectLayer`, zero
position and offset, `QRect()`) set to the layer. -/
def LayerInfo.create (layer : Layer) : LayerInfo :=
  LayerInfo.setOriginalLayer ⟨layer, none, ⟨0, 0⟩, ⟨0, 0, -1, -1⟩, ⟨0, 0⟩⟩ layer

/-- Method `RectTool::updateSelected`, the slot of `selectionChanged`. -/
def updateSelected (t : RectTool) : Option RectTool :=
  let layers := t.layerScene.selection
  let delegations := layers.filter
    (fun layer => decide (layer.kind = LayerKind.rect) || decide (layer.kind = LayerKind.raster))
  updateGraphicsItems
    { t with
      d := { t.d with selectedLayerInfos := layers.map LayerInfo.create }
      layerDelegations := delegations }

/-- Method `RectTool::updateLayer`, the slot of `layerChanged`; layer pointers
are compared by identity. -/
def updateLayer (t : RectTool) (layer : Layer) : RectTool :=
  let infos := t.d.selectedLayerInfos.map
    (fun info => if info.original.id = layer.id then info.setOriginalLayer layer else info)
  { t with d := { t.d with selectedLayerInfos := infos } }

/-- Modelled from the spec: `LayerScene::setSelection` is not in src.  The
selection is replaced by the given layers, a null reference selecting nothing;
when the selection changes, `selectionChanged` runs the connected slot
`updateSelected`. -/
def setSelection (t : RectTool) (layers : List (Option Layer)) : Option RectTool :=
  if layers.reduceOption = t.layerScene.selection then some t
  else updateSelected { t with layerScene := { t.layerScene with selection := layers.reduceOption } }

/-- Modelled from the spec: `LayerScene::setCurrent` is not in src; it stores
the current layer. -/
def setCurrent (t : RectTool) (layer : Option Layer) : RectTool :=
  { t with layerScene := { t.layerScene with current := layer } }

/-- Modelled from the spec: the edit functions `LayerScene::setLayerProperty`,
`editLayer` and `addLayers` are not in src; each submits one edit. -/
def submitEdit (t : RectTool) (edit : SceneEdit) : RectTool :=
  { t with layerScene := { t.layerScene with edits := t.layerScene.edits ++ [edit] } }

/-- The selection update of `RectTool::tabletPressEvent`: unless the hit layer
is selected already, it is added to the selection (Shift held) or becomes the
selection. -/
def pressSelect (t : RectTool) (event : CanvasTabletEvent) (hit : Option Layer) :
    Option RectTool :=
  if hit ∈ t.layerScene.selection.map some then some t
  else if event.modifiers &&& ShiftModifier ≠ 0 then
    setSelection t (t.layerScene.selection.map some ++ [hit])
  else setSelection t [hit]

/-- The mode decision of `RectTool::tabletPressEvent`, with the reset of the
drag session when a mode is entered. -/
def pressMode (t : RectTool) (event : CanvasTabletEvent) (hit : Option Layer) : RectTool :=
  let mode :=
    if t.d.selectedLayerInfos.length ≠ 0 ∧ hit.isSome then Mode.Dragging
    else if t.d.addingType ≠ AddingType.NoAdding then Mode.Inserting
    else t.d.mode
  if mode = Mode.NoOperation then { t with d := { t.d with mode := mode } }
  else
    { t with d := { t.d with mode := mode, dragDistanceEnough := false,
                             dragStartPos := event.data.pos } }

/-- Method `RectTool::tabletPressEvent`.  `item` is what
`graphicsItem()->scene()->itemAt(event->viewPos)` returns and `hit` what
`rootLayer()->descendantAt(event->data.pos.toQPoint(), handleRadius)` returns;
the flag is the accepted flag of the event, on entry and on return. -/
def tabletPressEvent (t : RectTool) (event : CanvasTabletEvent) (item : Option SceneItem)
    (hit : Option Layer) (accepted : Bool) : Option (Bool × RectTool) :=
  if t.d.mode ≠ Mode.NoOperation then some (accepted, t)
  else if item.isSome ∧ item ≠ some SceneItem.frame then some (false, t)
  else
    (pressSelect t event hit).map fun t1 =>
      (accepted, pressMode (setCurrent t1 hit) event hit)

/-- The edit `RectTool::commit` submits for one selected layer, if any. -/
def commitEdit (info : LayerInfo) : Option SceneEdit :=
  match info.rectLayer with
  | some rectLayer =>
    some (SceneEdit.setLayerProperty info.original rectLayer.rect "Change Rect")
  | none =>
    if info.original.kind = LayerKind.raster then
      some (SceneEdit.editLayer info.original info.rasterOffset "Move Layer")
    else none

/-- Method `RectTool::commit`: the loop over `selectedLayerInfos`. -/
def commit (t : RectTool) : RectTool :=
  t.d.selectedLayerInfos.foldl
    (fun tool info =>
      match commitEdit info with
      | some edit => submitEdit tool edit
      | none => tool)
    t

/-- Method `RectTool::finishAdding`. -/
def finishAdding (t : RectTool) : Option RectTool :=
  let t1 := { t with layerInsertions := [] }
  let t2 := submitEdit t1
    (SceneEdit.addLayers t.d.layerToAdd.toList t.d.layerToAddParent t.d.layerToAddIndex
      "Add Rectangle")
  let added := t.d.layerToAdd.map
    (fun l => l.asLayer t.layerScene.nextId t.d.layerToAddParent t.d.layerToAddIndex)
  let t3 := { t2 with layerScene := { t2.layerScene with nextId := t.layerScene.nextId + 1 } }
  let t4 := setCurrent t3 added
  (setSelection t4 [added]).map fun t5 => { t5 with d := { t5.d with layerToAdd := none } }

/-- Method `RectTool::tabletReleaseEvent`; the event is not read
(`Q_UNUSED(event)`). -/
def tabletReleaseEvent (t : RectTool) (_event : CanvasTabletEvent) : Option RectTool :=
  let finished : Option RectTool :=
    if t.d.dragDistanceEnough then
      match t.d.mode with
      | Mode.Dragging => some (commit t)
      | Mode.Inserting => finishAdding t
      | _ => some t
    else some t
  finished.bind fun t1 =>
    updateGraphicsItems { t1 with d := { t1.d with mode := Mode.NoOperation } }

/-- Operator `~` on a C++ `int` mask, on the 32 bits of its two's complement. -/
def bitNot (mask : Nat) : Nat := 4294967295 ^^^ mask

/-- Method `RectHandleItem::invertHandleTypeLeftRight`. -/
def RectHandleItem.invertHandleTypeLeftRight (h : RectHandleItem) : RectHandleItem :=
  if h.handleTypes &&& Left ≠ 0 then
    { h with handleTypes := (h.handleTypes &&& bitNot Left) ||| Right }
  else if h.handleTypes &&& Right ≠ 0 then
    { h with handleTypes := (h.handleTypes &&& bitNot Right) ||| Left }
  else h

/-- Method `RectHandleItem::invertHandleTypeTopBottom`. -/
def RectHandleItem.invertHandleTypeTopBottom (h : RectHandleItem) : RectHandleItem :=
  if h.handleTypes &&& Top ≠ 0 then
    { h with handleTypes := (h.handleTypes &&& bitNot Top) ||| Bottom }
  else if h.handleTypes &&& Bottom ≠ 0 then
    { h with handleTypes := (h.handleTypes &&& bitNot Bottom) ||| Top }
  else h

/-- Member `QRectF::setCoords(x1, y1, x2, y2)`. -/
def QRectF.setCoords (_r : QRectF) (x1 y1 x2 y2 : ℚ) : QRectF := ⟨x1, y1, x2 - x1, y2 - y1⟩

/-- The four coordinates `left, top, right, bottom` of `RectTool::onHandleMoved`
after the edges named by `handleTypes` are set to the scene position and
before inverted pairs are swapped. -/
def movedEdges (rect : QRectF) (scenePos : Vec2D) (handleTypes : Nat) : ℚ × ℚ × ℚ × ℚ :=
  (if handleTypes &&& Left ≠ 0 then scenePos.x else rect.left,
   if handleTypes &&& Top ≠ 0 then scenePos.y else rect.top,
   if handleTypes &&& Right ≠ 0 then scenePos.x else rect.right,
   if handleTypes &&& Bottom ≠ 0 then scenePos.y else rect.bottom)

/-- Method `RectTool::onHandleMoved`; `none` when it dereferences a null
pointer. -/
def onHandleMoved (env : ToolEnv) (t : RectTool) (pos : Vec2D) (handleTypes : Nat) :
    Option RectTool :=
  if t.d.selectedLayerInfos.length ≠ 1 then some t
  else
    match t.d.selectedLayerInfos with
    | info :: rest =>
      match info.rectLayer with
      | none => some t
      | some rectLayer =>
        let rect := rectLayer.rect
        let keys1 := (∅ : QPointSet) ∪ rectKeysWithHandleMargin env.tileWidth rect
        let scenePos := t.transformToScene pos
        let edges := movedEdges rect scenePos handleTypes
        let swapLeftRight : Bool := decide (edges.2.2.1 < edges.1)
        let left := if swapLeftRight then edges.2.2.1 else edges.1
        let right := if swapLeftRight then edges.1 else edges.2.2.1
        let handles1 :=
          if swapLeftRight then t.d.handles.map RectHandleItem.invertHandleTypeLeftRight
          else t.d.handles
        let swapTopBottom : Bool := decide (edges.2.2.2 < edges.2.1)
        let top := if swapTopBottom then edges.2.2.2 else edges.2.1
        let bottom := if swapTopBottom then edges.2.1 else edges.2.2.2
        let handles2 :=
          if swapTopBottom then handles1.map RectHandleItem.invertHandleTypeTopBottom
          else handles1
        let rect := rect.setCoords left top right bottom
        let keys := keys1 ∪ rectKeysWithHandleMargin env.tileWidth rect
        updateGraphicsItems
          { t with
            d := { t.d with mode := Mode.MovingHandle, handles := handles2,
                            selectedLayerInfos :=
                              { info with rectLayer := some (rectLayer.setRect rect) } :: rest }
            requestUpdate := keys :: t.requestUpdate }
    | [] => some t

/-- Method `RectTool::onHandleMoveFinished`. -/
def onHandleMoveFinished (t : RectTool) : Option RectTool :=
  (updateGraphicsItems { t with d := { t.d with mode := Mode.NoOperation } }).map commit

/-- A sample rectangle layer with the rectangle (0, 0, 10, 10). -/
def rectLayerA : Layer :=
  ⟨1, LayerKind.rect, ⟨0, 0, 10, 10⟩, ⟨0, 0, -1, -1⟩, "Rectangle", ShapeType.ShapeTypeRect,
    false, 0, 0⟩

/-- A second sample rectangle layer, with the rectangle (200, 0, 30, 20). -/
def rectLayerB : Layer :=
  ⟨2, LayerKind.rect, ⟨200, 0, 30, 20⟩, ⟨0, 0, -1, -1⟩, "Ellipse", ShapeType.ShapeTypeEllipse,
    false, 0, 1⟩

/-- A sample raster layer whose surface covers the pixels (0, 0) to (63, 63). -/
def rasterLayerC : Layer :=
  ⟨3, LayerKind.raster, ⟨0, 0, 0, 0⟩, ⟨0, 0, 63, 63⟩, "Layer", ShapeType.ShapeTypeRect,
    false, 0, 2⟩

/-- An idle tool as `updateSelected` leaves it for the given selection: mode
`NoOperation`, the handles of the constructor, identity view transform. -/
def idleTool (addingType : AddingType) (selection : List Layer) (current : Option Layer) :
    RectTool where
  d := {
    addingType := addingType
    selectedLayerInfos := selection.map LayerInfo.create
    handles := constructedHandles
    frameItem := ⟨[], false⟩
    mode := Mode.NoOperation
    dragDistanceEnough := false
    dragStartPos := ⟨0, 0⟩
    originalRectPos := ⟨0, 0⟩
    layerToAdd := none
    layerToAddParent := 0
    layerToAddIndex := 0 }
  transformToView := fun p => p
  transformToScene := fun p => p
  layerScene := ⟨0, current, selection, [], 10⟩
  layerInsertions := []
  layerDelegations := []
  requestUpdate := []

/-- A press event whose document-space position is `pos`, without modifiers. -/
def pressAt (pos : Vec2D) : CanvasTabletEvent :=
  ⟨CanvasEventType.EventCanvasTabletPress, pos, ⟨0, 0⟩, pos, ⟨0, 0⟩, ⟨pos, 1, 0, 0, ⟨0, 0⟩⟩, 0⟩

/-- The Manhattan distance `abs(delta.x()) + abs(delta.y())` of a move from the
drag origin, as `RectTool::tabletMoveEvent` computes it. -/
def dragDistance (t : RectTool) (event : CanvasTabletEvent) : ℚ :=
  |(event.data.pos - t.d.dragStartPos).x| + |(event.data.pos - t.d.dragStartPos).y|

/-- A rectangle-adding tool right after a press on empty canvas at `pos`: mode
`Inserting`, threshold not crossed, nothing selected. -/
def insertingTool (pos : Vec2D) : RectTool :=
  { idleTool AddingType.AddRect [] none with
    d := { (idleTool AddingType.AddRect [] none).d with
      mode := Mode.Inserting, dragStartPos := pos } }

/-- A run of `tabletMoveEvent` calls, in order. -/
def tabletMoveEvents (env : ToolEnv) (t : RectTool) : List CanvasTabletEvent → Option RectTool
  | [] => some t
  | event :: rest => (tabletMoveEvent env t event).bind fun t1 => tabletMoveEvents env t1 rest

/-- A gesture on the route of the tool: a press, the moves in order, and a
release, each through the tablet handler of the tool.  `item` and `hit` are the
graphics item and the layer under the press position.  A press that the tool
hands to a handle continues in the mouse handlers of the handle instead; both
routes are in `pointerGesture`. -/
def gesture (env : ToolEnv) (t : RectTool) (press : CanvasTabletEvent) (item : Option SceneItem)
    (hit : Option Layer) (moves : List CanvasTabletEvent) (release : CanvasTabletEvent) :
    Option RectTool :=
  (tabletPressEvent t press item hit true).bind fun pressed =>
    (tabletMoveEvents env pressed.2 moves).bind fun moved =>
      tabletReleaseEvent moved release

/-- The Manhattan distance of a move from the position of the press. -/
def distanceFrom (press event : CanvasTabletEvent) : ℚ :=
  |(event.data.pos - press.data.pos).x| + |(event.data.pos - press.data.pos).y|

/-- A release event whose document-space position is `pos`. -/
def releaseAt (pos : Vec2D) : CanvasTabletEvent :=
  ⟨CanvasEventType.EventCanvasTabletRelease, pos, ⟨0, 0⟩, pos, ⟨0, 0⟩, ⟨pos, 0, 0, 0, ⟨0, 0⟩⟩, 0⟩

/-- Two tool states agree on the working copies, the layer scene, the layer
insertions and the type masks of the handles. -/
def RectTool.keeps (a b : RectTool) : Prop :=
  b.d.selectedLayerInfos = a.d.selectedLayerInfos ∧ b.layerScene = a.layerScene ∧
  b.layerInsertions = a.layerInsertions ∧
  b.d.handles.map (fun x => x.handleTypes) = a.d.handles.map (fun x => x.handleTypes)

/-- The tool is idle, or a drag session that started at `origin` has not
crossed the threshold. -/
def RectTool.belowThreshold (t : RectTool) (origin : Vec2D) : Prop :=
  t.d.mode = Mode.NoOperation ∨ (t.d.dragDistanceEnough = false ∧ t.d.dragStartPos = origin)

/-- A rectangle-adding tool whose drag from `pos` has just crossed the
threshold: mode `Inserting`, the provisional layer created. -/
def addingTool (pos : Vec2D) : RectTool :=
  startAdding { insertingTool pos with
    d := { (insertingTool pos).d with dragDistanceEnough := true } }

/-- The tool is inserting past the threshold in the drag session of `s`: mode
`Inserting`, flag set, the drag origin and the layer scene of `s`, the
provisional layer present, handle set complete. -/
def RectTool.addingIn (t s : RectTool) : Prop :=
  t.d.mode = Mode.Inserting ∧ t.d.dragDistanceEnough = true ∧
  t.d.dragStartPos = s.d.dragStartPos ∧ t.d.layerToAdd.isSome = true ∧
  handlesComplete t.d.handles ∧ t.layerScene = s.layerScene

/-- The type mask `mask` with the types `a` and `b` exchanged, as the spec
words it: a handle typed `a` becomes typed `b`, a handle typed `b` becomes
typed `a`, and its other types stay. -/
def exchangeTypes (a b mask : Nat) : Nat :=
  (if mask &&& a ≠ 0 then b else 0) ||| (if mask &&& b ≠ 0 then a else 0) |||
    (mask &&& bitNot (a ||| b))

/-- A sample rectangle layer with left = 10, right = 50, top = 20, bottom = 50. -/
def rectLayerD : Layer :=
  ⟨4, LayerKind.rect, ⟨10, 20, 40, 30⟩, ⟨0, 0, -1, -1⟩, "Rectangle", ShapeType.ShapeTypeRect,
    false, 0, 3⟩

/-- A tool right after a press at `pos` on a selected layer: mode `Dragging`,
threshold not crossed. -/
def pressedTool (selection : List Layer) (current : Option Layer) (pos : Vec2D) : RectTool :=
  { idleTool AddingType.NoAdding selection current with
    d := { (idleTool AddingType.NoAdding selection current).d with
      mode := Mode.Dragging, dragStartPos := pos } }

/-- A stylus event of a type other than press, move and release (such as
`QEvent::TabletEnterProximity`) at view position (3, 4), with pressure 0. -/
def proximityEvent : QTabletEvent :=
  ⟨QEventType.Other, ⟨3, 4⟩, ⟨13, 24⟩, ⟨13, 24⟩, 0, 0, 0, 0, 0, 0, false⟩

/-- A stylus move with the pressure -1/2 and the tangential pressure 3/2,
both outside [0, 1]. -/
def outOfRangeMove : QTabletEvent :=
  ⟨QEventType.TabletMove, ⟨3, 4⟩, ⟨13, 24⟩, ⟨13, 24⟩, -1 / 2, 0, 3 / 2, 0, 0, 0, false⟩

/-- A device event as the canvas view passes it to the sender: a mouse event
(`mouseEvent`) or a stylus event (`tabletEvent`). -/
inductive DeviceEvent where
  | mouse (e : QMouseEvent)
  | stylus (e : QTabletEvent)
deriving DecidableEq, Repr

/-- The sender after one device event. -/
def CanvasToolEventSender.deviceEvent (s : CanvasToolEventSender) :
    DeviceEvent → CanvasToolEventSender
  | DeviceEvent.mouse e => (s.mouseEvent e).1
  | DeviceEvent.stylus e => (s.tabletEvent e).1

/-- The sender after a run of interleaved device events, in arrival order. -/
def CanvasToolEventSender.deviceEvents (s : CanvasToolEventSender)
    (events : List DeviceEvent) : CanvasToolEventSender :=
  events.foldl CanvasToolEventSender.deviceEvent s

/-- A stylus press at view position (3, 4) with pressure 1/2. -/
def stylusPress : QTabletEvent :=
  ⟨QEventType.TabletPress, ⟨3, 4⟩, ⟨13, 24⟩, ⟨13, 24⟩, 1 / 2, 0, 0, 0, 0, 0, false⟩

/-- A tool that accepts no tablet event and every mouse event. -/
def mouseOnlyTool : Tool := ⟨fun _ => false, fun _ => true⟩

/-- An idle tool with the raster layer C as the only selected layer, all
handles hidden. -/
def rasterSelectedTool : RectTool :=
  { idleTool AddingType.NoAdding [rasterLayerC] (some rasterLayerC) with
    d := { (idleTool AddingType.NoAdding [rasterLayerC] (some rasterLayerC)).d with
      handles := constructedHandles.map (fun h => { h with visible := false }) } }

/-- A run of `onHandleMoved` calls, each with the position and the type mask
the moved handle reports; `none` when a call dereferences a null pointer. -/
def onHandleMoves (env : ToolEnv) (t : RectTool) : List (Vec2D × Nat) → Option RectTool
  | [] => some t
  | move :: rest =>
    (onHandleMoved env t move.1 move.2).bind fun t1 => onHandleMoves env t1 rest

/-- The handles carry exactly the eight handle types, each once. -/
def handlesExact (handles : List RectHandleItem) : Prop :=
  (handles.map (fun x => x.handleTypes)).Perm allHandleTypes

/-- The type mask after the two conditional exchanges of a handle move. -/
def retyped (leftRight topBottom : Bool) (mask : Nat) : Nat :=
  if topBottom then
    exchangeTypes Top Bottom (if leftRight then exchangeTypes Left Right mask else mask)
  else if leftRight then exchangeTypes Left Right mask
  else mask

/-- A sample rectangle layer away from the layer A on both axes, with the
rectangle (200, 200, 10, 10). -/
def rectLayerE : Layer :=
  ⟨5, LayerKind.rect, ⟨200, 200, 10, 10⟩, ⟨0, 0, -1, -1⟩, "Rectangle", ShapeType.ShapeTypeRect,
    false, 0, 4⟩

/-- A tool in mode `Dragging` past the threshold with the given layers
selected, pressed at `pos`. -/
def draggedTool (selection : List Layer) (pos : Vec2D) : RectTool :=
  { pressedTool selection selection.head? pos with
    d := { (pressedTool selection selection.head? pos).d with dragDistanceEnough := true } }

/-- Method `CanvasNavigator::mouseEvent`: the navigator afterwards, the event
with its accepted flag, and whether the signal `clicked` was emitted. -/
def CanvasNavigator.mouseEvent (env : MathEnv) (n : CanvasNavigator) (event : QMouseEvent) :
    CanvasNavigator × QMouseEvent × Bool :=
  let ignored := { event with accepted := false }
  match event.type with
  | QEventType.MouseButtonPress =>
    if event.button = MouseButton.LeftButton then
      let r := n.tryBeginDragNavigation event.pos
      if r.1 then (r.2, { ignored with accepted := true }, true)
      else (r.2, ignored, true)
    else (n, ignored, true)
  | QEventType.MouseMove =>
    let r := n.continueDragNavigation env event.pos
    if r.1 then (r.2, { ignored with accepted := true }, false)
    else (r.2, ignored, false)
  | QEventType.MouseButtonRelease => (n.endDragNavigation, ignored, false)
  | _ => (n, ignored, false)

/-- A mouse event of the given type and button at the given position. -/
def mouseWith (type : QEventType) (button : MouseButton) (x y : Int) : QMouseEvent :=
  ⟨type, ⟨x, y⟩, ⟨x, y⟩, ⟨x, y⟩, button, 0, false⟩

/-! ## Canvas controller -/

/-- The buttons `QMessageBox::question` can return; `Other` stands for every
other value of `QMessageBox::StandardButton`. -/
inductive StandardButton where
  | Save
  | Discard
  | Cancel
  | Other
deriving DecidableEq, Repr

/-- Signals of `CanvasController`. -/
inductive ControllerSignal where
  | shouldBeDeleted
deriving DecidableEq, Repr

/-- What the collaborators of `CanvasController` answer during one call: the
document (`isModified`, `filePath().isEmpty()`), the question dialog, the
`Save As` file dialog (whether the chosen path is empty, whether its folder is
writable) and `DocumentIO` (`saveAs`, `save`). -/
structure ControllerEnv where
  isModified : Bool
  filePathIsEmpty : Bool
  answer : StandardButton
  saveAsPathIsEmpty : Bool
  saveAsDirIsWritable : Bool
  saveAsResult : Bool
  saveResult : Bool
deriving DecidableEq, Repr

namespace CanvasController

/-- Method `CanvasController::saveAsCanvas`. -/
def saveAsCanvas (env : ControllerEnv) : Bool :=
  if env.saveAsPathIsEmpty then false
  else if !env.saveAsDirIsWritable then false
  else if !env.saveAsResult then false
  else true

/-- Method `CanvasController::saveCanvas`. -/
def saveCanvas (env : ControllerEnv) : Bool :=
  if env.filePathIsEmpty then saveAsCanvas env
  else if !env.isModified then true
  else if !env.saveResult then false
  else true

/-- Method `CanvasController::closeCanvas`: the returned flag and the signals
emitted. -/
def closeCanvas (env : ControllerEnv) : Bool × List ControllerSignal :=
  if env.isModified then
    match env.answer with
    | StandardButton.Save =>
      if !saveCanvas env then (false, [])
      else (true, [ControllerSignal.shouldBeDeleted])
    | StandardButton.Discard => (true, [ControllerSignal.shouldBeDeleted])
    | _ => (false, [])
  else (true, [ControllerSignal.shouldBeDeleted])

end CanvasController

/-- A modified document with a file path whose save fails, the user answering
Save. -/
def failedSave : ControllerEnv := ⟨true, false, StandardButton.Save, false, true, true, false⟩

/-! ## Rectangle tool: gestures that start on a handle -/

/-- Members `m_dragStartPos` and `m_originalPos` of a `RectHandleItem`, as its
`mousePressEvent` sets them. -/
structure HandleDrag where
  dragStartPos : Vec2D
  originalPos : Vec2D
deriving DecidableEq, Repr

/-- Method `RectHandleItem::mousePressEvent`; `scenePos` is `event->scenePos()`. -/
def RectHandleItem.mousePressEvent (h : RectHandleItem) (scenePos : Vec2D) : HandleDrag :=
  ⟨scenePos, h.pos⟩

/-- Method `RectHandleItem::mouseMoveEvent` of the handle at `index` of
`d->handles`: the signal `signalOnHandleMoved` runs the slot connected in
`RectTool::addHandle`, `RectTool::onHandleMoved`, with the new position and the
type mask the handle has at that time. -/
def RectHandleItem.mouseMoveEvent (env : ToolEnv) (t : RectTool) (index : Nat)
    (drag : HandleDrag) (scenePos : Vec2D) : Option RectTool :=
  match t.d.handles[index]? with
  | some h =>
    onHandleMoved env t (drag.originalPos + (scenePos - drag.dragStartPos)) h.handleTypes
  | none => some t

/-- Method `RectHandleItem::mouseReleaseEvent`: the signal
`signalOnHandleMoveFinished` runs the slot `RectTool::onHandleMoveFinished`; the
event is not read (`Q_UNUSED(event)`). -/
def RectHandleItem.mouseReleaseEvent (t : RectTool) : Option RectTool :=
  onHandleMoveFinished t

/-- A run of `RectHandleItem::mouseMoveEvent` calls on the handle at `index`,
in order. -/
def handleMouseMoves (env : ToolEnv) (t : RectTool) (index : Nat) (drag : HandleDrag) :
    List Vec2D → Option RectTool
  | [] => some t
  | scenePos :: rest =>
    (RectHandleItem.mouseMoveEvent env t index drag scenePos).bind fun t1 =>
      handleMouseMoves env t1 index drag rest

/-- A gesture with both routes of `RectTool::tabletPressEvent`.  The press goes
to the tool.  When the tool ignores it because a handle lies under the cursor
("pass event to the graphics item"), the press, the moves and the release are
mouse events of that handle: `RectHandleItem::mousePressEvent`, then
`mouseMoveEvent` for each move, then `mouseReleaseEvent`.  Otherwise the moves
and the release go to the tool, as in `gesture`.  The scene of the graphics
items is in view coordinates (the tool looks the item up with
`scene()->itemAt(event->viewPos)` and places the handles at view positions),
so the scene position of a mouse event is the view position of the event.  An
index that names no handle of the tool stands for no item of the tool: nothing
more reaches the tool. -/
def pointerGesture (env : ToolEnv) (t : RectTool) (press : CanvasTabletEvent)
    (item : Option SceneItem) (hit : Option Layer) (moves : List CanvasTabletEvent)
    (release : CanvasTabletEvent) : Option RectTool :=
  (tabletPressEvent t press item hit true).bind fun pressed =>
    match pressed.1, item with
    | false, some (SceneItem.handle index) =>
      match pressed.2.d.handles[index]? with
      | some handle =>
        (handleMouseMoves env pressed.2 index (handle.mousePressEvent press.viewPos)
          (moves.map fun m => m.viewPos)).bind RectHandleItem.mouseReleaseEvent
      | none => some pressed.2
    | _, _ =>
      (tabletMoveEvents env pressed.2 moves).bind fun moved => tabletReleaseEvent moved release

/-- The tool as `RectTool::updateSelected` leaves it when the rectangle layer D
(10, 20, 40, 30) is the selection: one working copy, the handles visible on
the corners and the edge midpoints, the frame on the outline. -/
def selectedTool : RectTool :=
  { idleTool AddingType.NoAdding [rectLayerD] (some rectLayerD) with
    d := { (idleTool AddingType.NoAdding [rectLayerD] (some rectLayerD)).d with
      handles := [
        ⟨Top ||| Left, ⟨10, 20⟩, true, 1, false⟩,
        ⟨Top ||| Right, ⟨50, 20⟩, true, 1, false⟩,
        ⟨Bottom ||| Left, ⟨10, 50⟩, true, 1, false⟩,
        ⟨Bottom ||| Right, ⟨50, 50⟩, true, 1, false⟩,
        ⟨Top, ⟨30, 20⟩, true, 0, false⟩,
        ⟨Bottom, ⟨30, 50⟩, true, 0, false⟩,
        ⟨Left, ⟨10, 35⟩, true, 0, false⟩,
        ⟨Right, ⟨50, 35⟩, true, 0, false⟩]
      frameItem := ⟨[⟨10, 20⟩, ⟨50, 20⟩, ⟨50, 50⟩, ⟨10, 50⟩, ⟨10, 20⟩], true⟩ }
    layerDelegations := [rectLayerD] }

/-- A press event at the document-space position `pos` with Shift held. -/
def shiftPressAt (pos : Vec2D) : CanvasTabletEvent :=
  { pressAt pos with modifiers := ShiftModifier }

/-! # Theorems -/

/-! ## Point arithmetic -/

theorem qpoint_add_def (a b : QPoint) : a + b = ⟨a.x + b.x, a.y + b.y⟩ := rfl
theorem qpoint_sub_def (a b : QPoint) : a - b = ⟨a.x - b.x, a.y - b.y⟩ := rfl
theorem vec2d_add_def (a b : Vec2D) : a + b = ⟨a.x + b.x, a.y + b.y⟩ := rfl
theorem vec2d_sub_def (a b : Vec2D) : a - b = ⟨a.x - b.x, a.y - b.y⟩ := rfl

/-! ## Coverage lemmas -/

theorem mem_rectToKeys (T : Int) (r : QRect) (k : QPoint) :
    k ∈ Surface.rectToKeys T r ↔
      (⌊(r.left : ℚ) / T⌋ ≤ k.x ∧ k.x < ⌈((r.left + r.width : Int) : ℚ) / T⌉) ∧
      (⌊(r.top : ℚ) / T⌋ ≤ k.y ∧ k.y < ⌈((r.top + r.height : Int) : ℚ) / T⌉) := by
  unfold Surface.rectToKeys
  simp only [Finset.mem_image, Finset.mem_product, Finset.mem_Ico, Prod.exists]
  constructor
  · rintro ⟨a, b, h, rfl⟩
    exact h
  · intro h
    exact ⟨k.x, k.y, h, rfl⟩

theorem toAlignedRect_left (r : QRectF) : r.toAlignedRect.left = ⌊r.xp⌋ := rfl

theorem toAlignedRect_top (r : QRectF) : r.toAlignedRect.top = ⌊r.yp⌋ := rfl

theorem toAlignedRect_right (r : QRectF) :
    r.toAlignedRect.left + r.toAlignedRect.width = ⌈r.xp + r.w⌉ := by
  simp only [QRectF.toAlignedRect, QRect.ofSize, QRect.left, QRect.width]
  ring

theorem toAlignedRect_bottom (r : QRectF) :
    r.toAlignedRect.top + r.toAlignedRect.height = ⌈r.yp + r.h⌉ := by
  simp only [QRectF.toAlignedRect, QRect.ofSize, QRect.top, QRect.height]
  ring

/-- One axis of the coverage argument: a coordinate `c` with
`lo - 4 <= c <= hi + 4`, bounds which hold with room to spare for a coordinate
of the unexpanded interval, falls into a tile column that is kept after the
interval is aligned outward. -/
theorem axis_covered (T : Int) (hT : 0 < T) (lo hi c : ℚ)
    (h1 : lo ≤ c) (h2 : c < hi) :
    ⌊((⌊lo⌋ : Int) : ℚ) / T⌋ ≤ ⌊c / (T : ℚ)⌋ ∧
      ⌊c / (T : ℚ)⌋ < ⌈((⌈hi⌉ : Int) : ℚ) / T⌉ := by
  have hTq : (0 : ℚ) < T := by exact_mod_cast hT
  constructor
  · apply Int.floor_le_floor
    apply div_le_div_of_nonneg_right _ hTq.le
    exact le_trans (Int.floor_le lo) h1
  · rw [← Int.cast_lt (R := ℚ)]
    have hc : ((⌊c / (T : ℚ)⌋ : Int) : ℚ) ≤ c / T := Int.floor_le _
    have hlt : c / (T : ℚ) < ((⌈hi⌉ : Int) : ℚ) / T := by
      apply div_lt_div_of_pos_right _ hTq
      exact lt_of_lt_of_le h2 (Int.le_ceil hi)
    exact lt_of_le_of_lt hc (lt_of_lt_of_le hlt (Int.le_ceil _))

/-- Membership in `rectKeysWithHandleMargin`, in terms of the rectangle grown
by the handle radius. -/
theorem mem_rectKeysWithHandleMargin (T : Int) (r : QRectF) (k : QPoint) :
    k ∈ rectKeysWithHandleMargin T r ↔
      (⌊((⌊r.xp - 4⌋ : Int) : ℚ) / T⌋ ≤ k.x ∧ k.x < ⌈((⌈r.xp + r.w + 4⌉ : Int) : ℚ) / T⌉) ∧
      (⌊((⌊r.yp - 4⌋ : Int) : ℚ) / T⌋ ≤ k.y ∧ k.y < ⌈((⌈r.yp + r.h + 4⌉ : Int) : ℚ) / T⌉) := by
  unfold rectKeysWithHandleMargin
  rw [mem_rectToKeys, toAlignedRect_right, toAlignedRect_bottom, toAlignedRect_left,
    toAlignedRect_top]
  have e1 : r.xp + (-((handleRadius : Int) : ℚ)) = r.xp - 4 := by
    simp [handleRadius, sub_eq_add_neg]
  have e2 : r.yp + (-((handleRadius : Int) : ℚ)) = r.yp - 4 := by
    simp [handleRadius, sub_eq_add_neg]
  have e3 : r.xp + (-((handleRadius : Int) : ℚ)) +
      (r.w + ((handleRadius : Int) : ℚ) - (-((handleRadius : Int) : ℚ))) = r.xp + r.w + 4 := by
    simp [handleRadius]; ring
  have e4 : r.yp + (-((handleRadius : Int) : ℚ)) +
      (r.h + ((handleRadius : Int) : ℚ) - (-((handleRadius : Int) : ℚ))) = r.yp + r.h + 4 := by
    simp [handleRadius]; ring
  simp only [QRectF.adjusted]
  rw [e3, e4, e1, e2]

/-- Coverage of `rectKeysWithHandleMargin` for a point within the borders. -/
theorem rectKeys_cover (T : Int) (hT : 0 < T) (R : QRectF) (p : Vec2D)
    (hl : R.xp ≤ p.x) (hr : p.x ≤ R.xp + R.w) (ht : R.yp ≤ p.y) (hb : p.y ≤ R.yp + R.h) :
    tileKeyOf T p ∈ rectKeysWithHandleMargin T R := by
  rw [mem_rectKeysWithHandleMargin]
  exact ⟨axis_covered T hT _ _ p.x (by linarith) (by linarith),
    axis_covered T hT _ _ p.y (by linarith) (by linarith)⟩

/-! ## Bounding rectangles -/

namespace QRectF

theorem isNull_eq_true (r : QRectF) : r.isNull = true ↔ r.w = 0 ∧ r.h = 0 := by
  simp [isNull]

theorem isNull_eq_false (r : QRectF) : r.isNull = false ↔ ¬ (r.w = 0 ∧ r.h = 0) := by
  rw [← isNull_eq_true]; simp

theorem normLeft_le_normRight (r : QRectF) : r.normLeft ≤ r.normRight := by
  unfold normLeft normRight; split_ifs <;> linarith

theorem normTop_le_normBottom (r : QRectF) : r.normTop ≤ r.normBottom := by
  unfold normTop normBottom; split_ifs <;> linarith

theorem normRight_sub_normLeft (r : QRectF) : r.normRight - r.normLeft = |r.w| := by
  unfold normLeft normRight
  split_ifs with h
  · rw [abs_of_neg h]; ring
  · rw [abs_of_nonneg (not_lt.mp h)]; ring

theorem normBottom_sub_normTop (r : QRectF) : r.normBottom - r.normTop = |r.h| := by
  unfold normTop normBottom
  split_ifs with h
  · rw [abs_of_neg h]; ring
  · rw [abs_of_nonneg (not_lt.mp h)]; ring

theorem contains_holds (r : QRectF) (p : Vec2D) (h : r.contains p = true) : r.holds p := by
  unfold contains at h
  split_ifs at h with h1 h2 h3 h4 h5 h6
  refine ⟨?_, ⟨not_lt.mp h2, not_lt.mp h3⟩, ⟨not_lt.mp h5, not_lt.mp h6⟩⟩
  rw [isNull_eq_false]
  rintro ⟨hw, -⟩
  apply h1
  have := normRight_sub_normLeft r
  rw [hw, abs_zero] at this
  linarith

/-- The bounding rectangle of two rectangles that are not null. -/
theorem united_general (a b : QRectF) (ha : a.isNull = false) (hb : b.isNull = false) :
    a.united b =
      ⟨min a.normLeft b.normLeft, min a.normTop b.normTop,
        max a.normRight b.normRight - min a.normLeft b.normLeft,
        max a.normBottom b.normBottom - min a.normTop b.normTop⟩ := by
  unfold united normLeft normRight normTop normBottom
  simp only [ha, hb, Bool.false_eq_true, if_false]
  split_ifs <;> rfl

/-- A rectangle with non-negative width and height is its own normal form. -/
theorem norm_of_nonneg (r : QRectF) (hw : 0 ≤ r.w) (hh : 0 ≤ r.h) :
    r.normLeft = r.xp ∧ r.normRight = r.xp + r.w ∧ r.normTop = r.yp ∧
      r.normBottom = r.yp + r.h := by
  unfold normLeft normRight normTop normBottom
  simp [not_lt.mpr hw, not_lt.mpr hh]

theorem united_general_nonneg (a b : QRectF) (ha : a.isNull = false) (hb : b.isNull = false) :
    0 ≤ (a.united b).w ∧ 0 ≤ (a.united b).h := by
  rw [united_general a b ha hb]
  have h1 := normLeft_le_normRight a
  have h2 := normTop_le_normBottom a
  have h3 := min_le_left a.normLeft b.normLeft
  have h4 := le_max_left a.normRight b.normRight
  have h5 := min_le_left a.normTop b.normTop
  have h6 := le_max_left a.normBottom b.normBottom
  constructor <;> simp only <;> linarith

theorem united_general_not_null (a b : QRectF) (ha : a.isNull = false)
    (hb : b.isNull = false) : (a.united b).isNull = false := by
  have ha' := (isNull_eq_false a).mp ha
  rw [united_general a b ha hb, isNull_eq_false]
  rintro ⟨hw, hh⟩
  simp only at hw hh
  apply ha'
  have h1 := normLeft_le_normRight a
  have h2 := normTop_le_normBottom a
  have h3 := min_le_left a.normLeft b.normLeft
  have h4 := le_max_left a.normRight b.normRight
  have h5 := min_le_left a.normTop b.normTop
  have h6 := le_max_left a.normBottom b.normBottom
  have e1 := normRight_sub_normLeft a
  have e2 := normBottom_sub_normTop a
  constructor
  · apply abs_eq_zero.mp
    linarith
  · apply abs_eq_zero.mp
    linarith

theorem united_holds_left (a b : QRectF) (p : Vec2D) (h : a.holds p) :
    (a.united b).holds p := by
  obtain ⟨ha, ⟨hx1, hx2⟩, hy1, hy2⟩ := h
  by_cases hb : b.isNull = true
  · have : a.united b = a := by simp [united, ha, hb]
    rw [this]
    exact ⟨ha, ⟨hx1, hx2⟩, hy1, hy2⟩
  · have hb' : b.isNull = false := by simpa using hb
    refine ⟨united_general_not_null a b ha hb', ?_⟩
    obtain ⟨hw, hh⟩ := united_general_nonneg a b ha hb'
    obtain ⟨n1, n2, n3, n4⟩ := norm_of_nonneg _ hw hh
    unfold covers
    rw [n1, n2, n3, n4, united_general a b ha hb']
    simp only
    have h3 := min_le_left a.normLeft b.normLeft
    have h4 := le_max_left a.normRight b.normRight
    have h5 := min_le_left a.normTop b.normTop
    have h6 := le_max_left a.normBottom b.normBottom
    refine ⟨⟨?_, ?_⟩, ?_, ?_⟩ <;> linarith

theorem united_holds_right (a b : QRectF) (p : Vec2D) (h : b.holds p) :
    (a.united b).holds p := by
  obtain ⟨hb, ⟨hx1, hx2⟩, hy1, hy2⟩ := h
  by_cases ha : a.isNull = true
  · have : a.united b = b := by simp [united, ha]
    rw [this]
    exact ⟨hb, ⟨hx1, hx2⟩, hy1, hy2⟩
  · have ha' : a.isNull = false := by simpa using ha
    refine ⟨united_general_not_null a b ha' hb, ?_⟩
    obtain ⟨hw, hh⟩ := united_general_nonneg a b ha' hb
    obtain ⟨n1, n2, n3, n4⟩ := norm_of_nonneg _ hw hh
    unfold covers
    rw [n1, n2, n3, n4, united_general a b ha' hb]
    simp only
    have h3 := min_le_right a.normLeft b.normLeft
    have h4 := le_max_right a.normRight b.normRight
    have h5 := min_le_right a.normTop b.normTop
    have h6 := le_max_right a.normBottom b.normBottom
    refine ⟨⟨?_, ?_⟩, ?_, ?_⟩ <;> linarith

/-- Two successive extensions by rectangles of one size, as the drag loop
performs them, keep the width and the height non-negative. -/
theorem united_twice_nonneg (a b c : QRectF) (hw : b.w = c.w) (hh : b.h = c.h)
    (ha : 0 ≤ a.w ∧ 0 ≤ a.h) :
    0 ≤ ((a.united b).united c).w ∧ 0 ≤ ((a.united b).united c).h := by
  by_cases hb : b.isNull = true
  · have hc : c.isNull = true := by
      rw [isNull_eq_true] at hb ⊢
      exact ⟨hw ▸ hb.1, hh ▸ hb.2⟩
    have hbz := (isNull_eq_true b).mp hb
    have hcz := (isNull_eq_true c).mp hc
    by_cases ha0 : a.isNull = true
    · have : (a.united b).united c = c := by simp [united, ha0, hb]
      rw [this, hcz.1, hcz.2]; simp
    · have : (a.united b).united c = a := by simp [united, ha0, hb, hc]
      rw [this]; exact ha
  · have hb' : b.isNull = false := by simpa using hb
    have hc' : c.isNull = false := by
      rw [isNull_eq_false] at hb' ⊢
      rw [← hw, ← hh]; exact hb'
    have hab : (a.united b).isNull = false := by
      by_cases ha0 : a.isNull = true
      · have : a.united b = b := by simp [united, ha0]
        rw [this]; exact hb'
      · exact united_general_not_null a b (by simpa using ha0) hb'
    exact united_general_nonneg _ c hab hc'

end QRectF

/-! ## The drag loop -/

theorem ofQRect_translated_size (r : QRect) (p q : QPoint) :
    (QRectF.ofQRect (r.translated p)).w = (QRectF.ofQRect (r.translated q)).w ∧
      (QRectF.ofQRect (r.translated p)).h = (QRectF.ofQRect (r.translated q)).h := by
  simp only [QRectF.ofQRect, QRect.translated, QRect.width, QRect.height]
  constructor <;> push_cast <;> ring

theorem dragInfo_nonneg (env : ToolEnv) (delta : Vec2D) (whole : QRectF) (info : LayerInfo)
    (h : 0 ≤ whole.w ∧ 0 ≤ whole.h) :
    0 ≤ (dragInfo env delta whole info).1.w ∧ 0 ≤ (dragInfo env delta whole info).1.h := by
  unfold dragInfo
  cases hr : info.rectLayer with
  | some rectLayer =>
    simp only
    exact QRectF.united_twice_nonneg _ _ _ rfl rfl h
  | none =>
    simp only
    split_ifs
    · exact QRectF.united_twice_nonneg _ _ _
        (ofQRect_translated_size _ _ _).1 (ofQRect_translated_size _ _ _).2 h
    · exact h

theorem dragInfo_holds (env : ToolEnv) (delta : Vec2D) (whole : QRectF) (info : LayerInfo)
    (p : Vec2D) (h : whole.holds p) : (dragInfo env delta whole info).1.holds p := by
  unfold dragInfo
  cases hr : info.rectLayer with
  | some rectLayer =>
    exact QRectF.united_holds_left _ _ _ (QRectF.united_holds_left _ _ _ h)
  | none =>
    simp only
    split_ifs
    · exact QRectF.united_holds_left _ _ _ (QRectF.united_holds_left _ _ _ h)
    · exact h

/-- The rectangle of a layer before the move is part of the bounding rectangle. -/
theorem dragInfo_before (env : ToolEnv) (delta : Vec2D) (whole : QRectF) (info : LayerInfo)
    (r : QRectF) (p : Vec2D) (hr : info.workingRect = some r) (hp : r.holds p) :
    (dragInfo env delta whole info).1.holds p := by
  unfold LayerInfo.workingRect at hr
  unfold dragInfo
  cases hl : info.rectLayer with
  | some rectLayer =>
    rw [hl] at hr
    simp only [Option.some.injEq] at hr
    subst hr
    exact QRectF.united_holds_left _ _ _
      (QRectF.united_holds_right _ _ _ hp)
  | none =>
    rw [hl] at hr
    simp only at hr ⊢
    split_ifs at hr ⊢ with hk
    simp only [Option.some.injEq] at hr
    subst hr
    exact QRectF.united_holds_left _ _ _
      (QRectF.united_holds_right _ _ _ hp)

/-- The rectangle of a layer after the move is part of the bounding rectangle. -/
theorem dragInfo_after (env : ToolEnv) (delta : Vec2D) (whole : QRectF) (info : LayerInfo)
    (r : QRectF) (p : Vec2D) (hr : (dragInfo env delta whole info).2.workingRect = some r)
    (hp : r.holds p) :
    (dragInfo env delta whole info).1.holds p := by
  unfold LayerInfo.workingRect at hr
  unfold dragInfo at hr ⊢
  cases hl : info.rectLayer with
  | some rectLayer =>
    rw [hl] at hr
    simp only [Option.some.injEq, AbstractRectLayer.setRect] at hr
    subst hr
    exact QRectF.united_holds_right _ _ _ hp
  | none =>
    rw [hl] at hr
    simp only at hr ⊢
    split_ifs at hr ⊢ with hk
    · simp only [hl, hk, if_true, Option.some.injEq] at hr
      subst hr
      exact QRectF.united_holds_right _ _ _ hp
    · simp [hl, hk] at hr

theorem dragInfos_nonneg (env : ToolEnv) (delta : Vec2D) (infos : List LayerInfo) :
    ∀ whole : QRectF, (0 ≤ whole.w ∧ 0 ≤ whole.h) →
      0 ≤ (dragInfos env delta whole infos).1.w ∧ 0 ≤ (dragInfos env delta whole infos).1.h := by
  induction infos with
  | nil => intro whole h; exact h
  | cons info rest ih =>
    intro whole h
    exact ih _ (dragInfo_nonneg env delta whole info h)

theorem dragInfos_holds (env : ToolEnv) (delta : Vec2D) (infos : List LayerInfo) (p : Vec2D) :
    ∀ whole : QRectF, whole.holds p → (dragInfos env delta whole infos).1.holds p := by
  induction infos with
  | nil => intro whole h; exact h
  | cons info rest ih =>
    intro whole h
    exact ih _ (dragInfo_holds env delta whole info p h)

theorem dragInfos_length (env : ToolEnv) (delta : Vec2D) (infos : List LayerInfo) :
    ∀ whole : QRectF, (dragInfos env delta whole infos).2.length = infos.length := by
  induction infos with
  | nil => intro whole; rfl
  | cons info rest ih =>
    intro whole
    simp [dragInfos, ih]

/-- The bounding rectangle computed by the drag loop holds every point of the
rectangle of every rect or raster layer, before and after the move. -/
theorem dragInfos_covers (env : ToolEnv) (delta : Vec2D) (p : Vec2D) (infos : List LayerInfo) :
    ∀ (whole : QRectF) (i : Nat) (info after : LayerInfo) (r : QRectF),
      infos[i]? = some info →
      (dragInfos env delta whole infos).2[i]? = some after →
      (info.workingRect = some r ∨ after.workingRect = some r) →
      r.holds p →
      (dragInfos env delta whole infos).1.holds p := by
  induction infos with
  | nil => intro whole i info after r h; simp at h
  | cons head rest ih =>
    intro whole i info after r h1 h2 hr hp
    cases i with
    | zero =>
      simp only [List.getElem?_cons_zero, Option.some.injEq] at h1
      simp only [dragInfos, List.getElem?_cons_zero, Option.some.injEq] at h2
      subst h1 h2
      show (dragInfos env delta (dragInfo env delta whole head).1 rest).1.holds p
      apply dragInfos_holds env delta rest p (dragInfo env delta whole head).1
      rcases hr with hr | hr
      · exact dragInfo_before env delta whole _ r p hr hp
      · exact dragInfo_after env delta whole _ r p hr hp
    | succ j =>
      simp only [List.getElem?_cons_succ] at h1
      simp only [dragInfos, List.getElem?_cons_succ] at h2
      exact ih _ j info after r h1 h2 hr hp

/-! ## Graphics items -/

theorem findHandle_map (f : RectHandleItem → RectHandleItem)
    (hf : ∀ h, (f h).handleTypes = h.handleTypes) (types : Nat) :
    ∀ handles : List RectHandleItem, findHandle (handles.map f) types = findHandle handles types := by
  intro handles
  induction handles with
  | nil => rfl
  | cons h rest ih => simp only [List.map_cons, findHandle, hf, ih]

theorem findHandle_modify (f : RectHandleItem → RectHandleItem)
    (hf : ∀ h, (f h).handleTypes = h.handleTypes) (types : Nat) :
    ∀ (handles : List RectHandleItem) (i : Nat),
      findHandle (handles.modify f i) types = findHandle handles types := by
  intro handles
  induction handles with
  | nil => intro i; simp
  | cons h rest ih =>
    intro i
    cases i with
    | zero => simp only [List.modify_zero_cons, findHandle, hf]
    | succ j =>
      rw [List.modify_succ_cons]
      simp only [findHandle]
      rw [ih]

theorem setHandlePos_some (handles : List RectHandleItem) (types : Nat) (pos : Vec2D)
    (h : (findHandle handles types).isSome = true) :
    ∃ moved, setHandlePos handles types pos = some moved ∧
      ∀ other, findHandle moved other = findHandle handles other := by
  obtain ⟨i, hi⟩ := Option.isSome_iff_exists.mp h
  refine ⟨handles.modify (fun h => { h with pos := pos }) i, ?_, ?_⟩
  · simp [setHandlePos, hi]
  · intro other
    exact findHandle_modify (fun h => { h with pos := pos }) (fun _ => rfl) other handles i

theorem updateHandles_isSome (t : RectTool) (hc : handlesComplete t.d.handles) :
    (updateHandles t).isSome = true := by
  unfold updateHandles
  split_ifs with hlen
  · cases hhead : t.d.selectedLayerInfos.head? with
    | none => rfl
    | some info =>
      cases hrl : info.rectLayer with
      | none => simp [hrl]
      | some rectLayer =>
        simp only [hrl]
        have h0 : ∀ other, findHandle (t.d.handles.map (fun h => { h with visible := true }))
            other = findHandle t.d.handles other :=
          fun other => findHandle_map (fun h => { h with visible := true }) (fun _ => rfl)
            other t.d.handles
        have ok : ∀ (hs : List RectHandleItem),
            (∀ other, findHandle hs other = findHandle t.d.handles other) →
            ∀ types ∈ allHandleTypes, (findHandle hs types).isSome = true := by
          intro hs hh types hty
          rw [hh]; exact hc types hty
        obtain ⟨h1, e1, f1⟩ := setHandlePos_some _ Left
          (midpoint (t.transformToView rectLayer.rect.topLeft)
            (t.transformToView rectLayer.rect.bottomLeft))
          (ok _ h0 _ (by simp [allHandleTypes]))
        have g1 := fun o => (f1 o).trans (h0 o)
        obtain ⟨h2, e2, f2⟩ := setHandlePos_some h1 Right
          (midpoint (t.transformToView rectLayer.rect.topRight)
            (t.transformToView rectLayer.rect.bottomRight))
          (ok _ g1 _ (by simp [allHandleTypes]))
        have g2 := fun o => (f2 o).trans (g1 o)
        obtain ⟨h3, e3, f3⟩ := setHandlePos_some h2 Top
          (midpoint (t.transformToView rectLayer.rect.topLeft)
            (t.transformToView rectLayer.rect.topRight))
          (ok _ g2 _ (by simp [allHandleTypes]))
        have g3 := fun o => (f3 o).trans (g2 o)
        obtain ⟨h4, e4, f4⟩ := setHandlePos_some h3 Bottom
          (midpoint (t.transformToView rectLayer.rect.bottomLeft)
            (t.transformToView rectLayer.rect.bottomRight))
          (ok _ g3 _ (by simp [allHandleTypes]))
        have g4 := fun o => (f4 o).trans (g3 o)
        obtain ⟨h5, e5, f5⟩ := setHandlePos_some h4 (Left ||| Top)
          (t.transformToView rectLayer.rect.topLeft) (ok _ g4 _ (by simp [allHandleTypes]))
        have g5 := fun o => (f5 o).trans (g4 o)
        obtain ⟨h6, e6, f6⟩ := setHandlePos_some h5 (Left ||| Bottom)
          (t.transformToView rectLayer.rect.bottomLeft) (ok _ g5 _ (by simp [allHandleTypes]))
        have g6 := fun o => (f6 o).trans (g5 o)
        obtain ⟨h7, e7, f7⟩ := setHandlePos_some h6 (Right ||| Top)
          (t.transformToView rectLayer.rect.topRight) (ok _ g6 _ (by simp [allHandleTypes]))
        have g7 := fun o => (f7 o).trans (g6 o)
        obtain ⟨h8, e8, -⟩ := setHandlePos_some h7 (Right ||| Bottom)
          (t.transformToView rectLayer.rect.bottomRight) (ok _ g7 _ (by simp [allHandleTypes]))
        simp [e1, e2, e3, e4, e5, e6, e7, e8]
  · rfl

/-- With a complete handle set and outside the mode `Inserting`,
`updateGraphicsItems` returns; it changes graphics items only. -/
theorem updateGraphicsItems_some (t : RectTool) (hc : handlesComplete t.d.handles)
    (hm : t.d.mode ≠ Mode.Inserting) :
    ∃ t', updateGraphicsItems t = some t' ∧
      t'.d.selectedLayerInfos = t.d.selectedLayerInfos ∧
      t'.requestUpdate = t.requestUpdate := by
  obtain ⟨handles, hh⟩ := Option.isSome_iff_exists.mp (updateHandles_isSome t hc)
  have hf : ∃ frame, updateFrame t = some frame := by
    unfold updateFrame
    simp [hm]
  obtain ⟨frame, hfr⟩ := hf
  refine ⟨{ t with d := { t.d with handles := handles, frameItem := frame } }, ?_, rfl, rfl⟩
  simp [updateGraphicsItems, hh, hfr]

/-- C1: for every rectangle R and every point inside R (borders included),
the tile key of the point belongs to `rectKeysWithHandleMargin R`, for every
positive tile edge length: no tile whose square overlaps R is omitted. -/
theorem rectKeysWithHandleMargin_covers (tileWidth : Int) (hT : 0 < tileWidth)
    (R : QRectF) (p : Vec2D)
    (hl : R.left ≤ p.x) (hr : p.x ≤ R.right) (ht : R.top ≤ p.y) (hb : p.y ≤ R.bottom) :
    tileKeyOf tileWidth p ∈ rectKeysWithHandleMargin tileWidth R :=
  rectKeys_cover tileWidth hT R p hl hr ht hb

/-- Witness of C1: the point (5, 70) of the rectangle (0, 0, 10, 100), tile
edge length 64; its tile key is (0, 1). -/
theorem rectKeysWithHandleMargin_covers_witness :
    tileKeyOf 64 ⟨5, 70⟩ = ⟨0, 1⟩ ∧
      tileKeyOf 64 ⟨5, 70⟩ ∈ rectKeysWithHandleMargin 64 ⟨0, 0, 10, 100⟩ :=
  ⟨by
      simp only [tileKeyOf, QPoint.mk.injEq, Int.floor_eq_iff]
      norm_num,
    rectKeysWithHandleMargin_covers 64 (by decide) ⟨0, 0, 10, 100⟩ ⟨5, 70⟩
      (by norm_num [QRectF.left]) (by norm_num [QRectF.right])
      (by norm_num [QRectF.top]) (by norm_num [QRectF.bottom])⟩

/-- The key set of a bounding rectangle with non-negative size holds the tile
key of every point the rectangle holds. -/
theorem rectKeys_of_holds (T : Int) (hT : 0 < T) (whole : QRectF) (p : Vec2D)
    (hn : 0 ≤ whole.w ∧ 0 ≤ whole.h) (h : whole.holds p) :
    tileKeyOf T p ∈ rectKeysWithHandleMargin T whole := by
  obtain ⟨n1, n2, n3, n4⟩ := QRectF.norm_of_nonneg whole hn.1 hn.2
  obtain ⟨-, ⟨hx1, hx2⟩, hy1, hy2⟩ := h
  rw [n1] at hx1
  rw [n2] at hx2
  rw [n3] at hy1
  rw [n4] at hy2
  exact rectKeys_cover T hT whole p hx1 hx2 hy1 hy2

/-- C2: a move in mode `Dragging` after the threshold was crossed (tile edge
length positive, handle set complete) returns, emits one key set through
`requestUpdate`, and replaces the working copies by the moved ones; for every
selected rect layer or raster layer, that key set contains the tile key of
every point of the layer's rectangle before the move and of every point of its
rectangle after the move.  The points of a rectangle are those between its
borders, borders included; a null rectangle (width and height both zero) is
the empty rectangle of Qt and has none. -/
theorem tabletMoveEvent_dragging_covers (env : ToolEnv) (hT : 0 < env.tileWidth)
    (t : RectTool) (event : CanvasTabletEvent)
    (hmode : t.d.mode = Mode.Dragging) (henough : t.d.dragDistanceEnough = true)
    (hc : handlesComplete t.d.handles) :
    ∃ t' keys, tabletMoveEvent env t event = some t' ∧
      t'.requestUpdate = keys :: t.requestUpdate ∧
      t'.d.selectedLayerInfos =
        (dragInfos env (event.data.pos - t.d.dragStartPos) QRectF.null
          t.d.selectedLayerInfos).2 ∧
      ∀ (i : Nat) (before after : LayerInfo) (r : QRectF) (p : Vec2D),
        t.d.selectedLayerInfos[i]? = some before →
        t'.d.selectedLayerInfos[i]? = some after →
        (before.workingRect = some r ∨ after.workingRect = some r) →
        r.holds p →
        tileKeyOf env.tileWidth p ∈ keys := by
  obtain ⟨t', ht', hinfos, hreq⟩ := updateGraphicsItems_some
    { t with
      d := { t.d with selectedLayerInfos :=
        (dragInfos env (event.data.pos - t.d.dragStartPos) QRectF.null
          t.d.selectedLayerInfos).2 }
      requestUpdate := rectKeysWithHandleMargin env.tileWidth
        (dragInfos env (event.data.pos - t.d.dragStartPos) QRectF.null
          t.d.selectedLayerInfos).1 :: t.requestUpdate }
    hc (by simp [hmode])
  simp only at hinfos hreq
  refine ⟨t', rectKeysWithHandleMargin env.tileWidth
        (dragInfos env (event.data.pos - t.d.dragStartPos) QRectF.null
          t.d.selectedLayerInfos).1, ?_, hreq, hinfos, ?_⟩
  · simp only [henough, hmode] at ht'
    simp only [tabletMoveEvent, henough, hmode, if_true]
    exact ht'
  · intro i before after r p hb ha hr hp
    rw [hinfos] at ha
    have hnull : 0 ≤ QRectF.null.w ∧ 0 ≤ QRectF.null.h := by simp [QRectF.null]
    apply rectKeys_of_holds env.tileWidth hT
    · exact dragInfos_nonneg env (event.data.pos - t.d.dragStartPos) t.d.selectedLayerInfos
        QRectF.null hnull
    · exact dragInfos_covers env (event.data.pos - t.d.dragStartPos) p t.d.selectedLayerInfos
        QRectF.null i before after r hb ha hr hp

theorem constructedHandles_complete : handlesComplete constructedHandles := by
  unfold handlesComplete
  decide

/-- Witness of C2: dragging the rectangle (0, 0, 10, 10) by (100, 0) emits a
key set with tile (0, 0), which holds the vacated point (5, 5), and tile (1, 0),
which holds the occupied point (105, 5). -/
theorem tabletMoveEvent_dragging_covers_witness :
    ∃ t' keys, tabletMoveEvent sampleEnv draggingTool (moveTo ⟨100, 0⟩) = some t' ∧
      t'.requestUpdate = [keys] ∧ (⟨0, 0⟩ : QPoint) ∈ keys ∧ (⟨1, 0⟩ : QPoint) ∈ keys := by
  obtain ⟨t', keys, h1, h2, h3, h4⟩ :=
    tabletMoveEvent_dragging_covers sampleEnv (by decide) draggingTool (moveTo ⟨100, 0⟩)
      rfl rfl constructedHandles_complete
  have e1 : tileKeyOf sampleEnv.tileWidth ⟨5, 5⟩ = ⟨0, 0⟩ := by
    simp only [tileKeyOf, sampleEnv, QPoint.mk.injEq, Int.floor_eq_iff]
    norm_num
  have e2 : tileKeyOf sampleEnv.tileWidth ⟨105, 5⟩ = ⟨1, 0⟩ := by
    simp only [tileKeyOf, sampleEnv, QPoint.mk.injEq, Int.floor_eq_iff]
    norm_num
  refine ⟨t', keys, h1, h2, ?_, ?_⟩
  · rw [← e1]
    refine h4 0 _ _ ⟨0, 0, 10, 10⟩ ⟨5, 5⟩ rfl (by rw [h3]; rfl) (Or.inl rfl) ?_
    simp [QRectF.holds, QRectF.isNull, QRectF.covers, QRectF.normLeft, QRectF.normRight,
      QRectF.normTop, QRectF.normBottom]
    norm_num
  · rw [← e2]
    refine h4 0 _ _ ⟨100, 0, 10, 10⟩ ⟨105, 5⟩ rfl (by rw [h3]; rfl) (Or.inr ?_) ?_
    · simp [dragInfos, dragInfo, draggingTool, moveTo, LayerInfo.workingRect,
        AbstractRectLayer.setRect, QRectF.moveTopLeft, vec2d_add_def, vec2d_sub_def]
    · simp [QRectF.holds, QRectF.isNull, QRectF.covers, QRectF.normLeft, QRectF.normRight,
        QRectF.normTop, QRectF.normBottom]
      norm_num



/-! ## Tool event sender -/

namespace CanvasToolEventSender

theorem latchedPressure_cons (type : QEventType) (earlier : List QEventType) :
    latchedPressure (type :: earlier) =
      if type = QEventType.MouseButtonPress then 1
      else if type = QEventType.MouseButtonRelease then 0
      else latchedPressure earlier := by
  cases type <;> simp [latchedPressure]

/-- The tablet event `sendCanvasTabletEvent(QMouseEvent *)` builds when a tool
is set, and the latch it leaves. -/
theorem sendCanvasTabletEventFromMouse_latch (s : CanvasToolEventSender) (tool : Tool)
    (e : QMouseEvent) (earlier : List QEventType)
    (hs : s.d.mousePressure = latchedPressure earlier) :
    ∃ te, (sendCanvasTabletEventFromMouse (s.setTool (some tool)) e).2.delivered =
          s.delivered ++ [CanvasEvent.tablet te] ∧
      (sendCanvasTabletEventFromMouse (s.setTool (some tool)) e).2.d.mousePressure =
          latchedPressure (e.type :: earlier) ∧
      (sendCanvasTabletEventFromMouse (s.setTool (some tool)) e).2.d.tool = some tool ∧
      te.data.pos = s.d.transformToScene e.posF ∧
      te.viewPos = e.pos.toVec2D ∧
      te.data.pressure = latchedPressure (e.type :: earlier) ∧
      te.data.rotation = 0 ∧ te.data.tangentialPressure = 0 ∧ te.data.tilt = ⟨0, 0⟩ := by
  refine ⟨_, rfl, ?_, rfl, rfl, rfl, ?_, rfl, rfl, rfl⟩
  all_goals
    rw [latchedPressure_cons]
    simp only [sendCanvasTabletEventFromMouse, setTool, hs]
    cases e.type <;> simp

theorem sendCanvasMouseEvent_data (s : CanvasToolEventSender) (e : QMouseEvent) :
    (sendCanvasMouseEvent s e).2.d = s.d := by
  unfold sendCanvasMouseEvent
  cases s.d.tool <;> rfl

/-- The latch after `mouseEvent`, for an event of any type, when a tool is set. -/
theorem mouseEvent_latch (s : CanvasToolEventSender) (tool : Tool) (e : QMouseEvent)
    (earlier : List QEventType) (hs : s.d.mousePressure = latchedPressure earlier) :
    (mouseEvent (s.setTool (some tool)) e).1.d.mousePressure =
      latchedPressure (e.type :: earlier) := by
  obtain ⟨te, -, hl, -⟩ := sendCanvasTabletEventFromMouse_latch s tool e earlier hs
  have hsplit : ∀ b : Bool,
      (if b = true then
          ((sendCanvasTabletEventFromMouse (s.setTool (some tool)) e).2,
            { e with accepted := true })
        else
          ((sendCanvasMouseEvent (sendCanvasTabletEventFromMouse (s.setTool (some tool)) e).2
              e).2,
            { e with accepted := (sendCanvasMouseEvent
              (sendCanvasTabletEventFromMouse (s.setTool (some tool)) e).2 e).1 })).1.d.mousePressure
        = latchedPressure (e.type :: earlier) := by
    intro b
    cases b
    · simp only [Bool.false_eq_true, if_false, sendCanvasMouseEvent_data]
      exact hl
    · simp only [if_true]
      exact hl
  unfold mouseEvent
  cases ht : e.type
  case MouseButtonPress => simp only []; rw [← ht]; exact hsplit _
  case MouseButtonRelease => simp only []; rw [← ht]; exact hsplit _
  case MouseMove => simp only []; rw [← ht]; exact hsplit _
  case MouseButtonDblClick =>
    simp only [sendCanvasMouseEvent_data, latchedPressure]
    exact hs
  all_goals
    simp only [latchedPressure]
    exact hs

theorem mouseEvents_latch (events : List (Tool × QMouseEvent)) :
    ∀ (s : CanvasToolEventSender) (earlier : List QEventType),
      s.d.mousePressure = latchedPressure earlier →
      (mouseEvents s events).d.mousePressure =
        latchedPressure ((events.map (fun x => x.2.type)).reverse ++ earlier) := by
  induction events with
  | nil => intro s earlier hs; simpa [mouseEvents] using hs
  | cons head rest ih =>
    intro s earlier hs
    obtain ⟨tool, e⟩ := head
    have h1 := mouseEvent_latch s tool e earlier hs
    have h2 := ih _ _ h1
    simp only [mouseEvents, List.map_cons, List.reverse_cons, List.append_assoc,
      List.singleton_append]
    exact h2

theorem sendCanvasMouseEvent_delivered (s : CanvasToolEventSender) (tool : Tool)
    (e : QMouseEvent) (h : s.d.tool = some tool) :
    ∃ ce, (sendCanvasMouseEvent s e).2.delivered = s.delivered ++ [CanvasEvent.mouse ce] ∧
      ce.scenePos = s.d.transformToScene e.posF ∧ ce.viewPos = e.pos := by
  unfold sendCanvasMouseEvent
  rw [h]
  exact ⟨_, rfl, rfl, rfl⟩

/-- The events `mouseEvent` delivers for a press, a move or a release when a
tool is set: the synthesized tablet event, followed by the canvas mouse event
if the tool did not accept the tablet event. -/
theorem mouseEvent_delivered (s : CanvasToolEventSender) (tool : Tool) (e : QMouseEvent)
    (he : e.type = QEventType.MouseButtonPress ∨ e.type = QEventType.MouseMove ∨
      e.type = QEventType.MouseButtonRelease) :
    (mouseEvent (s.setTool (some tool)) e).1.delivered =
        (sendCanvasTabletEventFromMouse (s.setTool (some tool)) e).2.delivered ∨
      ∃ ce, (mouseEvent (s.setTool (some tool)) e).1.delivered =
          (sendCanvasTabletEventFromMouse (s.setTool (some tool)) e).2.delivered ++
            [CanvasEvent.mouse ce] ∧
        ce.scenePos = s.d.transformToScene e.posF ∧ ce.viewPos = e.pos := by
  have htool : (sendCanvasTabletEventFromMouse (s.setTool (some tool)) e).2.d.tool =
      some tool := rfl
  have hT : (sendCanvasTabletEventFromMouse (s.setTool (some tool)) e).2.d.transformToScene =
      s.d.transformToScene := rfl
  obtain ⟨ce, h1, h2, h3⟩ := sendCanvasMouseEvent_delivered _ tool e htool
  rw [hT] at h2
  have key : ∀ b : Bool,
      (if b = true then
          ((sendCanvasTabletEventFromMouse (s.setTool (some tool)) e).2,
            { e with accepted := true })
        else
          ((sendCanvasMouseEvent (sendCanvasTabletEventFromMouse (s.setTool (some tool)) e).2
              e).2,
            { e with accepted := (sendCanvasMouseEvent
              (sendCanvasTabletEventFromMouse (s.setTool (some tool)) e).2 e).1 })).1.delivered =
        (sendCanvasTabletEventFromMouse (s.setTool (some tool)) e).2.delivered ∨
      ∃ ce, (if b = true then
          ((sendCanvasTabletEventFromMouse (s.setTool (some tool)) e).2,
            { e with accepted := true })
        else
          ((sendCanvasMouseEvent (sendCanvasTabletEventFromMouse (s.setTool (some tool)) e).2
              e).2,
            { e with accepted := (sendCanvasMouseEvent
              (sendCanvasTabletEventFromMouse (s.setTool (some tool)) e).2 e).1 })).1.delivered =
          (sendCanvasTabletEventFromMouse (s.setTool (some tool)) e).2.delivered ++
            [CanvasEvent.mouse ce] ∧
        ce.scenePos = s.d.transformToScene e.posF ∧ ce.viewPos = e.pos := by
    intro b
    cases b
    · right
      exact ⟨ce, by simpa using h1, h2, h3⟩
    · left
      simp
  unfold mouseEvent
  rcases he with h | h | h
  all_goals
    cases ht : e.type <;> rw [ht] at h <;> simp only [reduceCtorEq] at h
    simp only []
    rw [← ht]
    exact key _

/-- C3: in every run of mouse events handled with a tool set, starting from
the constructed sender, the first event delivered for a press, move or release
is the synthesized tablet event; its pressure is 1 for a press, 0 for a
release and, for a move, the pressure of the most recent earlier press or
release (0 if there is none), as `latchedPressure` spells out; its rotation,
tangential pressure and tilt are 0. -/
theorem mouseEvent_synthesized_pressure (transformToScene : Affine2D)
    (earlier : List (Tool × QMouseEvent)) (tool : Tool) (e : QMouseEvent)
    (he : e.type = QEventType.MouseButtonPress ∨ e.type = QEventType.MouseMove ∨
      e.type = QEventType.MouseButtonRelease) :
    ∃ te rest,
      (mouseEvent ((mouseEvents (create transformToScene) earlier).setTool (some tool))
          e).1.delivered =
        (mouseEvents (create transformToScene) earlier).delivered ++
          CanvasEvent.tablet te :: rest ∧
      te.data.pressure =
        latchedPressure (e.type :: (earlier.map (fun x => x.2.type)).reverse) ∧
      te.data.rotation = 0 ∧ te.data.tangentialPressure = 0 ∧ te.data.tilt = ⟨0, 0⟩ := by
  have hs := mouseEvents_latch earlier (create transformToScene) [] rfl
  rw [List.append_nil] at hs
  obtain ⟨te, hd, -, -, -, -, hp, hr, htp, htilt⟩ :=
    sendCanvasTabletEventFromMouse_latch (mouseEvents (create transformToScene) earlier)
      tool e _ hs
  rcases mouseEvent_delivered (mouseEvents (create transformToScene) earlier) tool e he with
    h | ⟨ce, h, -, -⟩
  · exact ⟨te, [], by rw [h, hd], hp, hr, htp, htilt⟩
  · exact ⟨te, [CanvasEvent.mouse ce], by rw [h, hd]; simp, hp, hr, htp, htilt⟩

end CanvasToolEventSender

/-- Witness of C3: after a press and a move, the tablet event synthesized for
a further move carries pressure 1. -/
theorem mouseEvent_synthesized_pressure_witness :
    ∃ te rest,
      (CanvasToolEventSender.mouseEvent
          ((CanvasToolEventSender.mouseEvents (CanvasToolEventSender.create (fun p => p))
            [(acceptingTool, mouseAt QEventType.MouseButtonPress 1 1),
              (ignoringTool, mouseAt QEventType.MouseMove 2 2)]).setTool (some acceptingTool))
          (mouseAt QEventType.MouseMove 3 3)).1.delivered =
        (CanvasToolEventSender.mouseEvents (CanvasToolEventSender.create (fun p => p))
            [(acceptingTool, mouseAt QEventType.MouseButtonPress 1 1),
              (ignoringTool, mouseAt QEventType.MouseMove 2 2)]).delivered ++
          CanvasEvent.tablet te :: rest ∧
      te.data.pressure = 1 ∧ te.data.rotation = 0 ∧ te.data.tangentialPressure = 0 ∧
      te.data.tilt = ⟨0, 0⟩ := by
  obtain ⟨te, rest, h1, h2, h3⟩ :=
    CanvasToolEventSender.mouseEvent_synthesized_pressure (fun p => p)
      [(acceptingTool, mouseAt QEventType.MouseButtonPress 1 1),
        (ignoringTool, mouseAt QEventType.MouseMove 2 2)]
      acceptingTool (mouseAt QEventType.MouseMove 3 3) (Or.inr (Or.inl rfl))
  exact ⟨te, rest, h1, h2.trans (by simp [mouseAt, latchedPressure]), h3⟩

namespace CanvasToolEventSender

theorem sendCanvasMouseEvent_new (s : CanvasToolEventSender) (e : QMouseEvent) :
    ∃ new, (sendCanvasMouseEvent s e).2.delivered = s.delivered ++ new ∧
      (sendCanvasMouseEvent s e).2.d.transformToScene = s.d.transformToScene ∧
      ∀ ev ∈ new, ev.scenePos = s.d.transformToScene e.posF ∧ ev.viewPos = e.pos.toVec2D := by
  unfold sendCanvasMouseEvent
  cases s.d.tool with
  | none => exact ⟨[], by simp, rfl, by simp⟩
  | some tool =>
    refine ⟨[_], rfl, rfl, ?_⟩
    intro ev hev
    rw [List.mem_singleton] at hev
    subst hev
    exact ⟨rfl, rfl⟩

theorem sendCanvasTabletEventFromMouse_new (s : CanvasToolEventSender) (e : QMouseEvent) :
    ∃ new, (sendCanvasTabletEventFromMouse s e).2.delivered = s.delivered ++ new ∧
      (sendCanvasTabletEventFromMouse s e).2.d.transformToScene = s.d.transformToScene ∧
      ∀ ev ∈ new, ev.scenePos = s.d.transformToScene e.posF ∧ ev.viewPos = e.pos.toVec2D := by
  unfold sendCanvasTabletEventFromMouse
  cases s.d.tool with
  | none => exact ⟨[], by simp, rfl, by simp⟩
  | some tool =>
    refine ⟨[_], rfl, rfl, ?_⟩
    intro ev hev
    rw [List.mem_singleton] at hev
    subst hev
    exact ⟨rfl, rfl⟩

theorem sendCanvasTabletEvent_new (s : CanvasToolEventSender) (e : WidgetTabletEvent) :
    ∃ new, (sendCanvasTabletEvent s e).2.delivered = s.delivered ++ new ∧
      ∀ ev ∈ new, ev.scenePos = s.d.transformToScene ev.viewPos ∧
        ev.viewPos = e.globalData.pos + (e.posInt - e.globalPosInt).toVec2D := by
  unfold sendCanvasTabletEvent
  cases s.d.tool with
  | none => exact ⟨[], by simp, by simp⟩
  | some tool =>
    refine ⟨[_], rfl, ?_⟩
    intro ev hev
    rw [List.mem_singleton] at hev
    subst hev
    exact ⟨rfl, rfl⟩

/-- The sender `mouseEvent` leaves, by event type. -/
theorem mouseEvent_sender (s : CanvasToolEventSender) (e : QMouseEvent) :
    (mouseEvent s e).1 =
      if e.type = QEventType.MouseButtonDblClick then (sendCanvasMouseEvent s e).2
      else if e.type = QEventType.MouseButtonPress ∨ e.type = QEventType.MouseButtonRelease ∨
          e.type = QEventType.MouseMove then
        (if (sendCanvasTabletEventFromMouse s e).1 = true then
          (sendCanvasTabletEventFromMouse s e).2
        else (sendCanvasMouseEvent (sendCanvasTabletEventFromMouse s e).2 e).2)
      else s := by
  unfold mouseEvent
  cases e.type <;> simp <;> split_ifs <;> rfl

theorem mouseEvent_new (s : CanvasToolEventSender) (e : QMouseEvent) :
    ∃ new, (mouseEvent s e).1.delivered = s.delivered ++ new ∧
      ∀ ev ∈ new, ev.scenePos = s.d.transformToScene e.posF ∧ ev.viewPos = e.pos.toVec2D := by
  obtain ⟨n1, h1, hT, a1⟩ := sendCanvasTabletEventFromMouse_new s e
  obtain ⟨n2, h2, -, a2⟩ := sendCanvasMouseEvent_new (sendCanvasTabletEventFromMouse s e).2 e
  obtain ⟨n3, h3, -, a3⟩ := sendCanvasMouseEvent_new s e
  rw [hT] at a2
  rw [mouseEvent_sender]
  split_ifs
  · exact ⟨n3, h3, a3⟩
  · exact ⟨n1, h1, a1⟩
  · refine ⟨n1 ++ n2, by rw [h2, h1, List.append_assoc], ?_⟩
    intro ev hev
    rcases List.mem_append.mp hev with h | h
    · exact a1 ev h
    · exact a2 ev h
  · exact ⟨[], by simp, by simp⟩

end CanvasToolEventSender

/-- Counterexample to C4 as stated: with the identity view transform, the
tablet event synthesized from a press at the exact position (1/4, 0) carries
the view position (0, 0) and the document position (1/4, 0). -/
theorem delivered_position_counterexample :
    ∃ ev ∈ (CanvasToolEventSender.mouseEvent
        ((CanvasToolEventSender.create (fun p => p)).setTool (some acceptingTool))
        subpixelPress).1.delivered,
      ev.viewPos = ⟨0, 0⟩ ∧ ev.scenePos = ⟨1 / 4, 0⟩ ∧
      ev.scenePos ≠ (fun p => p) ev.viewPos := by
  refine ⟨CanvasEvent.tablet
    ⟨CanvasEventType.EventCanvasTabletPress, ⟨0, 0⟩, ⟨0, 0⟩, ⟨0, 0⟩, ⟨0, 0⟩,
      ⟨⟨1 / 4, 0⟩, 1, 0, 0, ⟨0, 0⟩⟩, 0⟩, ?_, ?_, rfl, ?_⟩
  · simp [CanvasToolEventSender.mouseEvent, CanvasToolEventSender.sendCanvasTabletEventFromMouse,
      CanvasToolEventSender.setTool, CanvasToolEventSender.create, subpixelPress,
      acceptingTool, QPoint.toVec2D]
  · simp [CanvasEvent.viewPos]
  · simp [CanvasEvent.viewPos, CanvasEvent.scenePos]

/-- C4, amended: every event `mouseEvent`, `customTabletEvent` and `tabletEvent`
deliver carries as document-space position `transformToScene` applied to the
exact view-space position of the device event.  For a stylus event that is
the delivered view position, `globalData.pos + (posInt - globalPosInt)`; for
an event made from a mouse event it is `posF()`, and the delivered view
position is the integer `pos()`. -/
theorem delivered_position (s : CanvasToolEventSender) :
    (∀ e : QMouseEvent, ∃ new,
      (CanvasToolEventSender.mouseEvent s e).1.delivered = s.delivered ++ new ∧
      ∀ ev ∈ new, ev.scenePos = s.d.transformToScene e.posF ∧ ev.viewPos = e.pos.toVec2D) ∧
    (∀ e : WidgetTabletEvent, ∃ new,
      (CanvasToolEventSender.customTabletEvent s e).1.delivered = s.delivered ++ new ∧
      ∀ ev ∈ new, ev.scenePos = s.d.transformToScene ev.viewPos ∧
        ev.viewPos = e.globalData.pos + (e.posInt - e.globalPosInt).toVec2D) ∧
    (∀ e : QTabletEvent, ∃ new,
      (CanvasToolEventSender.tabletEvent s e).1.delivered = s.delivered ++ new ∧
      ∀ ev ∈ new, ev.scenePos = s.d.transformToScene ev.viewPos ∧
        ev.viewPos = e.hiResGlobalPos + (e.pos - e.globalPos).toVec2D) := by
  refine ⟨fun e => CanvasToolEventSender.mouseEvent_new s e, fun e => ?_, fun e => ?_⟩
  · exact CanvasToolEventSender.sendCanvasTabletEvent_new s e
  · exact CanvasToolEventSender.sendCanvasTabletEvent_new s _

/-- Witness of C4, amended: a stylus move at view position (3, 4) whose exact
global position is (13.5, 24.25) is delivered as one event with the view
position (3.5, 4.25) and, under the identity transform, the same document
position. -/
theorem delivered_position_witness :
    ∃ ev, (CanvasToolEventSender.tabletEvent
        ((CanvasToolEventSender.create (fun p => p)).setTool (some acceptingTool))
        stylusMove).1.delivered = [ev] ∧
      ev.scenePos = ev.viewPos ∧ ev.viewPos = ⟨7 / 2, 17 / 4⟩ := by
  obtain ⟨new, h1, h2⟩ := (delivered_position
    ((CanvasToolEventSender.create (fun p => p)).setTool (some acceptingTool))).2.2 stylusMove
  have hd : ∃ ev, (CanvasToolEventSender.tabletEvent
      ((CanvasToolEventSender.create (fun p => p)).setTool (some acceptingTool))
      stylusMove).1.delivered = [ev] := ⟨_, rfl⟩
  obtain ⟨ev, hev⟩ := hd
  have hmem : ev ∈ new := by
    rw [hev] at h1
    have : new = [ev] := by simpa [CanvasToolEventSender.create,
      CanvasToolEventSender.setTool] using h1.symm
    rw [this]
    exact List.mem_singleton.mpr rfl
  refine ⟨ev, hev, (h2 ev hmem).1, (h2 ev hmem).2.trans ?_⟩
  simp only [stylusMove, vec2d_add_def, qpoint_sub_def, QPoint.toVec2D, Vec2D.mk.injEq]
  norm_num

/-! ## Canvas navigator -/

namespace CanvasNavigator

/-- C5: `tryBeginDragNavigation` picks the mode by fixed priority.  If the
scale chord matches, it returns true with mode `Scaling`, whatever else
matches; otherwise, if the rotation chord matches, mode `Rotating`; otherwise,
if the translation chord matches, mode `Translating`; if no chord matches it
returns false and the navigator (mode, origin, snapshot and all the rest) is
unchanged. -/
theorem tryBeginDragNavigation_priority (n : CanvasNavigator) (pos : QPoint) :
    (n.keyTracker n.d.scaleKeys = true →
      (tryBeginDragNavigation n pos).1 = true ∧
      (tryBeginDragNavigation n pos).2.d.navigationMode = DragMode.Scaling) ∧
    (n.keyTracker n.d.scaleKeys = false → n.keyTracker n.d.rotationKeys = true →
      (tryBeginDragNavigation n pos).1 = true ∧
      (tryBeginDragNavigation n pos).2.d.navigationMode = DragMode.Rotating) ∧
    (n.keyTracker n.d.scaleKeys = false → n.keyTracker n.d.rotationKeys = false →
      n.keyTracker n.d.translationKeys = true →
      (tryBeginDragNavigation n pos).1 = true ∧
      (tryBeginDragNavigation n pos).2.d.navigationMode = DragMode.Translating) ∧
    (n.keyTracker n.d.scaleKeys = false → n.keyTracker n.d.rotationKeys = false →
      n.keyTracker n.d.translationKeys = false →
      tryBeginDragNavigation n pos = (false, n)) := by
  refine ⟨fun h => ?_, fun h1 h2 => ?_, fun h1 h2 h3 => ?_, fun h1 h2 h3 => ?_⟩
  · simp [tryBeginDragNavigation, h, beginDragScaling, backupTransforms]
  · simp [tryBeginDragNavigation, h1, h2, beginDragRotation, backupTransforms]
  · simp [tryBeginDragNavigation, h1, h2, h3, beginDragTranslation, backupTransforms]
  · simp [tryBeginDragNavigation, h1, h2, h3]

end CanvasNavigator

/-- Witness of C5: with the scale chord and the translation chord both
matching, the press enters `Scaling`; with no chord matching it is refused and
the navigator is unchanged. -/
theorem tryBeginDragNavigation_priority_witness :
    ((CanvasNavigator.tryBeginDragNavigation
        (restingNavigator ⟨0, 0⟩ ⟨0, 0⟩ (holding [⟨"Space+Ctrl"⟩, ⟨"Space"⟩])) ⟨5, 5⟩).1 = true ∧
      (CanvasNavigator.tryBeginDragNavigation
        (restingNavigator ⟨0, 0⟩ ⟨0, 0⟩ (holding [⟨"Space+Ctrl"⟩, ⟨"Space"⟩]))
          ⟨5, 5⟩).2.d.navigationMode = DragMode.Scaling) ∧
    CanvasNavigator.tryBeginDragNavigation
        (restingNavigator ⟨0, 0⟩ ⟨0, 0⟩ (holding [])) ⟨5, 5⟩ =
      (false, restingNavigator ⟨0, 0⟩ ⟨0, 0⟩ (holding [])) :=
  ⟨(CanvasNavigator.tryBeginDragNavigation_priority
      (restingNavigator ⟨0, 0⟩ ⟨0, 0⟩ (holding [⟨"Space+Ctrl"⟩, ⟨"Space"⟩])) ⟨5, 5⟩).1
      (by decide),
    (CanvasNavigator.tryBeginDragNavigation_priority
      (restingNavigator ⟨0, 0⟩ ⟨0, 0⟩ (holding [])) ⟨5, 5⟩).2.2.2
      (by decide) (by decide) (by decide)⟩

namespace CanvasNavigator

theorem continueDragTranslation_frame (n : CanvasNavigator) (pos : QPoint) :
    (continueDragTranslation n pos).d = n.d ∧
      (continueDragTranslation n pos).canvas.scale = n.canvas.scale ∧
      (continueDragTranslation n pos).canvas.rotation = n.canvas.rotation :=
  ⟨rfl, rfl, rfl⟩

/-- Intermediate positions of a translation drag change neither the drag
session nor the scale or the rotation. -/
theorem foldl_continueDragTranslation_frame (positions : List QPoint) :
    ∀ n : CanvasNavigator,
      (positions.foldl continueDragTranslation n).d = n.d ∧
      (positions.foldl continueDragTranslation n).canvas.scale = n.canvas.scale ∧
      (positions.foldl continueDragTranslation n).canvas.rotation = n.canvas.rotation := by
  induction positions with
  | nil => intro n; exact ⟨rfl, rfl, rfl⟩
  | cons p rest ih =>
    intro n
    obtain ⟨h1, h2, h3⟩ := ih (continueDragTranslation n p)
    exact ⟨h1, h2, h3⟩

/-- C6: after `beginDragTranslation o`, any number of `continueDragTranslation`
calls and a last `continueDragTranslation p`, the canvas translation is
`t0 + (p - o)` for the translation `t0` at drag start, and scale and rotation
are those at drag start; the intermediate positions do not appear in the
result. -/
theorem dragTranslation_result (n : CanvasNavigator) (o p : QPoint)
    (positions : List QPoint) :
    ((positions ++ [p]).foldl continueDragTranslation
        (beginDragTranslation n o)).canvas.translation = n.canvas.translation + (p - o) ∧
    ((positions ++ [p]).foldl continueDragTranslation
        (beginDragTranslation n o)).canvas.scale = n.canvas.scale ∧
    ((positions ++ [p]).foldl continueDragTranslation
        (beginDragTranslation n o)).canvas.rotation = n.canvas.rotation := by
  have key : ((positions ++ [p]).foldl continueDragTranslation
      (beginDragTranslation n o)).canvas =
      { n.canvas with translation := n.canvas.translation + (p - o) } := by
    rw [List.foldl_append]
    obtain ⟨h1, h2, h3⟩ :=
      foldl_continueDragTranslation_frame positions (beginDragTranslation n o)
    simp only [List.foldl_cons, List.foldl_nil, continueDragTranslation, h1]
    have hs : (beginDragTranslation n o).canvas.scale = n.canvas.scale := rfl
    have hr : (beginDragTranslation n o).canvas.rotation = n.canvas.rotation := rfl
    rw [hs] at h2
    rw [hr] at h3
    have hb : (beginDragTranslation n o).d.backupTranslation = n.canvas.translation := rfl
    have ho : (beginDragTranslation n o).d.navigationOrigin = o := rfl
    rw [hb, ho]
    cases hc : (List.foldl continueDragTranslation (beginDragTranslation n o) positions).canvas
    rw [hc] at h2 h3
    simp only at h2 h3
    simp [h2, h3]
  rw [key]
  exact ⟨rfl, rfl, rfl⟩

end CanvasNavigator

theorem truncate_of_nonneg (d : ℚ) (h : 0 ≤ d) : truncate d = ⌊d⌋ := by
  simp [truncate, h]

theorem truncate_of_neg (d : ℚ) (h : d < 0) : truncate d = ⌈d⌉ := by
  simp [truncate, not_le.mpr h]

/-- The function `qRound` rounds to the nearest integer, halves upward. -/
theorem qRound_eq_floor (d : ℚ) : qRound d = ⌊d + 1 / 2⌋ := by
  unfold qRound
  split_ifs with h
  · exact truncate_of_nonneg _ (by linarith)
  · have hd : d < 0 := not_le.mp h
    rw [truncate_of_neg (d - 1) (by linarith)]
    have h1 : ((⌈d - 1⌉ : Int) : ℚ) < d - 1 + 1 := Int.ceil_lt_add_one _
    have h2 : d - 1 ≤ ((⌈d - 1⌉ : Int) : ℚ) := Int.le_ceil _
    rw [truncate_of_nonneg _ (by linarith)]
    have e : d - ((⌈d - 1⌉ : Int) : ℚ) + 1 / 2 = (d + 1 / 2) - ((⌈d - 1⌉ : Int) : ℚ) := by ring
    rw [e, Int.floor_sub_int]
    ring

namespace CanvasNavigator

/-- C7, amended: after `beginDragScaling o`, `continueDragScaling p` sets the
scale to `s0 * ratio` with `ratio = exp2 (-(p.y - o.y) / 100)`, leaves the
rotation unchanged, and sets the translation, an integer point, to
`(t0 - (o - c)) * ratio` rounded to the nearest integer point (halves upward),
plus `o - c`. -/
theorem dragScaling_result (env : MathEnv) (n : CanvasNavigator) (o p : QPoint) :
    (continueDragScaling env (beginDragScaling n o) p).canvas.scale =
      n.canvas.scale * env.exp2 (((-(p.y - o.y) : Int) : ℚ) / 100) ∧
    (continueDragScaling env (beginDragScaling n o) p).canvas.translation.x =
      ⌊((n.canvas.translation.x - (o.x - n.viewCenter.x) : Int) : ℚ) *
          env.exp2 (((-(p.y - o.y) : Int) : ℚ) / 100) + 1 / 2⌋ + (o.x - n.viewCenter.x) ∧
    (continueDragScaling env (beginDragScaling n o) p).canvas.translation.y =
      ⌊((n.canvas.translation.y - (o.y - n.viewCenter.y) : Int) : ℚ) *
          env.exp2 (((-(p.y - o.y) : Int) : ℚ) / 100) + 1 / 2⌋ + (o.y - n.viewCenter.y) ∧
    (continueDragScaling env (beginDragScaling n o) p).canvas.rotation = n.canvas.rotation := by
  refine ⟨rfl, ?_, ?_, rfl⟩
  · simp only [continueDragScaling, beginDragScaling, backupTransforms, qpoint_add_def,
      qpoint_sub_def, QPoint.mul, qRound_eq_floor]
  · simp only [continueDragScaling, beginDragScaling, backupTransforms, qpoint_add_def,
      qpoint_sub_def, QPoint.mul, qRound_eq_floor]

end CanvasNavigator

/-- Counterexample to C7 as stated: scale 1, translation (1, 0), view center
and press at (0, 0), move to (0, 100).  The ratio is `exp2 (-1) = 1/2`, the
spec formula gives the translation (1/2, 0), and the canvas translation, an
integer point, is (1, 0). -/
theorem dragScaling_translation_counterexample :
    sampleMath.exp2 (((-((100 : Int) - 0) : Int) : ℚ) / 100) = 1 / 2 ∧
    specScalingTranslation ⟨1, 0⟩ ⟨0, 0⟩ ⟨0, 0⟩ (1 / 2) = ⟨1 / 2, 0⟩ ∧
    (CanvasNavigator.continueDragScaling sampleMath
      (CanvasNavigator.beginDragScaling (restingNavigator ⟨1, 0⟩ ⟨0, 0⟩ (holding [])) ⟨0, 0⟩)
      ⟨0, 100⟩).canvas.translation = ⟨1, 0⟩ ∧
    (CanvasNavigator.continueDragScaling sampleMath
      (CanvasNavigator.beginDragScaling (restingNavigator ⟨1, 0⟩ ⟨0, 0⟩ (holding [])) ⟨0, 0⟩)
      ⟨0, 100⟩).canvas.translation.toVec2D ≠
        specScalingTranslation ⟨1, 0⟩ ⟨0, 0⟩ ⟨0, 0⟩
          (sampleMath.exp2 (((-((100 : Int) - 0) : Int) : ℚ) / 100)) := by
  have hratio : sampleMath.exp2 (((-((100 : Int) - 0) : Int) : ℚ) / 100) = 1 / 2 := by
    simp only [sampleMath]
    norm_num
  have hspec : specScalingTranslation ⟨1, 0⟩ ⟨0, 0⟩ ⟨0, 0⟩ (1 / 2) = ⟨1 / 2, 0⟩ := by
    simp only [specScalingTranslation, Vec2D.mk.injEq]
    norm_num
  have htr : (CanvasNavigator.continueDragScaling sampleMath
      (CanvasNavigator.beginDragScaling (restingNavigator ⟨1, 0⟩ ⟨0, 0⟩ (holding [])) ⟨0, 0⟩)
      ⟨0, 100⟩).canvas.translation = ⟨1, 0⟩ := by
    simp only [CanvasNavigator.continueDragScaling, CanvasNavigator.beginDragScaling,
      CanvasNavigator.backupTransforms, qpoint_add_def, qpoint_sub_def, QPoint.mul,
      qRound_eq_floor, restingNavigator, QPoint.mk.injEq]
    norm_num [sampleMath]
  refine ⟨hratio, hspec, htr, ?_⟩
  rw [htr, hratio, hspec]
  simp [QPoint.toVec2D]

namespace CanvasNavigator

/-- C8: with `exp2 1 = 2`, canvas scale 1, rotation 0, translation (0, 0) and
view center (400, 300), `beginDragScaling (400, 200)` followed by
`continueDragScaling (400, 100)` leaves the canvas at scale 2, rotation 0 and
translation (0, 100). -/
theorem dragScaling_scenario (env : MathEnv) (hexp : env.exp2 1 = 2) (n : CanvasNavigator)
    (hc : n.canvas = ⟨1, 0, ⟨0, 0⟩⟩) (hv : n.viewCenter = ⟨400, 300⟩) :
    (continueDragScaling env (beginDragScaling n ⟨400, 200⟩) ⟨400, 100⟩).canvas =
      ⟨2, 0, ⟨0, 100⟩⟩ := by
  have harg : (((-((100 : Int) - 200) : Int) : ℚ) / 100) = 1 := by norm_num
  simp only [continueDragScaling, beginDragScaling, backupTransforms, hc, hv, qpoint_add_def,
    qpoint_sub_def, QPoint.mul, qRound_eq_floor, harg, hexp]
  norm_num

/-- C9: if the drag origin or the current position coincides with the view
center, `continueDragRotation` changes nothing: rotation, translation and the
rest of the navigator are as before the call. -/
theorem continueDragRotation_degenerate (env : MathEnv) (n : CanvasNavigator) (p : QPoint)
    (h : n.d.navigationOrigin = n.viewCenter ∨ p = n.viewCenter) :
    continueDragRotation env n p = n := by
  unfold continueDragRotation
  have hzero : ∀ q : QPoint, q - q = ⟨0, 0⟩ := by
    intro q
    simp [qpoint_sub_def]
  rcases h with h | h
  · simp [h, hzero]
  · simp [h, hzero]

theorem remove_remove (cs : CursorStack) (id : String) :
    (cs.remove id).remove id = cs.remove id := by
  simp [CursorStack.remove, List.filter_filter]

/-- C10: `endDragNavigation` leaves the canvas scale, rotation and translation
unchanged in every navigator state, ends in mode `NoNavigation`, and is
idempotent. -/
theorem endDragNavigation_idempotent (n : CanvasNavigator) :
    (endDragNavigation n).canvas = n.canvas ∧
    (endDragNavigation n).d.navigationMode = DragMode.NoNavigation ∧
    endDragNavigation (endDragNavigation n) = endDragNavigation n := by
  refine ⟨rfl, rfl, ?_⟩
  simp only [endDragNavigation, endDragRotation, endDragScaling, endDragTranslation,
    remove_remove]

end CanvasNavigator

/-- Witness of C8, with a math library whose `exp2` is exact at integers. -/
theorem dragScaling_scenario_witness :
    sampleMath.exp2 1 = 2 ∧
    (CanvasNavigator.continueDragScaling sampleMath
      (CanvasNavigator.beginDragScaling (restingNavigator ⟨0, 0⟩ ⟨400, 300⟩ (holding []))
        ⟨400, 200⟩) ⟨400, 100⟩).canvas = ⟨2, 0, ⟨0, 100⟩⟩ :=
  ⟨by norm_num [sampleMath],
    CanvasNavigator.dragScaling_scenario sampleMath (by norm_num [sampleMath])
      (restingNavigator ⟨0, 0⟩ ⟨400, 300⟩ (holding [])) rfl rfl⟩

/-- Witness of C9: a rotation drag that started at the view center (400, 300)
leaves the navigator as it is when the pointer moves to (500, 300). -/
theorem continueDragRotation_degenerate_witness :
    CanvasNavigator.continueDragRotation sampleMath
      (CanvasNavigator.beginDragRotation (restingNavigator ⟨7, 9⟩ ⟨400, 300⟩ (holding []))
        ⟨400, 300⟩) ⟨500, 300⟩ =
      CanvasNavigator.beginDragRotation (restingNavigator ⟨7, 9⟩ ⟨400, 300⟩ (holding []))
        ⟨400, 300⟩ :=
  CanvasNavigator.continueDragRotation_degenerate sampleMath
    (CanvasNavigator.beginDragRotation (restingNavigator ⟨7, 9⟩ ⟨400, 300⟩ (holding []))
      ⟨400, 300⟩) ⟨500, 300⟩ (Or.inl rfl)



/-! ## Rectangle tool: graphics items keep the tool data -/

/-- The type masks of the handles, in order. -/
theorem findHandle_types (handles other : List RectHandleItem)
    (h : handles.map (fun x => x.handleTypes) = other.map (fun x => x.handleTypes))
    (types : Nat) : findHandle handles types = findHandle other types := by
  induction handles generalizing other with
  | nil =>
    cases other with
    | nil => rfl
    | cons o rest => simp at h
  | cons a rest ih =>
    cases other with
    | nil => simp at h
    | cons o orest =>
      simp only [List.map_cons, List.cons.injEq] at h
      simp only [findHandle, h.1, ih orest h.2]

theorem handlesComplete_types (handles other : List RectHandleItem)
    (h : handles.map (fun x => x.handleTypes) = other.map (fun x => x.handleTypes))
    (hc : handlesComplete handles) : handlesComplete other := by
  intro types hty
  rw [← findHandle_types handles other h types]
  exact hc types hty

theorem modify_types (f : RectHandleItem → RectHandleItem)
    (hf : ∀ h, (f h).handleTypes = h.handleTypes) :
    ∀ (handles : List RectHandleItem) (i : Nat),
      (handles.modify f i).map (fun x => x.handleTypes) =
        handles.map (fun x => x.handleTypes) := by
  intro handles
  induction handles with
  | nil => intro i; simp
  | cons h rest ih =>
    intro i
    cases i with
    | zero => simp only [List.modify_zero_cons, List.map_cons, hf]
    | succ j =>
      rw [List.modify_succ_cons]
      simp only [List.map_cons, ih]

theorem setHandlePos_types (handles moved : List RectHandleItem) (types : Nat) (pos : Vec2D)
    (h : setHandlePos handles types pos = some moved) :
    moved.map (fun x => x.handleTypes) = handles.map (fun x => x.handleTypes) := by
  unfold setHandlePos at h
  cases hf : findHandle handles types with
  | none => simp [hf] at h
  | some i =>
    simp only [hf, Option.map_some', Option.some.injEq] at h
    rw [← h]
    exact modify_types (fun h => { h with pos := pos }) (fun _ => rfl) handles i

theorem map_types (f : RectHandleItem → RectHandleItem)
    (hf : ∀ h, (f h).handleTypes = h.handleTypes) (handles : List RectHandleItem) :
    (handles.map f).map (fun x => x.handleTypes) = handles.map (fun x => x.handleTypes) := by
  simp only [List.map_map]
  congr 1
  funext h
  exact hf h

theorem map_visible_types (v : Bool) (handles : List RectHandleItem) :
    (handles.map (fun h => { h with visible := v })).map (fun x => x.handleTypes) =
      handles.map (fun x => x.handleTypes) := by
  simp only [List.map_map]
  rfl

theorem map_transparent_types (v : Bool) (handles : List RectHandleItem) :
    (handles.map (fun h => { h with transparent := v })).map (fun x => x.handleTypes) =
      handles.map (fun x => x.handleTypes) := by
  simp only [List.map_map]
  rfl

/-- The handle part of `updateGraphicsItems` keeps the type masks. -/
theorem updateHandles_types (t : RectTool) (handles : List RectHandleItem)
    (h : updateHandles t = some handles) :
    handles.map (fun x => x.handleTypes) = t.d.handles.map (fun x => x.handleTypes) := by
  unfold updateHandles at h
  split_ifs at h with hlen
  · cases hhead : t.d.selectedLayerInfos.head? with
    | none =>
      simp only [hhead, Option.some.injEq] at h
      rw [← h]
      exact map_visible_types true _
    | some info =>
      cases hrl : info.rectLayer with
      | none =>
        simp only [hhead, hrl, Option.some.injEq] at h
        rw [← h]
        exact map_visible_types true _
      | some rectLayer =>
        simp only [hhead, hrl, Option.bind_eq_some, Option.map_eq_some'] at h
        obtain ⟨h1, e1, h2, e2, h3, e3, h4, e4, h5, e5, h6, e6, h7, e7, h8, e8, rfl⟩ := h
        rw [map_transparent_types, setHandlePos_types _ _ _ _ e8,
          setHandlePos_types _ _ _ _ e7, setHandlePos_types _ _ _ _ e6,
          setHandlePos_types _ _ _ _ e5, setHandlePos_types _ _ _ _ e4,
          setHandlePos_types _ _ _ _ e3, setHandlePos_types _ _ _ _ e2,
          setHandlePos_types _ _ _ _ e1]
        exact map_visible_types true _
  · simp only [Option.some.injEq] at h
    rw [← h]
    exact map_visible_types false _

/-- What `updateGraphicsItems` changes when it returns: the handles, keeping
their type masks, and the frame item. -/
theorem updateGraphicsItems_eq (t t' : RectTool) (h : updateGraphicsItems t = some t') :
    ∃ handles frame,
      t' = { t with d := { t.d with handles := handles, frameItem := frame } } ∧
      handles.map (fun x => x.handleTypes) = t.d.handles.map (fun x => x.handleTypes) := by
  unfold updateGraphicsItems at h
  simp only [Option.bind_eq_some, Option.map_eq_some'] at h
  obtain ⟨handles, hh, frame, -, rfl⟩ := h
  exact ⟨handles, frame, rfl, updateHandles_types t handles hh⟩

/-- With a complete handle set, `updateGraphicsItems` returns unless the mode
is `Inserting` and `layerToAdd` is null. -/
theorem updateGraphicsItems_isSome (t : RectTool) (hc : handlesComplete t.d.handles)
    (hm : t.d.mode = Mode.Inserting → t.d.layerToAdd.isSome = true) :
    ∃ t', updateGraphicsItems t = some t' := by
  obtain ⟨handles, hh⟩ := Option.isSome_iff_exists.mp (updateHandles_isSome t hc)
  have hf : ∃ frame, updateFrame t = some frame := by
    unfold updateFrame
    by_cases hi : t.d.mode = Mode.Inserting
    · obtain ⟨l, hl⟩ := Option.isSome_iff_exists.mp (hm hi)
      simp [hi, hl]
    · simp [hi]
  obtain ⟨frame, hfr⟩ := hf
  exact ⟨{ t with d := { t.d with handles := handles, frameItem := frame } },
    by simp [updateGraphicsItems, hh, hfr]⟩

/-! ## Rectangle tool: press -/

/-- What `updateSelected` leaves when it returns. -/
theorem updateSelected_eq (t t' : RectTool) (h : updateSelected t = some t') :
    ∃ handles frame,
      t' = { t with
        d := { t.d with selectedLayerInfos := t.layerScene.selection.map LayerInfo.create,
                        handles := handles, frameItem := frame }
        layerDelegations := t.layerScene.selection.filter
          (fun layer => decide (layer.kind = LayerKind.rect) ||
            decide (layer.kind = LayerKind.raster)) } ∧
      handles.map (fun x => x.handleTypes) = t.d.handles.map (fun x => x.handleTypes) := by
  unfold updateSelected at h
  obtain ⟨handles, frame, rfl, ht⟩ := updateGraphicsItems_eq _ _ h
  exact ⟨handles, frame, rfl, ht⟩

theorem updateSelected_isSome (t : RectTool) (hc : handlesComplete t.d.handles)
    (hm : t.d.mode = Mode.Inserting → t.d.layerToAdd.isSome = true) :
    ∃ t', updateSelected t = some t' := by
  unfold updateSelected
  exact updateGraphicsItems_isSome _ hc hm

/-- What `setSelection` leaves when it returns: nothing changes, or the scene
selection is replaced and the working copies are rebuilt from it. -/
theorem setSelection_eq (t t' : RectTool) (layers : List (Option Layer))
    (h : setSelection t layers = some t') :
    t' = t ∨ ∃ handles frame,
      t' = { t with
        d := { t.d with selectedLayerInfos := layers.reduceOption.map LayerInfo.create,
                        handles := handles, frameItem := frame }
        layerScene := { t.layerScene with selection := layers.reduceOption }
        layerDelegations := layers.reduceOption.filter
          (fun layer => decide (layer.kind = LayerKind.rect) ||
            decide (layer.kind = LayerKind.raster)) } ∧
      handles.map (fun x => x.handleTypes) = t.d.handles.map (fun x => x.handleTypes) := by
  unfold setSelection at h
  split_ifs at h with hsame
  · left
    simpa using h.symm
  · right
    obtain ⟨handles, frame, rfl, ht⟩ := updateSelected_eq _ _ h
    exact ⟨handles, frame, rfl, ht⟩

theorem setSelection_isSome (t : RectTool) (layers : List (Option Layer))
    (hc : handlesComplete t.d.handles)
    (hm : t.d.mode = Mode.Inserting → t.d.layerToAdd.isSome = true) :
    ∃ t', setSelection t layers = some t' := by
  unfold setSelection
  split_ifs
  · exact ⟨t, rfl⟩
  · exact updateSelected_isSome _ hc hm

theorem pressSelect_eq (t t' : RectTool) (event : CanvasTabletEvent) (hit : Option Layer)
    (h : pressSelect t event hit = some t') :
    t' = t ∨ ∃ selection handles frame,
      t' = { t with
        d := { t.d with selectedLayerInfos := selection.map LayerInfo.create,
                        handles := handles, frameItem := frame }
        layerScene := { t.layerScene with selection := selection }
        layerDelegations := selection.filter
          (fun layer => decide (layer.kind = LayerKind.rect) ||
            decide (layer.kind = LayerKind.raster)) } ∧
      handles.map (fun x => x.handleTypes) = t.d.handles.map (fun x => x.handleTypes) := by
  unfold pressSelect at h
  split_ifs at h with h1 h2
  · left
    exact (Option.some.inj h).symm
  · rcases setSelection_eq _ _ _ h with e | ⟨handles, frame, e, ht⟩
    · exact Or.inl e
    · exact Or.inr ⟨_, handles, frame, e, ht⟩
  · rcases setSelection_eq _ _ _ h with e | ⟨handles, frame, e, ht⟩
    · exact Or.inl e
    · exact Or.inr ⟨_, handles, frame, e, ht⟩

theorem pressSelect_isSome (t : RectTool) (event : CanvasTabletEvent) (hit : Option Layer)
    (hc : handlesComplete t.d.handles)
    (hm : t.d.mode = Mode.Inserting → t.d.layerToAdd.isSome = true) :
    ∃ t', pressSelect t event hit = some t' := by
  unfold pressSelect
  split_ifs
  · exact ⟨t, rfl⟩
  · exact setSelection_isSome _ _ hc hm
  · exact setSelection_isSome _ _ hc hm

/-- The mode decision, case by case. -/
theorem pressMode_cases (t : RectTool) (event : CanvasTabletEvent) (hit : Option Layer)
    (hmode : t.d.mode = Mode.NoOperation) :
    (pressMode t event hit).d.selectedLayerInfos = t.d.selectedLayerInfos ∧
    (pressMode t event hit).layerScene = t.layerScene ∧
    (t.d.selectedLayerInfos ≠ [] ∧ hit.isSome = true →
      (pressMode t event hit).d.mode = Mode.Dragging ∧
      (pressMode t event hit).d.dragDistanceEnough = false ∧
      (pressMode t event hit).d.dragStartPos = event.data.pos) ∧
    (¬ (t.d.selectedLayerInfos ≠ [] ∧ hit.isSome = true) →
      t.d.addingType ≠ AddingType.NoAdding →
      (pressMode t event hit).d.mode = Mode.Inserting ∧
      (pressMode t event hit).d.dragDistanceEnough = false ∧
      (pressMode t event hit).d.dragStartPos = event.data.pos) ∧
    (¬ (t.d.selectedLayerInfos ≠ [] ∧ hit.isSome = true) →
      t.d.addingType = AddingType.NoAdding →
      (pressMode t event hit).d.mode = Mode.NoOperation ∧
      (pressMode t event hit).d.dragDistanceEnough = t.d.dragDistanceEnough ∧
      (pressMode t event hit).d.dragStartPos = t.d.dragStartPos) := by
  have hlen : t.d.selectedLayerInfos.length ≠ 0 ↔ t.d.selectedLayerInfos ≠ [] := by
    simp [List.length_eq_zero]
  refine ⟨?_, ?_, ?_, ?_, ?_⟩
  · unfold pressMode
    simp only []
    split_ifs <;> rfl
  · unfold pressMode
    simp only []
    split_ifs <;> rfl
  · intro h
    have hcond : t.d.selectedLayerInfos.length ≠ 0 ∧ hit.isSome = true := ⟨hlen.mpr h.1, h.2⟩
    simp [pressMode, hcond, h.2]
  · intro h hadd
    have hcond : ¬ (t.d.selectedLayerInfos.length ≠ 0 ∧ hit.isSome = true) :=
      fun hh => h ⟨hlen.mp hh.1, hh.2⟩
    unfold pressMode
    simp only [if_neg hcond, if_pos hadd]
    simp
  · intro h hadd
    have hcond : ¬ (t.d.selectedLayerInfos.length ≠ 0 ∧ hit.isSome = true) :=
      fun hh => h ⟨hlen.mp hh.1, hh.2⟩
    unfold pressMode
    simp only [if_neg hcond, hadd, hmode]
    simp

/-- C11: a press in mode `NoOperation` with no handle item under the cursor
(complete handle set) returns; the selection is updated first and the hit
layer becomes the current layer.  Then, if the list of selected layers is not
empty and the hit layer is not null, the mode is `Dragging`; otherwise, if
`addingType` is not `NoAdding`, the mode is `Inserting`; otherwise the mode is
still `NoOperation` and `dragStartPos` and `dragDistanceEnough` are as before.
When a mode is entered, `dragDistanceEnough` is false and `dragStartPos` is the
document position of the press. -/
theorem tabletPressEvent_mode (t : RectTool) (event : CanvasTabletEvent)
    (item : Option SceneItem) (hit : Option Layer) (accepted : Bool)
    (hmode : t.d.mode = Mode.NoOperation)
    (hitem : item = none ∨ item = some SceneItem.frame)
    (hc : handlesComplete t.d.handles) :
    ∃ t1 t', pressSelect t event hit = some t1 ∧
      tabletPressEvent t event item hit accepted = some (accepted, t') ∧
      t'.d.selectedLayerInfos = t1.d.selectedLayerInfos ∧
      t'.layerScene.current = hit ∧
      (t'.d.selectedLayerInfos ≠ [] ∧ hit.isSome = true →
        t'.d.mode = Mode.Dragging ∧ t'.d.dragDistanceEnough = false ∧
        t'.d.dragStartPos = event.data.pos) ∧
      (¬ (t'.d.selectedLayerInfos ≠ [] ∧ hit.isSome = true) →
        t.d.addingType ≠ AddingType.NoAdding →
        t'.d.mode = Mode.Inserting ∧ t'.d.dragDistanceEnough = false ∧
        t'.d.dragStartPos = event.data.pos) ∧
      (¬ (t'.d.selectedLayerInfos ≠ [] ∧ hit.isSome = true) →
        t.d.addingType = AddingType.NoAdding →
        t'.d.mode = Mode.NoOperation ∧ t'.d.dragDistanceEnough = t.d.dragDistanceEnough ∧
        t'.d.dragStartPos = t.d.dragStartPos) := by
  obtain ⟨t1, h1⟩ := pressSelect_isSome t event hit hc (by simp [hmode])
  have hitem' : ¬ (item.isSome = true ∧ item ≠ some SceneItem.frame) := by
    rcases hitem with h | h <;> simp [h]
  have hrun : tabletPressEvent t event item hit accepted =
      some (accepted, pressMode (setCurrent t1 hit) event hit) := by
    unfold tabletPressEvent
    simp only [hmode, ne_eq, not_true_eq_false, if_false, if_neg hitem', h1, Option.map_some']
  have hframe : t1.d.mode = t.d.mode ∧ t1.d.addingType = t.d.addingType ∧
      t1.d.dragDistanceEnough = t.d.dragDistanceEnough ∧ t1.d.dragStartPos = t.d.dragStartPos := by
    rcases pressSelect_eq t t1 event hit h1 with rfl | ⟨sel, hs, fr, rfl, -⟩
    · exact ⟨rfl, rfl, rfl, rfl⟩
    · exact ⟨rfl, rfl, rfl, rfl⟩
  obtain ⟨f1, f2, f3, f4⟩ := hframe
  obtain ⟨p1, p2, p3, p4, p5⟩ := pressMode_cases (setCurrent t1 hit) event hit
    (by show t1.d.mode = Mode.NoOperation; rw [f1, hmode])
  refine ⟨t1, _, h1, hrun, p1, ?_, ?_, ?_, ?_⟩
  · rw [p2]; rfl
  · intro h
    rw [p1] at h
    exact p3 h
  · intro h hadd
    rw [p1] at h
    exact p4 h (by show t1.d.addingType ≠ AddingType.NoAdding; rw [f2]; exact hadd)
  · intro h hadd
    rw [p1] at h
    obtain ⟨q1, q2, q3⟩ := p5 h (by show t1.d.addingType = AddingType.NoAdding; rw [f2]; exact hadd)
    exact ⟨q1, q2.trans f3, q3.trans f4⟩

/-- Witness of C11: a press at (10, 10) on empty canvas with a
rectangle-adding tool and nothing selected enters `Inserting` with the press
position as drag origin. -/
theorem tabletPressEvent_mode_witness :
    ∃ t', tabletPressEvent (idleTool AddingType.AddRect [] none) (pressAt ⟨10, 10⟩) none none
        true = some (true, t') ∧
      t'.d.mode = Mode.Inserting ∧ t'.d.dragDistanceEnough = false ∧
      t'.d.dragStartPos = ⟨10, 10⟩ := by
  obtain ⟨t1, t', -, h2, -, -, -, h6, -⟩ :=
    tabletPressEvent_mode (idleTool AddingType.AddRect [] none) (pressAt ⟨10, 10⟩) none none
      true rfl (Or.inl rfl) constructedHandles_complete
  exact ⟨t', h2, h6 (by simp) (by simp [idleTool])⟩

/-! ## Rectangle tool: drag threshold -/

/-- A move before the threshold is crossed always returns: it sets the flag
(and starts adding in mode `Inserting`) or changes nothing. -/
theorem tabletMoveEvent_gate (env : ToolEnv) (t : RectTool) (event : CanvasTabletEvent)
    (hflag : t.d.dragDistanceEnough = false) :
    tabletMoveEvent env t event =
      if (env.startDragDistance : ℚ) ≤ dragDistance t event then
        (if t.d.mode = Mode.Inserting then
          some (startAdding { t with d := { t.d with dragDistanceEnough := true } })
        else some { t with d := { t.d with dragDistanceEnough := true } })
      else some t := by
  unfold tabletMoveEvent dragDistance
  simp only [hflag, Bool.false_eq_true, if_false]

/-- Counterexample to C12 as stated: with the threshold 10 and the press at
the origin, a move to (10, 0) has the Manhattan distance 10, which does not
exceed the threshold; the move sets `dragDistanceEnough` and, the mode being
`Inserting`, creates the provisional layer. -/
theorem tabletMoveEvent_threshold_counterexample :
    dragDistance (insertingTool ⟨0, 0⟩) (moveTo ⟨10, 0⟩) = 10 ∧
    ¬ ((sampleEnv.startDragDistance : ℚ) < dragDistance (insertingTool ⟨0, 0⟩) (moveTo ⟨10, 0⟩)) ∧
    (insertingTool ⟨0, 0⟩).d.dragDistanceEnough = false ∧
    (insertingTool ⟨0, 0⟩).d.layerToAdd = none ∧
    ∃ t', tabletMoveEvent sampleEnv (insertingTool ⟨0, 0⟩) (moveTo ⟨10, 0⟩) = some t' ∧
      t'.d.dragDistanceEnough = true ∧ t'.d.layerToAdd.isSome = true := by
  have hd : dragDistance (insertingTool ⟨0, 0⟩) (moveTo ⟨10, 0⟩) = 10 := by
    simp only [dragDistance, insertingTool, moveTo, vec2d_sub_def]
    norm_num
  refine ⟨hd, by rw [hd]; norm_num [sampleEnv], rfl, rfl, ?_⟩
  rw [tabletMoveEvent_gate sampleEnv _ _ rfl, hd]
  have hle : ((sampleEnv.startDragDistance : Int) : ℚ) ≤ 10 := by norm_num [sampleEnv]
  rw [if_pos hle]
  exact ⟨_, rfl, rfl, rfl⟩

/-- C12, amended: while `dragDistanceEnough` is false, a move always returns;
if its Manhattan distance from the drag origin is below the threshold, the
tool is unchanged (flag false, no provisional layer, no working geometry
change, no repaint request); the flag is true afterwards exactly if the
distance is at least the threshold. -/
theorem tabletMoveEvent_threshold (env : ToolEnv) (t : RectTool) (event : CanvasTabletEvent)
    (hflag : t.d.dragDistanceEnough = false) :
    ∃ t', tabletMoveEvent env t event = some t' ∧
      (dragDistance t event < env.startDragDistance → t' = t) ∧
      (t'.d.dragDistanceEnough = true ↔ (env.startDragDistance : ℚ) ≤ dragDistance t event) := by
  rw [tabletMoveEvent_gate env t event hflag]
  by_cases hle : (env.startDragDistance : ℚ) ≤ dragDistance t event
  · rw [if_pos hle]
    by_cases hi : t.d.mode = Mode.Inserting
    · rw [if_pos hi]
      exact ⟨_, rfl, fun hlt => absurd hle (not_le.mpr hlt), fun _ => hle, fun _ => rfl⟩
    · rw [if_neg hi]
      exact ⟨_, rfl, fun hlt => absurd hle (not_le.mpr hlt), fun _ => hle, fun _ => rfl⟩
  · rw [if_neg hle]
    refine ⟨t, rfl, fun _ => rfl, ?_⟩
    rw [hflag]
    simp [hle]

/-- Witness of C12, amended: with the threshold 10, a move to (9, 0) after a
press at the origin leaves the tool as it is. -/
theorem tabletMoveEvent_threshold_witness :
    tabletMoveEvent sampleEnv (insertingTool ⟨0, 0⟩) (moveTo ⟨9, 0⟩) =
      some (insertingTool ⟨0, 0⟩) := by
  obtain ⟨t', h1, h2, -⟩ :=
    tabletMoveEvent_threshold sampleEnv (insertingTool ⟨0, 0⟩) (moveTo ⟨9, 0⟩) rfl
  rw [h1, h2]
  simp only [dragDistance, insertingTool, moveTo, vec2d_sub_def, sampleEnv]
  norm_num



/-! ## Rectangle tool: gestures below the threshold -/

theorem keeps_refl (a : RectTool) : a.keeps a := ⟨rfl, rfl, rfl, rfl⟩

theorem keeps_trans (a b c : RectTool) (h1 : a.keeps b) (h2 : b.keeps c) : a.keeps c :=
  ⟨h2.1.trans h1.1, h2.2.1.trans h1.2.1, h2.2.2.1.trans h1.2.2.1, h2.2.2.2.trans h1.2.2.2⟩

/-- A move below the threshold, in a session that has not crossed it. -/
theorem tabletMoveEvent_calm (env : ToolEnv) (t : RectTool) (press event : CanvasTabletEvent)
    (hI : t.belowThreshold press.data.pos)
    (hd : distanceFrom press event < env.startDragDistance) :
    ∃ t', tabletMoveEvent env t event = some t' ∧ t.keeps t' ∧
      t'.belowThreshold press.data.pos := by
  by_cases hflag : t.d.dragDistanceEnough = false
  · rw [tabletMoveEvent_gate env t event hflag]
    by_cases hle : (env.startDragDistance : ℚ) ≤ dragDistance t event
    · rw [if_pos hle]
      rcases hI with hm | ⟨-, hs⟩
      · have hi : t.d.mode ≠ Mode.Inserting := by rw [hm]; decide
        rw [if_neg hi]
        exact ⟨_, rfl, ⟨rfl, rfl, rfl, rfl⟩, Or.inl hm⟩
      · exfalso
        have : dragDistance t event = distanceFrom press event := by
          simp only [dragDistance, distanceFrom, hs]
        rw [this] at hle
        exact absurd hd (not_lt.mpr hle)
    · rw [if_neg hle]
      exact ⟨t, rfl, keeps_refl t, hI⟩
  · have hflag' : t.d.dragDistanceEnough = true := by simpa using hflag
    rcases hI with hm | ⟨hf, -⟩
    · refine ⟨t, ?_, keeps_refl t, Or.inl hm⟩
      unfold tabletMoveEvent
      simp only [hflag', if_true, hm]
    · exact absurd hf hflag

theorem tabletMoveEvents_calm (env : ToolEnv) (press : CanvasTabletEvent)
    (moves : List CanvasTabletEvent) :
    ∀ t : RectTool, t.belowThreshold press.data.pos →
      (∀ m ∈ moves, distanceFrom press m < env.startDragDistance) →
      ∃ t', tabletMoveEvents env t moves = some t' ∧ t.keeps t' ∧
        t'.belowThreshold press.data.pos := by
  induction moves with
  | nil => intro t hI _; exact ⟨t, rfl, keeps_refl t, hI⟩
  | cons m rest ih =>
    intro t hI hall
    obtain ⟨t1, h1, k1, i1⟩ := tabletMoveEvent_calm env t press m hI
      (hall m (List.mem_cons_self m rest))
    obtain ⟨t2, h2, k2, i2⟩ := ih t1 i1 (fun x hx => hall x (List.mem_cons_of_mem m hx))
    refine ⟨t2, ?_, keeps_trans t t1 t2 k1 k2, i2⟩
    simp only [tabletMoveEvents, h1, Option.some_bind, h2]

/-- A release in a session that has not crossed the threshold. -/
theorem tabletReleaseEvent_calm (t : RectTool) (event : CanvasTabletEvent) (origin : Vec2D)
    (hI : t.belowThreshold origin) (hc : handlesComplete t.d.handles) :
    ∃ t', tabletReleaseEvent t event = some t' ∧ t.keeps t' ∧
      t'.d.mode = Mode.NoOperation := by
  have hfin : (if t.d.dragDistanceEnough = true then
      match t.d.mode with
      | Mode.Dragging => some (commit t)
      | Mode.Inserting => finishAdding t
      | _ => some t
    else some t) = some t := by
    rcases hI with hm | ⟨hf, -⟩
    · simp only [hm, ite_self]
    · simp [hf]
  obtain ⟨t', ht'⟩ := updateGraphicsItems_isSome
    { t with d := { t.d with mode := Mode.NoOperation } } hc (by simp)
  obtain ⟨handles, frame, e, hty⟩ := updateGraphicsItems_eq _ _ ht'
  refine ⟨t', ?_, ?_, ?_⟩
  · unfold tabletReleaseEvent
    rw [hfin]
    exact ht'
  · rw [e]
    exact ⟨rfl, rfl, rfl, hty⟩
  · rw [e]

/-- A press in mode `NoOperation`: what it leaves. -/
theorem tabletPressEvent_calm (t : RectTool) (press : CanvasTabletEvent)
    (item : Option SceneItem) (hit : Option Layer) (accepted : Bool)
    (hmode : t.d.mode = Mode.NoOperation) (hc : handlesComplete t.d.handles) :
    ∃ b t1, tabletPressEvent t press item hit accepted = some (b, t1) ∧
      t1.belowThreshold press.data.pos ∧
      t1.d.handles.map (fun x => x.handleTypes) = t.d.handles.map (fun x => x.handleTypes) ∧
      t1.layerInsertions = t.layerInsertions ∧
      t1.layerScene.edits = t.layerScene.edits ∧
      t1.layerScene.rootLayer = t.layerScene.rootLayer ∧
      t1.layerScene.nextId = t.layerScene.nextId ∧
      (¬ (item = none ∨ item = some SceneItem.frame) → t1.layerScene = t.layerScene) ∧
      (item = none ∨ item = some SceneItem.frame → t1.layerScene.current = hit) ∧
      (t1.d.selectedLayerInfos = t.d.selectedLayerInfos ∨
        t1.d.selectedLayerInfos = t1.layerScene.selection.map LayerInfo.create) := by
  by_cases hitem : item.isSome = true ∧ item ≠ some SceneItem.frame
  · refine ⟨false, t, ?_, Or.inl hmode, rfl, rfl, rfl, rfl, rfl, fun _ => rfl, ?_, Or.inl rfl⟩
    · unfold tabletPressEvent
      simp only [hmode, ne_eq, not_true_eq_false, if_false, if_pos hitem]
    · intro h
      rcases h with h | h
      · rw [h] at hitem; simp at hitem
      · exact absurd h hitem.2
  · obtain ⟨ts, hs⟩ := pressSelect_isSome t press hit hc (by simp [hmode])
    have hrun : tabletPressEvent t press item hit accepted =
        some (accepted, pressMode (setCurrent ts hit) press hit) := by
      unfold tabletPressEvent
      simp only [hmode, ne_eq, not_true_eq_false, if_false, if_neg hitem, hs, Option.map_some']
    have hshape : ts.d.mode = Mode.NoOperation ∧
        ts.d.handles.map (fun x => x.handleTypes) = t.d.handles.map (fun x => x.handleTypes) ∧
        ts.layerInsertions = t.layerInsertions ∧ ts.layerScene.edits = t.layerScene.edits ∧
        ts.layerScene.rootLayer = t.layerScene.rootLayer ∧
        ts.layerScene.nextId = t.layerScene.nextId ∧
        (ts.d.selectedLayerInfos = t.d.selectedLayerInfos ∨
          ts.d.selectedLayerInfos = ts.layerScene.selection.map LayerInfo.create) := by
      rcases pressSelect_eq t ts press hit hs with rfl | ⟨sel, handles, frame, rfl, hty⟩
      · exact ⟨hmode, rfl, rfl, rfl, rfl, rfl, Or.inl rfl⟩
      · exact ⟨hmode, hty, rfl, rfl, rfl, rfl, Or.inr rfl⟩
    obtain ⟨s1, s2, s3, s4, s5, s6, s7⟩ := hshape
    obtain ⟨p1, p2, p3, p4, p5⟩ := pressMode_cases (setCurrent ts hit) press hit s1
    have hhandles : (pressMode (setCurrent ts hit) press hit).d.handles = ts.d.handles := by
      unfold pressMode
      simp only []
      split_ifs <;> rfl
    have hins : (pressMode (setCurrent ts hit) press hit).layerInsertions =
        ts.layerInsertions := by
      unfold pressMode
      simp only []
      split_ifs <;> rfl
    refine ⟨accepted, _, hrun, ?_, by rw [hhandles]; exact s2, by rw [hins]; exact s3,
      by rw [p2]; exact s4, by rw [p2]; exact s5, by rw [p2]; exact s6,
      ?_, fun _ => by rw [p2]; rfl, ?_⟩
    · by_cases hcond : (setCurrent ts hit).d.selectedLayerInfos ≠ [] ∧ hit.isSome = true
      · exact Or.inr ⟨(p3 hcond).2.1, (p3 hcond).2.2⟩
      · by_cases hadd : (setCurrent ts hit).d.addingType = AddingType.NoAdding
        · exact Or.inl (p5 hcond hadd).1
        · exact Or.inr ⟨(p4 hcond hadd).2.1, (p4 hcond hadd).2.2⟩
    · intro hno
      exfalso
      apply hno
      cases item with
      | none => exact Or.inl rfl
      | some it =>
        right
        by_contra hne
        exact hitem ⟨rfl, hne⟩
    · rw [p1, p2]
      exact s7

/-- A gesture on the route of the tool, from the idle tool, whose moves all
stay below the threshold returns; it submits no edit and registers no
insertion, and the working copies are untouched or rebuilt from the selected
layers. -/
theorem gesture_calm (env : ToolEnv) (t : RectTool) (press : CanvasTabletEvent)
    (item : Option SceneItem) (hit : Option Layer) (moves : List CanvasTabletEvent)
    (release : CanvasTabletEvent)
    (hmode : t.d.mode = Mode.NoOperation) (hc : handlesComplete t.d.handles)
    (hmoves : ∀ m ∈ moves, distanceFrom press m < env.startDragDistance) :
    ∃ t', gesture env t press item hit moves release = some t' ∧
      t'.d.mode = Mode.NoOperation ∧
      t'.layerInsertions = t.layerInsertions ∧
      t'.layerScene.edits = t.layerScene.edits ∧
      t'.layerScene.rootLayer = t.layerScene.rootLayer ∧
      t'.layerScene.nextId = t.layerScene.nextId ∧
      (¬ (item = none ∨ item = some SceneItem.frame) → t'.layerScene = t.layerScene) ∧
      (item = none ∨ item = some SceneItem.frame → t'.layerScene.current = hit) ∧
      (t'.d.selectedLayerInfos = t.d.selectedLayerInfos ∨
        t'.d.selectedLayerInfos = t'.layerScene.selection.map LayerInfo.create) := by
  obtain ⟨b, t1, h1, i1, ty1, ins1, ed1, root1, id1, cur1, curhit1, infos1⟩ :=
    tabletPressEvent_calm t press item hit true hmode hc
  obtain ⟨t2, h2, k2, i2⟩ := tabletMoveEvents_calm env press moves t1 i1 hmoves
  have hc2 : handlesComplete t2.d.handles :=
    handlesComplete_types t.d.handles t2.d.handles (by rw [k2.2.2.2, ty1]) hc
  obtain ⟨t3, h3, k3, m3⟩ := tabletReleaseEvent_calm t2 release press.data.pos i2 hc2
  have k := keeps_trans t1 t2 t3 k2 k3
  obtain ⟨kinfos, kscene, kins, -⟩ := k
  refine ⟨t3, ?_, m3, kins.trans ins1, ?_, ?_, ?_, ?_, ?_, ?_⟩
  · simp only [gesture, h1, Option.some_bind, h2, h3]
  · rw [kscene]; exact ed1
  · rw [kscene]; exact root1
  · rw [kscene]; exact id1
  · rw [kscene]; exact cur1
  · rw [kscene]; exact curhit1
  · rw [kinfos, kscene]; exact infos1

theorem create_original (layer : Layer) : (LayerInfo.create layer).original = layer := by
  unfold LayerInfo.create LayerInfo.setOriginalLayer
  simp only []
  split_ifs <;> rfl

theorem sample_moves_below (press : CanvasTabletEvent) (hp : press.data.pos = ⟨5, 5⟩) :
    ∀ m ∈ [moveTo ⟨6, 5⟩, moveTo ⟨7, 6⟩],
      distanceFrom press m < (sampleEnv.startDragDistance : ℚ) := by
  intro m hm
  simp only [List.mem_cons, List.mem_singleton, List.not_mem_nil, or_false] at hm
  rcases hm with rfl | rfl
  · simp only [distanceFrom, hp, moveTo, vec2d_sub_def, sampleEnv]
    norm_num
  · simp only [distanceFrom, hp, moveTo, vec2d_sub_def, sampleEnv]
    norm_num [abs_of_nonneg]

/-! ## Rectangle tool: inserting -/

/-- The four setters of the `Inserting` branch give the bounding box of the
two points, whatever the rectangle was. -/
theorem setBorders_eq (rect : QRectF) (l t r b : ℚ) :
    (((rect.setLeft l).setRight r).setTop t).setBottom b = ⟨l, t, r - l, b - t⟩ := by
  simp only [QRectF.setLeft, QRectF.setRight, QRectF.setTop, QRectF.setBottom,
    QRectF.mk.injEq]
  refine ⟨?_, ?_, ?_, ?_⟩ <;> ring

/-- A move in mode `Inserting` after the threshold was crossed, with the
provisional layer present. -/
theorem tabletMoveEvent_inserting (env : ToolEnv) (t : RectTool) (event : CanvasTabletEvent)
    (layerToAdd : AbstractRectLayer)
    (hmode : t.d.mode = Mode.Inserting) (hflag : t.d.dragDistanceEnough = true)
    (hl : t.d.layerToAdd = some layerToAdd) (hc : handlesComplete t.d.handles) :
    ∃ handles frame keys, tabletMoveEvent env t event =
      some { t with
        d := { t.d with
          layerToAdd := some (layerToAdd.setRect
            ⟨min t.d.dragStartPos.x event.data.pos.x, min t.d.dragStartPos.y event.data.pos.y,
              max t.d.dragStartPos.x event.data.pos.x - min t.d.dragStartPos.x event.data.pos.x,
              max t.d.dragStartPos.y event.data.pos.y - min t.d.dragStartPos.y event.data.pos.y⟩)
          handles := handles, frameItem := frame }
        requestUpdate := keys :: t.requestUpdate } ∧
      handles.map (fun x => x.handleTypes) = t.d.handles.map (fun x => x.handleTypes) := by
  have hrun : tabletMoveEvent env t event = updateGraphicsItems
      { t with
        d := { t.d with layerToAdd := some (layerToAdd.setRect
          ((((layerToAdd.rect.setLeft (min t.d.dragStartPos.x event.data.pos.x)).setRight
            (max t.d.dragStartPos.x event.data.pos.x)).setTop
            (min t.d.dragStartPos.y event.data.pos.y)).setBottom
            (max t.d.dragStartPos.y event.data.pos.y))) }
        requestUpdate := ((∅ : QPointSet) ∪ rectKeysWithHandleMargin env.tileWidth layerToAdd.rect ∪
          rectKeysWithHandleMargin env.tileWidth
            ((((layerToAdd.rect.setLeft (min t.d.dragStartPos.x event.data.pos.x)).setRight
              (max t.d.dragStartPos.x event.data.pos.x)).setTop
              (min t.d.dragStartPos.y event.data.pos.y)).setBottom
              (max t.d.dragStartPos.y event.data.pos.y))) :: t.requestUpdate } := by
    unfold tabletMoveEvent
    simp only [hflag, if_true]
    split
    · rename_i hd
      rw [hmode] at hd
      exact absurd hd (by decide)
    · simp only [hl]
    · rename_i h1 h2
      exact absurd hmode h2
  rw [setBorders_eq] at hrun
  obtain ⟨t', ht'⟩ := updateGraphicsItems_isSome _ (by exact hc) (by intro _; rfl) |>.imp
    (fun _ h => hrun.trans h)
  obtain ⟨handles, frame, e, hty⟩ := updateGraphicsItems_eq _ _ (hrun.symm.trans ht')
  exact ⟨handles, frame, _, ht'.trans (congrArg some e), hty⟩

/-- C15: a move in mode `Inserting` after the threshold was crossed (the
provisional layer present, handle set complete) returns and sets the rectangle
of the provisional layer to the bounding box of the press origin `p1` and the
current position `p2`: left = min x, right = max x, top = min y, bottom =
max y; so left <= right and top <= bottom, and the rectangle before the move
does not enter the result. -/
theorem tabletMoveEvent_inserting_rect (env : ToolEnv) (t : RectTool)
    (event : CanvasTabletEvent) (layerToAdd : AbstractRectLayer)
    (hmode : t.d.mode = Mode.Inserting) (hflag : t.d.dragDistanceEnough = true)
    (hl : t.d.layerToAdd = some layerToAdd) (hc : handlesComplete t.d.handles) :
    ∃ t' added, tabletMoveEvent env t event = some t' ∧ t'.d.layerToAdd = some added ∧
      added.rect.left = min t.d.dragStartPos.x event.data.pos.x ∧
      added.rect.right = max t.d.dragStartPos.x event.data.pos.x ∧
      added.rect.top = min t.d.dragStartPos.y event.data.pos.y ∧
      added.rect.bottom = max t.d.dragStartPos.y event.data.pos.y ∧
      added.rect.left ≤ added.rect.right ∧ added.rect.top ≤ added.rect.bottom := by
  obtain ⟨handles, frame, keys, hrun, -⟩ :=
    tabletMoveEvent_inserting env t event layerToAdd hmode hflag hl hc
  refine ⟨_, _, hrun, rfl, rfl, ?_, rfl, ?_, ?_, ?_⟩
  · simp only [AbstractRectLayer.setRect, QRectF.right]
    ring
  · simp only [AbstractRectLayer.setRect, QRectF.bottom]
    ring
  · simp only [AbstractRectLayer.setRect, QRectF.left, QRectF.right]
    have := min_le_max (a := t.d.dragStartPos.x) (b := event.data.pos.x)
    linarith
  · simp only [AbstractRectLayer.setRect, QRectF.top, QRectF.bottom]
    have := min_le_max (a := t.d.dragStartPos.y) (b := event.data.pos.y)
    linarith

/-- Witness of C15: a drag from (10, 10) up and to the left to (3, 8) gives
the rectangle with left 3, top 8, width 7 and height 2. -/
theorem tabletMoveEvent_inserting_rect_witness :
    ∃ t' added, tabletMoveEvent sampleEnv (addingTool ⟨10, 10⟩) (moveTo ⟨3, 8⟩) = some t' ∧
      t'.d.layerToAdd = some added ∧ added.rect = ⟨3, 8, 7, 2⟩ := by
  obtain ⟨t', added, h1, h2, h3, h4, h5, h6, -⟩ :=
    tabletMoveEvent_inserting_rect sampleEnv (addingTool ⟨10, 10⟩) (moveTo ⟨3, 8⟩)
      (createNew AddingType.AddRect) rfl rfl rfl constructedHandles_complete
  refine ⟨t', added, h1, h2, ?_⟩
  cases hr : added.rect with
  | mk xp yp w h =>
    rw [hr] at h3 h4 h5 h6
    simp only [QRectF.left, QRectF.right, QRectF.top, QRectF.bottom, addingTool, startAdding,
      insertingTool, idleTool, moveTo] at h3 h4 h5 h6
    norm_num at h3 h4 h5 h6
    simp only [QRectF.mk.injEq]
    refine ⟨h3, h5, ?_, ?_⟩ <;> linarith

/-! ## Rectangle tool: the insertion gesture -/

theorem tabletMoveEvents_append (env : ToolEnv) (first rest : List CanvasTabletEvent) :
    ∀ t : RectTool, tabletMoveEvents env t (first ++ rest) =
      (tabletMoveEvents env t first).bind fun t1 => tabletMoveEvents env t1 rest := by
  induction first with
  | nil => intro t; simp [tabletMoveEvents]
  | cons m ms ih =>
    intro t
    simp only [List.cons_append, tabletMoveEvents]
    cases tabletMoveEvent env t m with
    | none => rfl
    | some t1 => simp only [Option.some_bind]; exact ih t1

/-- Moves below the threshold, before it is crossed, leave the tool as it is. -/
theorem tabletMoveEvents_below (env : ToolEnv) (t : RectTool) (moves : List CanvasTabletEvent)
    (hflag : t.d.dragDistanceEnough = false)
    (hmoves : ∀ m ∈ moves, dragDistance t m < env.startDragDistance) :
    tabletMoveEvents env t moves = some t := by
  induction moves with
  | nil => rfl
  | cons m rest ih =>
    have h1 : tabletMoveEvent env t m = some t := by
      rw [tabletMoveEvent_gate env t m hflag,
        if_neg (not_le.mpr (hmoves m (List.mem_cons_self m rest)))]
    simp only [tabletMoveEvents, h1, Option.some_bind]
    exact ih (fun x hx => hmoves x (List.mem_cons_of_mem m hx))

/-- The move that crosses the threshold in mode `Inserting` creates the
provisional layer with the rectangle of a new layer. -/
theorem tabletMoveEvent_cross (env : ToolEnv) (t : RectTool) (event : CanvasTabletEvent)
    (hmode : t.d.mode = Mode.Inserting) (hflag : t.d.dragDistanceEnough = false)
    (hc : handlesComplete t.d.handles)
    (hd : (env.startDragDistance : ℚ) ≤ dragDistance t event) :
    ∃ t', tabletMoveEvent env t event = some t' ∧ t'.addingIn t ∧
      t'.d.layerToAdd = some (createNew t.d.addingType) := by
  rw [tabletMoveEvent_gate env t event hflag, if_pos hd, if_pos hmode]
  exact ⟨_, rfl, ⟨hmode, rfl, rfl, rfl, hc, rfl⟩, rfl⟩

/-- A move while inserting past the threshold keeps the session and sets the
rectangle of the provisional layer from the drag origin and the position. -/
theorem tabletMoveEvent_adding (env : ToolEnv) (t s : RectTool) (event : CanvasTabletEvent)
    (h : t.addingIn s) :
    ∃ t' added, tabletMoveEvent env t event = some t' ∧ t'.addingIn s ∧
      t'.d.layerToAdd = some added ∧
      added.rect =
        ⟨min s.d.dragStartPos.x event.data.pos.x, min s.d.dragStartPos.y event.data.pos.y,
          max s.d.dragStartPos.x event.data.pos.x - min s.d.dragStartPos.x event.data.pos.x,
          max s.d.dragStartPos.y event.data.pos.y - min s.d.dragStartPos.y event.data.pos.y⟩ := by
  obtain ⟨hm, hf, hs, hl, hc, hsc⟩ := h
  obtain ⟨l0, hl0⟩ := Option.isSome_iff_exists.mp hl
  obtain ⟨handles, frame, keys, hrun, hty⟩ :=
    tabletMoveEvent_inserting env t event l0 hm hf hl0 hc
  refine ⟨_, _, hrun, ⟨hm, hf, hs, rfl, handlesComplete_types t.d.handles handles hty.symm hc,
    hsc⟩, rfl, ?_⟩
  rw [← hs]
  rfl

theorem tabletMoveEvents_adding (env : ToolEnv) (s : RectTool)
    (moves : List CanvasTabletEvent) :
    ∀ t : RectTool, t.addingIn s →
      ∃ t', tabletMoveEvents env t moves = some t' ∧ t'.addingIn s := by
  induction moves with
  | nil => intro t h; exact ⟨t, rfl, h⟩
  | cons m rest ih =>
    intro t h
    obtain ⟨t1, -, h1, i1, -⟩ := tabletMoveEvent_adding env t s m h
    obtain ⟨t2, h2, i2⟩ := ih t1 i1
    exact ⟨t2, by simp only [tabletMoveEvents, h1, Option.some_bind, h2], i2⟩

/-- With a provisional layer and a complete handle set `finishAdding` returns;
it submits one `addLayers` edit with that layer. -/
theorem finishAdding_edits (t : RectTool) (added : AbstractRectLayer)
    (hl : t.d.layerToAdd = some added) (hc : handlesComplete t.d.handles) :
    ∃ t', finishAdding t = some t' ∧
      t'.layerScene.edits = t.layerScene.edits ++
        [SceneEdit.addLayers [added] t.d.layerToAddParent t.d.layerToAddIndex
          "Add Rectangle"] ∧
      t'.d.handles.map (fun x => x.handleTypes) = t.d.handles.map (fun x => x.handleTypes) ∧
      t'.d.mode = t.d.mode ∧ t'.d.dragDistanceEnough = t.d.dragDistanceEnough := by
  unfold finishAdding
  simp only []
  generalize hT : setCurrent _ _ = t4
  have hd : t4.d = t.d := by rw [← hT]; rfl
  have he : t4.layerScene.edits = t.layerScene.edits ++
      [SceneEdit.addLayers [added] t.d.layerToAddParent t.d.layerToAddIndex
        "Add Rectangle"] := by
    rw [← hT]
    simp only [setCurrent, submitEdit, hl, Option.toList_some]
  obtain ⟨t5, h5⟩ := setSelection_isSome t4
    [t.d.layerToAdd.map
      (fun l => l.asLayer t.layerScene.nextId t.d.layerToAddParent t.d.layerToAddIndex)]
    (by rw [hd]; exact hc) (by rw [hd, hl]; intro _; rfl)
  have hkeep : t5.layerScene.edits = t4.layerScene.edits ∧
      t5.d.handles.map (fun x => x.handleTypes) = t4.d.handles.map (fun x => x.handleTypes) ∧
      t5.d.mode = t4.d.mode ∧ t5.d.dragDistanceEnough = t4.d.dragDistanceEnough := by
    rcases setSelection_eq _ _ _ h5 with rfl | ⟨handles, frame, rfl, hty⟩
    · exact ⟨rfl, rfl, rfl, rfl⟩
    · exact ⟨rfl, hty, rfl, rfl⟩
  rw [h5]
  refine ⟨_, rfl, ?_, ?_, ?_, ?_⟩
  · show t5.layerScene.edits = _
    rw [hkeep.1, he]
  · show t5.d.handles.map (fun x => x.handleTypes) = _
    rw [hkeep.2.1, hd]
  · show t5.d.mode = _
    rw [hkeep.2.2.1, hd]
  · show t5.d.dragDistanceEnough = _
    rw [hkeep.2.2.2, hd]

/-- A release while inserting past the threshold returns; it hands the
provisional layer to the layer scene in one `addLayers` edit. -/
theorem tabletReleaseEvent_adding (t s : RectTool) (event : CanvasTabletEvent)
    (added : AbstractRectLayer) (h : t.addingIn s) (hl : t.d.layerToAdd = some added) :
    ∃ t', tabletReleaseEvent t event = some t' ∧
      t'.layerScene.edits = s.layerScene.edits ++
        [SceneEdit.addLayers [added] t.d.layerToAddParent t.d.layerToAddIndex
          "Add Rectangle"] ∧
      t'.d.mode = Mode.NoOperation := by
  obtain ⟨hm, hf, -, -, hc, hsc⟩ := h
  obtain ⟨t1, h1, e1, ty1, -, -⟩ := finishAdding_edits t added hl hc
  obtain ⟨t2, h2⟩ := updateGraphicsItems_isSome
    { t1 with d := { t1.d with mode := Mode.NoOperation } }
    (handlesComplete_types t.d.handles t1.d.handles ty1.symm hc) (by simp)
  obtain ⟨handles, frame, e, -⟩ := updateGraphicsItems_eq _ _ h2
  refine ⟨t2, ?_, ?_, ?_⟩
  · unfold tabletReleaseEvent
    simp only [hf, if_true, hm, h1, Option.some_bind]
    exact h2
  · rw [e]
    show t1.layerScene.edits = _
    rw [e1, hsc]
  · rw [e]

/-- A press on empty canvas with the idle rectangle-adding tool, nothing
selected, enters `Inserting` with the press position as drag origin. -/
theorem tabletPressEvent_sample (pos : Vec2D) :
    tabletPressEvent (idleTool AddingType.AddRect [] none) (pressAt pos) none none true =
      some (true, insertingTool pos) := by
  simp [tabletPressEvent, pressSelect, setSelection, pressMode, setCurrent, idleTool,
    insertingTool, pressAt, ShiftModifier]

/-- Counterexample to C16 as stated: press at (10, 10) with the idle
rectangle-adding tool (the press enters `Inserting`), one move to (110, 60),
which crosses the threshold 10, and a release at (110, 60).  The move that
crosses the threshold only creates the provisional layer, and the release does
not read its position: `addLayers` receives a layer with the null rectangle of
a new layer, not the rectangle from (10, 10) to (110, 60). -/
theorem insertion_scenario_counterexample :
    tabletPressEvent (idleTool AddingType.AddRect [] none) (pressAt ⟨10, 10⟩) none none true =
      some (true, insertingTool ⟨10, 10⟩) ∧
    (insertingTool ⟨10, 10⟩).d.mode = Mode.Inserting ∧
    (sampleEnv.startDragDistance : ℚ) ≤ distanceFrom (pressAt ⟨10, 10⟩) (moveTo ⟨110, 60⟩) ∧
    ∃ t' layer parent index,
      gesture sampleEnv (idleTool AddingType.AddRect [] none) (pressAt ⟨10, 10⟩) none none
        [moveTo ⟨110, 60⟩] (releaseAt ⟨110, 60⟩) = some t' ∧
      t'.layerScene.edits = [SceneEdit.addLayers [layer] parent index "Add Rectangle"] ∧
      layer.rect = ⟨0, 0, 0, 0⟩ ∧
      ¬ (layer.rect.left = 10 ∧ layer.rect.top = 10 ∧ layer.rect.right = 110 ∧
        layer.rect.bottom = 60) := by
  have hd : distanceFrom (pressAt ⟨10, 10⟩) (moveTo ⟨110, 60⟩) = 150 := by
    simp only [distanceFrom, pressAt, moveTo, vec2d_sub_def]
    norm_num
  have hd2 : dragDistance (insertingTool ⟨10, 10⟩) (moveTo ⟨110, 60⟩) = 150 := by
    simp only [dragDistance, insertingTool, moveTo, vec2d_sub_def]
    norm_num
  refine ⟨tabletPressEvent_sample ⟨10, 10⟩, rfl, by rw [hd]; norm_num [sampleEnv], ?_⟩
  obtain ⟨t2, h2, i2, l2⟩ := tabletMoveEvent_cross sampleEnv (insertingTool ⟨10, 10⟩)
    (moveTo ⟨110, 60⟩) rfl rfl constructedHandles_complete
    (by rw [hd2]; norm_num [sampleEnv])
  obtain ⟨t3, h3, e3, -⟩ := tabletReleaseEvent_adding t2 (insertingTool ⟨10, 10⟩)
    (releaseAt ⟨110, 60⟩) _ i2 l2
  refine ⟨t3, _, _, _, ?_, e3, rfl, ?_⟩
  · simp only [gesture, tabletPressEvent_sample, Option.some_bind, tabletMoveEvents, h2, h3]
  · intro h
    have h10 := h.1
    simp [createNew, QRectF.left, QRectF.null, insertingTool, idleTool] at h10

/-- C16, amended: a press at document point (10, 10) that puts the idle tool
into `Inserting`, then moves of which one crosses the drag threshold (the moves
before it stay below) and a later one, the last before the release, is at
document point (110, 60), then a release at any position.  The gesture returns
and submits one `addLayers` edit; the layer handed over has the rectangle with
left = 10, top = 10, right = 110, bottom = 60. -/
theorem insertion_scenario (env : ToolEnv) (t t1 : RectTool) (accepted : Bool)
    (press : CanvasTabletEvent) (item : Option SceneItem) (hit : Option Layer)
    (calm rest : List CanvasTabletEvent) (cross last release : CanvasTabletEvent)
    (hmode : t.d.mode = Mode.NoOperation) (hc : handlesComplete t.d.handles)
    (hpress : tabletPressEvent t press item hit true = some (accepted, t1))
    (hins : t1.d.mode = Mode.Inserting)
    (hpos : press.data.pos = ⟨10, 10⟩)
    (hcalm : ∀ m ∈ calm, distanceFrom press m < env.startDragDistance)
    (hcross : (env.startDragDistance : ℚ) ≤ distanceFrom press cross)
    (hlast : last.data.pos = ⟨110, 60⟩) :
    ∃ t' layer parent index,
      gesture env t press item hit (calm ++ cross :: (rest ++ [last])) release = some t' ∧
      t'.layerScene.edits =
        t.layerScene.edits ++ [SceneEdit.addLayers [layer] parent index "Add Rectangle"] ∧
      layer.rect.left = 10 ∧ layer.rect.top = 10 ∧ layer.rect.right = 110 ∧
      layer.rect.bottom = 60 := by
  obtain ⟨b, t1', h1, i1, ty1, -, ed1, -⟩ :=
    tabletPressEvent_calm t press item hit true hmode hc
  have hsame := hpress.symm.trans h1
  simp only [Option.some.injEq, Prod.mk.injEq] at hsame
  obtain ⟨-, rfl⟩ := hsame
  have hstart : t1.d.dragDistanceEnough = false ∧ t1.d.dragStartPos = press.data.pos := by
    rcases i1 with hm | h
    · rw [hins] at hm
      exact absurd hm (by decide)
    · exact h
  obtain ⟨hflag, hs⟩ := hstart
  have hc1 : handlesComplete t1.d.handles :=
    handlesComplete_types t.d.handles t1.d.handles ty1.symm hc
  have hdist : ∀ m, dragDistance t1 m = distanceFrom press m := by
    intro m
    simp only [dragDistance, distanceFrom, hs]
  have hbelow := tabletMoveEvents_below env t1 calm hflag
    (fun m hm => by rw [hdist]; exact hcalm m hm)
  obtain ⟨t2, h2, i2, -⟩ := tabletMoveEvent_cross env t1 cross hins hflag hc1
    (by rw [hdist]; exact hcross)
  obtain ⟨t3, h3, i3⟩ := tabletMoveEvents_adding env t1 rest t2 i2
  obtain ⟨t4, added, h4, i4, l4, r4⟩ := tabletMoveEvent_adding env t3 t1 last i3
  obtain ⟨t5, h5, e5, -⟩ := tabletReleaseEvent_adding t4 t1 release added i4 l4
  rw [hs, hpos, hlast] at r4
  refine ⟨t5, added, t4.d.layerToAddParent, t4.d.layerToAddIndex, ?_, ?_, ?_, ?_, ?_, ?_⟩
  · simp only [gesture, hpress, Option.some_bind, tabletMoveEvents_append, hbelow,
      tabletMoveEvents, h2, h3, h4, h5]
  · rw [e5, ed1]
  · rw [r4]; simp only [QRectF.left]; norm_num
  · rw [r4]; simp only [QRectF.top]; norm_num
  · rw [r4]; simp only [QRectF.right]; norm_num
  · rw [r4]; simp only [QRectF.bottom]; norm_num

/-- Witness of C16, amended: press at (10, 10), moves to (12, 11), (60, 40) and
(110, 60) with the threshold 10, release at (110, 60). -/
theorem insertion_scenario_witness :
    ∃ t' layer parent index,
      gesture sampleEnv (idleTool AddingType.AddRect [] none) (pressAt ⟨10, 10⟩) none none
        [moveTo ⟨12, 11⟩, moveTo ⟨60, 40⟩, moveTo ⟨110, 60⟩] (releaseAt ⟨110, 60⟩) = some t' ∧
      t'.layerScene.edits = [SceneEdit.addLayers [layer] parent index "Add Rectangle"] ∧
      layer.rect.left = 10 ∧ layer.rect.top = 10 ∧ layer.rect.right = 110 ∧
      layer.rect.bottom = 60 :=
  insertion_scenario sampleEnv (idleTool AddingType.AddRect [] none) (insertingTool ⟨10, 10⟩)
    true (pressAt ⟨10, 10⟩) none none [moveTo ⟨12, 11⟩] [] (moveTo ⟨60, 40⟩) (moveTo ⟨110, 60⟩)
    (releaseAt ⟨110, 60⟩) rfl constructedHandles_complete (tabletPressEvent_sample ⟨10, 10⟩)
    rfl rfl
    (by
      intro m hm
      simp only [List.mem_singleton] at hm
      subst hm
      simp only [distanceFrom, pressAt, moveTo, vec2d_sub_def, sampleEnv]
      norm_num)
    (by
      simp only [distanceFrom, pressAt, moveTo, vec2d_sub_def, sampleEnv]
      norm_num)
    rfl

/-! ## Rectangle tool: dragging -/

/-- The moved working copy does not depend on the bounding rectangle collected
so far. -/
theorem dragInfo_snd (env : ToolEnv) (delta : Vec2D) (whole other : QRectF)
    (info : LayerInfo) :
    (dragInfo env delta whole info).2 = (dragInfo env delta other info).2 := by
  unfold dragInfo
  cases info.rectLayer with
  | some rectLayer => rfl
  | none =>
    simp only
    split_ifs <;> rfl

theorem dragInfos_snd (env : ToolEnv) (delta : Vec2D) (infos : List LayerInfo) :
    ∀ whole : QRectF, (dragInfos env delta whole infos).2 =
      infos.map (fun info => (dragInfo env delta QRectF.null info).2) := by
  induction infos with
  | nil => intro whole; rfl
  | cons info rest ih =>
    intro whole
    simp only [dragInfos, List.map_cons, ih]
    rw [dragInfo_snd env delta whole QRectF.null info]

/-- Moving a moved working copy again gives what the second move alone gives. -/
theorem dragInfo_again (env : ToolEnv) (first second : Vec2D) (info : LayerInfo) :
    (dragInfo env second QRectF.null (dragInfo env first QRectF.null info).2).2 =
      (dragInfo env second QRectF.null info).2 := by
  unfold dragInfo
  cases hr : info.rectLayer with
  | some rectLayer =>
    simp only [AbstractRectLayer.setRect, QRectF.moveTopLeft]
  | none =>
    simp only [hr]
    by_cases hk : info.original.kind = LayerKind.raster
    · simp only [hk, if_true, hr]
    · simp only [hk, if_false, hr]

/-- What one pass of the drag loop leaves of one working copy. -/
theorem dragInfo_moved (env : ToolEnv) (delta : Vec2D) (info : LayerInfo) :
    (dragInfo env delta QRectF.null info).2.original = info.original ∧
    (dragInfo env delta QRectF.null info).2.originalRectPos = info.originalRectPos ∧
    (∀ r, info.rectLayer = some r →
      ∃ moved, (dragInfo env delta QRectF.null info).2.rectLayer = some moved ∧
        moved.rect.topLeft = info.originalRectPos + delta ∧
        moved.rect.w = r.rect.w ∧ moved.rect.h = r.rect.h) ∧
    (info.rectLayer = none → info.original.kind = LayerKind.raster →
      (dragInfo env delta QRectF.null info).2.rasterOffset = env.toQPoint delta) := by
  unfold dragInfo
  cases hr : info.rectLayer with
  | some rectLayer =>
    refine ⟨rfl, rfl, ?_, fun h => absurd h (by simp)⟩
    intro r hrr
    obtain rfl := Option.some.inj hrr
    refine ⟨_, rfl, ?_, rfl, rfl⟩
    simp only [AbstractRectLayer.setRect, QRectF.moveTopLeft, QRectF.topLeft, vec2d_add_def,
      Vec2D.mk.injEq]
    exact ⟨add_comm _ _, add_comm _ _⟩
  | none =>
    simp only
    by_cases hk : info.original.kind = LayerKind.raster
    · simp only [hk, if_true]
      exact ⟨trivial, trivial, fun r h => absurd h (by simp), fun _ _ => trivial⟩
    · simp only [hk, if_false]
      exact ⟨trivial, trivial, fun r h => absurd h (by simp), fun _ h => absurd h (by simp)⟩

/-- A move in mode `Dragging` past the threshold returns; it replaces the
working copies by the moved ones and stays in the session. -/
theorem tabletMoveEvent_dragging_infos (env : ToolEnv) (t : RectTool)
    (event : CanvasTabletEvent)
    (hmode : t.d.mode = Mode.Dragging) (hflag : t.d.dragDistanceEnough = true)
    (hc : handlesComplete t.d.handles) :
    ∃ t', tabletMoveEvent env t event = some t' ∧
      t'.d.selectedLayerInfos = t.d.selectedLayerInfos.map
        (fun info => (dragInfo env (event.data.pos - t.d.dragStartPos) QRectF.null info).2) ∧
      t'.d.mode = Mode.Dragging ∧ t'.d.dragDistanceEnough = true ∧
      t'.d.dragStartPos = t.d.dragStartPos ∧ handlesComplete t'.d.handles ∧
      t'.layerScene = t.layerScene := by
  obtain ⟨t', ht'⟩ := updateGraphicsItems_isSome
    { t with
      d := { t.d with selectedLayerInfos :=
        (dragInfos env (event.data.pos - t.d.dragStartPos) QRectF.null
          t.d.selectedLayerInfos).2 }
      requestUpdate := rectKeysWithHandleMargin env.tileWidth
        (dragInfos env (event.data.pos - t.d.dragStartPos) QRectF.null
          t.d.selectedLayerInfos).1 :: t.requestUpdate }
    hc (by simp [hmode])
  obtain ⟨handles, frame, e, hty⟩ := updateGraphicsItems_eq _ _ ht'
  refine ⟨t', ?_, ?_, ?_, ?_, ?_, ?_, ?_⟩
  · have hrun := ht'
    simp only [hflag, hmode] at hrun
    simp only [tabletMoveEvent, hflag, hmode, if_true]
    exact hrun
  · rw [e]
    exact dragInfos_snd env _ t.d.selectedLayerInfos QRectF.null
  · rw [e]; exact hmode
  · rw [e]; exact hflag
  · rw [e]
  · rw [e]
    exact handlesComplete_types t.d.handles handles hty.symm hc
  · rw [e]

/-- C17: a move in mode `Dragging` after the threshold was crossed (handle set
complete) returns, and with delta = document position of the event minus
`dragStartPos`, pairing the working copies before and after in order: the
working rectangle of each selected rect layer has its top-left corner at the
layer's original top-left (`originalRectPos`) plus delta, width and height
unchanged; the paint offset of each selected raster layer is delta converted
to an integer point.  The working copies after the move are a function of the
copies before and of delta, and they do not accumulate: after a further move
they are what that move alone would have produced. -/
theorem tabletMoveEvent_dragging_delta (env : ToolEnv) (t : RectTool)
    (event : CanvasTabletEvent)
    (hmode : t.d.mode = Mode.Dragging) (hflag : t.d.dragDistanceEnough = true)
    (hc : handlesComplete t.d.handles) :
    ∃ t', tabletMoveEvent env t event = some t' ∧
      List.Forall₂
        (fun before after =>
          after.original = before.original ∧
          after.originalRectPos = before.originalRectPos ∧
          (∀ r, before.rectLayer = some r →
            ∃ moved, after.rectLayer = some moved ∧
              moved.rect.topLeft =
                before.originalRectPos + (event.data.pos - t.d.dragStartPos) ∧
              moved.rect.w = r.rect.w ∧ moved.rect.h = r.rect.h) ∧
          (before.rectLayer = none → before.original.kind = LayerKind.raster →
            after.rasterOffset = env.toQPoint (event.data.pos - t.d.dragStartPos)))
        t.d.selectedLayerInfos t'.d.selectedLayerInfos ∧
      t'.d.selectedLayerInfos = t.d.selectedLayerInfos.map
        (fun info => (dragInfo env (event.data.pos - t.d.dragStartPos) QRectF.null info).2) ∧
      ∀ next : CanvasTabletEvent, ∃ twice once,
        tabletMoveEvent env t' next = some twice ∧ tabletMoveEvent env t next = some once ∧
        twice.d.selectedLayerInfos = once.d.selectedLayerInfos := by
  obtain ⟨t', hrun, hinfos, hm', hf', hs', hc', -⟩ :=
    tabletMoveEvent_dragging_infos env t event hmode hflag hc
  refine ⟨t', hrun, ?_, hinfos, ?_⟩
  · rw [hinfos, List.forall₂_map_right_iff, List.forall₂_same]
    intro info _
    exact dragInfo_moved env _ info
  · intro next
    obtain ⟨twice, h2, i2, -⟩ := tabletMoveEvent_dragging_infos env t' next hm' hf' hc'
    obtain ⟨once, h1, i1, -⟩ := tabletMoveEvent_dragging_infos env t next hmode hflag hc
    refine ⟨twice, once, h2, h1, ?_⟩
    rw [i2, i1, hinfos, hs', List.map_map]
    apply List.map_congr_left
    intro info _
    exact dragInfo_again env _ _ info

/-- Witness of C17: dragging the rectangle (0, 0, 10, 10), pressed at the
origin, to (5, 7) leaves the working rectangle (5, 7, 10, 10). -/
theorem tabletMoveEvent_dragging_delta_witness :
    ∃ t' info moved, tabletMoveEvent sampleEnv draggingTool (moveTo ⟨5, 7⟩) = some t' ∧
      t'.d.selectedLayerInfos = [info] ∧ info.rectLayer = some moved ∧
      moved.rect = ⟨5, 7, 10, 10⟩ := by
  obtain ⟨t', h1, h2, -⟩ :=
    tabletMoveEvent_dragging_delta sampleEnv draggingTool (moveTo ⟨5, 7⟩) rfl rfl
      constructedHandles_complete
  simp only [draggingTool, List.forall₂_cons_left_iff, List.forall₂_nil_left_iff] at h2
  obtain ⟨info, rest, hR, rfl, hl⟩ := h2
  obtain ⟨moved, hm, htl, hw, hh⟩ := hR.2.2.1 _ rfl
  refine ⟨t', info, moved, h1, hl, hm, ?_⟩
  cases hr : moved.rect with
  | mk xp yp w h =>
    rw [hr] at htl hw hh
    simp only [QRectF.topLeft, moveTo, vec2d_add_def, vec2d_sub_def, Vec2D.mk.injEq] at htl hw hh
    norm_num at htl
    simp only [QRectF.mk.injEq]
    exact ⟨htl.1, htl.2, hw, hh⟩

/-! ## Rectangle tool: handle moves -/

theorem findHandle_isSome_iff (handles : List RectHandleItem) (types : Nat) :
    (findHandle handles types).isSome = true ↔
      types ∈ handles.map (fun x => x.handleTypes) := by
  induction handles with
  | nil => simp [findHandle]
  | cons h rest ih =>
    simp only [findHandle, List.map_cons, List.mem_cons]
    by_cases hh : h.handleTypes = types
    · simp [hh]
    · rw [if_neg hh]
      have hne : ¬ types = h.handleTypes := fun e => hh e.symm
      simp only [Option.isSome_map', hne, false_or]
      exact ih

theorem invertHandleTypeLeftRight_types (h : RectHandleItem) :
    h.invertHandleTypeLeftRight.handleTypes =
      if h.handleTypes &&& Left ≠ 0 then (h.handleTypes &&& bitNot Left) ||| Right
      else if h.handleTypes &&& Right ≠ 0 then (h.handleTypes &&& bitNot Right) ||| Left
      else h.handleTypes := by
  unfold RectHandleItem.invertHandleTypeLeftRight
  split_ifs <;> rfl

theorem invertHandleTypeTopBottom_types (h : RectHandleItem) :
    h.invertHandleTypeTopBottom.handleTypes =
      if h.handleTypes &&& Top ≠ 0 then (h.handleTypes &&& bitNot Top) ||| Bottom
      else if h.handleTypes &&& Bottom ≠ 0 then (h.handleTypes &&& bitNot Bottom) ||| Top
      else h.handleTypes := by
  unfold RectHandleItem.invertHandleTypeTopBottom
  split_ifs <;> rfl

/-- On the eight handle types the code's inversion is the exchange of `Left`
and `Right`; the exchange stays within the eight types and undoes itself. -/
theorem leftRight_exchange : ∀ m ∈ allHandleTypes,
    (if m &&& Left ≠ 0 then (m &&& bitNot Left) ||| Right
      else if m &&& Right ≠ 0 then (m &&& bitNot Right) ||| Left else m) =
        exchangeTypes Left Right m ∧
    exchangeTypes Left Right m ∈ allHandleTypes ∧
    exchangeTypes Left Right (exchangeTypes Left Right m) = m := by
  decide

theorem topBottom_exchange : ∀ m ∈ allHandleTypes,
    (if m &&& Top ≠ 0 then (m &&& bitNot Top) ||| Bottom
      else if m &&& Bottom ≠ 0 then (m &&& bitNot Bottom) ||| Top else m) =
        exchangeTypes Top Bottom m ∧
    exchangeTypes Top Bottom m ∈ allHandleTypes ∧
    exchangeTypes Top Bottom (exchangeTypes Top Bottom m) = m := by
  decide

theorem handlesComplete_invertLeftRight (handles : List RectHandleItem)
    (hc : handlesComplete handles) :
    handlesComplete (handles.map RectHandleItem.invertHandleTypeLeftRight) := by
  intro types hty
  obtain ⟨-, hmem, hinv⟩ := leftRight_exchange types hty
  obtain ⟨he, -, -⟩ := leftRight_exchange _ hmem
  have hfound := (findHandle_isSome_iff handles _).mp (hc _ hmem)
  rw [findHandle_isSome_iff, List.map_map]
  rw [List.mem_map] at hfound ⊢
  obtain ⟨h, hh, hm⟩ := hfound
  refine ⟨h, hh, ?_⟩
  simp only [Function.comp]
  rw [invertHandleTypeLeftRight_types, hm, he, hinv]

theorem handlesComplete_invertTopBottom (handles : List RectHandleItem)
    (hc : handlesComplete handles) :
    handlesComplete (handles.map RectHandleItem.invertHandleTypeTopBottom) := by
  intro types hty
  obtain ⟨-, hmem, hinv⟩ := topBottom_exchange types hty
  obtain ⟨he, -, -⟩ := topBottom_exchange _ hmem
  have hfound := (findHandle_isSome_iff handles _).mp (hc _ hmem)
  rw [findHandle_isSome_iff, List.map_map]
  rw [List.mem_map] at hfound ⊢
  obtain ⟨h, hh, hm⟩ := hfound
  refine ⟨h, hh, ?_⟩
  simp only [Function.comp]
  rw [invertHandleTypeTopBottom_types, hm, he, hinv]

theorem map_invertLeftRight_types (handles : List RectHandleItem)
    (hv : ∀ h ∈ handles, h.handleTypes ∈ allHandleTypes) :
    (handles.map RectHandleItem.invertHandleTypeLeftRight).map (fun x => x.handleTypes) =
      handles.map (fun x => exchangeTypes Left Right x.handleTypes) := by
  rw [List.map_map]
  apply List.map_congr_left
  intro h hh
  simp only [Function.comp]
  rw [invertHandleTypeLeftRight_types]
  exact (leftRight_exchange _ (hv h hh)).1

theorem map_invertTopBottom_types (handles : List RectHandleItem)
    (hv : ∀ h ∈ handles, h.handleTypes ∈ allHandleTypes) :
    (handles.map RectHandleItem.invertHandleTypeTopBottom).map (fun x => x.handleTypes) =
      handles.map (fun x => exchangeTypes Top Bottom x.handleTypes) := by
  rw [List.map_map]
  apply List.map_congr_left
  intro h hh
  simp only [Function.comp]
  rw [invertHandleTypeTopBottom_types]
  exact (topBottom_exchange _ (hv h hh)).1

/-- The handles after the two conditional inversions of `onHandleMoved`. -/
theorem inverted_handles (handles : List RectHandleItem) (swapLeftRight swapTopBottom : Prop)
    [Decidable swapLeftRight] [Decidable swapTopBottom] (hc : handlesComplete handles) :
    handlesComplete
      (if swapTopBottom then
        (if swapLeftRight then handles.map RectHandleItem.invertHandleTypeLeftRight
          else handles).map RectHandleItem.invertHandleTypeTopBottom
      else if swapLeftRight then handles.map RectHandleItem.invertHandleTypeLeftRight
        else handles) ∧
    ((∀ h ∈ handles, h.handleTypes ∈ allHandleTypes) →
      (if swapTopBottom then
        (if swapLeftRight then handles.map RectHandleItem.invertHandleTypeLeftRight
          else handles).map RectHandleItem.invertHandleTypeTopBottom
      else if swapLeftRight then handles.map RectHandleItem.invertHandleTypeLeftRight
        else handles).map (fun x => x.handleTypes) =
      handles.map (fun x =>
        if swapTopBottom then
          exchangeTypes Top Bottom
            (if swapLeftRight then exchangeTypes Left Right x.handleTypes else x.handleTypes)
        else if swapLeftRight then exchangeTypes Left Right x.handleTypes
          else x.handleTypes)) := by
  have hvLR : (∀ h ∈ handles, h.handleTypes ∈ allHandleTypes) →
      ∀ h ∈ handles.map RectHandleItem.invertHandleTypeLeftRight,
        h.handleTypes ∈ allHandleTypes := by
    intro hv h hh
    rw [List.mem_map] at hh
    obtain ⟨g, hg, rfl⟩ := hh
    rw [invertHandleTypeLeftRight_types, (leftRight_exchange _ (hv g hg)).1]
    exact (leftRight_exchange _ (hv g hg)).2.1
  by_cases h1 : swapLeftRight <;> by_cases h2 : swapTopBottom
  · simp only [h1, h2, if_true]
    refine ⟨handlesComplete_invertTopBottom _ (handlesComplete_invertLeftRight _ hc), ?_⟩
    intro hv
    rw [map_invertTopBottom_types _ (hvLR hv), List.map_map]
    apply List.map_congr_left
    intro h hh
    simp only [Function.comp]
    rw [invertHandleTypeLeftRight_types, (leftRight_exchange _ (hv h hh)).1]
  · simp only [h1, h2, if_true, if_false]
    exact ⟨handlesComplete_invertLeftRight _ hc, fun hv => map_invertLeftRight_types _ hv⟩
  · simp only [h1, h2, if_true, if_false]
    exact ⟨handlesComplete_invertTopBottom _ hc, fun hv => map_invertTopBottom_types _ hv⟩
  · simp only [h1, h2, if_false]
    exact ⟨hc, fun _ => trivial⟩

/-- The smaller coordinate after the conditional `std::swap`. -/
theorem swapped_min (l r : ℚ) : (if r < l then r else l) = min l r := by
  split_ifs with h
  · exact (min_eq_right h.le).symm
  · exact (min_eq_left (not_lt.mp h)).symm

/-- The larger coordinate after the conditional `std::swap`. -/
theorem swapped_max (l r : ℚ) : (if r < l then l else r) = max l r := by
  split_ifs with h
  · exact (max_eq_left h.le).symm
  · exact (max_eq_right (not_lt.mp h)).symm

/-- What `onHandleMoved` leaves when one rect layer is selected: it returns,
with the working rectangle set from the sorted coordinates and the handles
inverted where a pair was swapped. -/
theorem onHandleMoved_eq (env : ToolEnv) (t : RectTool) (pos : Vec2D) (handleTypes : Nat)
    (info : LayerInfo) (rectLayer : AbstractRectLayer) (edges : ℚ × ℚ × ℚ × ℚ)
    (hsel : t.d.selectedLayerInfos = [info]) (hr : info.rectLayer = some rectLayer)
    (hc : handlesComplete t.d.handles)
    (hedges : edges = movedEdges rectLayer.rect (t.transformToScene pos) handleTypes) :
    ∃ t', onHandleMoved env t pos handleTypes = some t' ∧
      t'.d.selectedLayerInfos = [{ info with rectLayer := some (rectLayer.setRect
        ⟨min edges.1 edges.2.2.1, min edges.2.1 edges.2.2.2,
          max edges.1 edges.2.2.1 - min edges.1 edges.2.2.1,
          max edges.2.1 edges.2.2.2 - min edges.2.1 edges.2.2.2⟩) }] ∧
      t'.d.mode = Mode.MovingHandle ∧ t'.layerScene = t.layerScene ∧
      handlesComplete t'.d.handles ∧
      ((∀ h ∈ t.d.handles, h.handleTypes ∈ allHandleTypes) →
        t'.d.handles.map (fun x => x.handleTypes) = t.d.handles.map (fun x =>
          if edges.2.2.2 < edges.2.1 then
            exchangeTypes Top Bottom
              (if edges.2.2.1 < edges.1 then exchangeTypes Left Right x.handleTypes
                else x.handleTypes)
          else if edges.2.2.1 < edges.1 then exchangeTypes Left Right x.handleTypes
            else x.handleTypes)) := by
  subst hedges
  have hlen : ¬ (t.d.selectedLayerInfos.length ≠ 1) := by rw [hsel]; simp
  unfold onHandleMoved
  rw [if_neg hlen]
  simp only [hsel, hr, decide_eq_true_eq]
  generalize hX : RectTool.mk _ _ _ _ _ _ _ = X
  obtain ⟨hch, hty⟩ := inverted_handles t.d.handles
    ((movedEdges rectLayer.rect (t.transformToScene pos) handleTypes).2.2.1 <
      (movedEdges rectLayer.rect (t.transformToScene pos) handleTypes).1)
    ((movedEdges rectLayer.rect (t.transformToScene pos) handleTypes).2.2.2 <
      (movedEdges rectLayer.rect (t.transformToScene pos) handleTypes).2.1) hc
  have hXc : handlesComplete X.d.handles := by rw [← hX]; exact hch
  have hXm : X.d.mode = Mode.MovingHandle := by rw [← hX]
  obtain ⟨t', ht'⟩ := updateGraphicsItems_isSome X hXc (by rw [hXm]; intro h; cases h)
  obtain ⟨handles, frame, e, hts⟩ := updateGraphicsItems_eq _ _ ht'
  refine ⟨t', ht', ?_, ?_, ?_, ?_, ?_⟩
  · rw [e, ← hX]
    simp only [QRectF.setCoords, swapped_min, swapped_max]
  · rw [e]; exact hXm
  · rw [e, ← hX]
  · rw [e]
    exact handlesComplete_types X.d.handles handles hts.symm hXc
  · intro hv
    rw [e]
    show handles.map (fun x => x.handleTypes) = _
    rw [hts, ← hX]
    exact hty hv

/-- C18: `onHandleMoved` with one rect layer selected (complete handle set,
every handle typed with one of the eight handle types) returns.  With `edges`
the coordinates left, top, right, bottom after the edges named by the grabbed
handle are set to the scene position: the working rectangle gets left =
min(left, right), right = max(left, right), top = min(top, bottom), bottom =
max(top, bottom), so left <= right and top <= bottom; when right < left the
two coordinates are swapped and every handle has its `Left` and `Right` types
exchanged, when bottom < top likewise with `Top` and `Bottom`; otherwise the
handle types stay. -/
theorem onHandleMoved_inversion (env : ToolEnv) (t : RectTool) (pos : Vec2D)
    (handleTypes : Nat) (info : LayerInfo) (rectLayer : AbstractRectLayer)
    (edges : ℚ × ℚ × ℚ × ℚ)
    (hsel : t.d.selectedLayerInfos = [info]) (hr : info.rectLayer = some rectLayer)
    (hc : handlesComplete t.d.handles)
    (hv : ∀ h ∈ t.d.handles, h.handleTypes ∈ allHandleTypes)
    (hedges : edges = movedEdges rectLayer.rect (t.transformToScene pos) handleTypes) :
    ∃ t' moved, onHandleMoved env t pos handleTypes = some t' ∧
      t'.d.selectedLayerInfos = [{ info with rectLayer := some moved }] ∧
      moved.rect.left ≤ moved.rect.right ∧ moved.rect.top ≤ moved.rect.bottom ∧
      moved.rect.left = min edges.1 edges.2.2.1 ∧
      moved.rect.right = max edges.1 edges.2.2.1 ∧
      moved.rect.top = min edges.2.1 edges.2.2.2 ∧
      moved.rect.bottom = max edges.2.1 edges.2.2.2 ∧
      (edges.2.2.1 < edges.1 →
        moved.rect.left = edges.2.2.1 ∧ moved.rect.right = edges.1) ∧
      (edges.2.2.2 < edges.2.1 →
        moved.rect.top = edges.2.2.2 ∧ moved.rect.bottom = edges.2.1) ∧
      t'.d.handles.map (fun x => x.handleTypes) = t.d.handles.map (fun x =>
        if edges.2.2.2 < edges.2.1 then
          exchangeTypes Top Bottom
            (if edges.2.2.1 < edges.1 then exchangeTypes Left Right x.handleTypes
              else x.handleTypes)
        else if edges.2.2.1 < edges.1 then exchangeTypes Left Right x.handleTypes
          else x.handleTypes) := by
  obtain ⟨t', hrun, hinfos, -, -, -, hty⟩ :=
    onHandleMoved_eq env t pos handleTypes info rectLayer edges hsel hr hc hedges
  have hright : ∀ a b : ℚ, min a b + (max a b - min a b) = max a b := fun a b => by ring
  refine ⟨t', _, hrun, hinfos, ?_, ?_, rfl, ?_, rfl, ?_, ?_, ?_, hty hv⟩
  · simp only [AbstractRectLayer.setRect, QRectF.left, QRectF.right, hright]
    exact min_le_max
  · simp only [AbstractRectLayer.setRect, QRectF.top, QRectF.bottom, hright]
    exact min_le_max
  · simp only [AbstractRectLayer.setRect, QRectF.right, hright]
  · simp only [AbstractRectLayer.setRect, QRectF.bottom, hright]
  · intro h
    simp only [AbstractRectLayer.setRect, QRectF.left, QRectF.right, hright]
    exact ⟨min_eq_right h.le, max_eq_left h.le⟩
  · intro h
    simp only [AbstractRectLayer.setRect, QRectF.top, QRectF.bottom, hright]
    exact ⟨min_eq_right h.le, max_eq_left h.le⟩

/-- Witness of C18: the selected rectangle has left = 10 and right = 50, the
transforms are the identity, and the `Right` handle is moved to x = 5.  The
working rectangle gets left = 5 and right = 10; the handle that was typed
`Right`, the last one, is typed `Left`, and every other handle has `Left` and
`Right` exchanged as well. -/
theorem onHandleMoved_inversion_witness :
    ∃ t' moved,
      onHandleMoved sampleEnv (idleTool AddingType.NoAdding [rectLayerD] (some rectLayerD))
        ⟨5, 35⟩ Right = some t' ∧
      t'.d.selectedLayerInfos = [{ LayerInfo.create rectLayerD with rectLayer := some moved }] ∧
      moved.rect.left = 5 ∧ moved.rect.right = 10 ∧
      (idleTool AddingType.NoAdding [rectLayerD] (some rectLayerD)).d.handles.map
        (fun x => x.handleTypes) =
        [Top ||| Left, Top ||| Right, Bottom ||| Left, Bottom ||| Right, Top, Bottom, Left,
          Right] ∧
      t'.d.handles.map (fun x => x.handleTypes) =
        [Top ||| Right, Top ||| Left, Bottom ||| Right, Bottom ||| Left, Top, Bottom, Right,
          Left] := by
  have he : ((10 : ℚ), (20 : ℚ), (5 : ℚ), (50 : ℚ)) =
      movedEdges rectLayerD.clone.rect
        ((idleTool AddingType.NoAdding [rectLayerD] (some rectLayerD)).transformToScene ⟨5, 35⟩)
        Right := by
    have h1 : Right &&& Left = 0 := by decide
    have h2 : Right &&& Top = 0 := by decide
    have h3 : Right &&& Right ≠ 0 := by decide
    have h4 : Right &&& Bottom = 0 := by decide
    simp only [movedEdges, h1, h2, h3, h4, ne_eq, not_true_eq_false, not_false_eq_true,
      if_true, if_false, rectLayerD, Layer.clone, QRectF.left, QRectF.top, QRectF.bottom,
      idleTool]
    norm_num
  obtain ⟨t', moved, h1, h2, -, -, h3, h4, -, -, -, -, h5⟩ :=
    onHandleMoved_inversion sampleEnv (idleTool AddingType.NoAdding [rectLayerD] (some rectLayerD))
      ⟨5, 35⟩ Right (LayerInfo.create rectLayerD) rectLayerD.clone (10, 20, 5, 50) rfl rfl
      constructedHandles_complete (by decide) he
  refine ⟨t', moved, h1, h2, ?_, ?_, by decide, ?_⟩
  · rw [h3]; norm_num
  · rw [h4]; norm_num
  · rw [h5]
    norm_num
    decide

/-! ## Rectangle tool: intermediate frames and the layer scene -/

/-- A move that returns leaves the layer scene as it is. -/
theorem tabletMoveEvent_scene (env : ToolEnv) (t t' : RectTool) (event : CanvasTabletEvent)
    (h : tabletMoveEvent env t event = some t') : t'.layerScene = t.layerScene := by
  unfold tabletMoveEvent at h
  simp only [] at h
  split at h
  · split at h
    · obtain ⟨handles, frame, e, -⟩ := updateGraphicsItems_eq _ _ h
      rw [e]
    · split at h
      · cases h
      · obtain ⟨handles, frame, e, -⟩ := updateGraphicsItems_eq _ _ h
        rw [e]
    · obtain rfl := Option.some.inj h
      rfl
  · split at h
    · split at h
      · obtain rfl := Option.some.inj h
        rfl
      · obtain rfl := Option.some.inj h
        rfl
    · obtain rfl := Option.some.inj h
      rfl

/-- A handle move that returns leaves the layer scene as it is. -/
theorem onHandleMoved_scene (env : ToolEnv) (t t' : RectTool) (pos : Vec2D)
    (handleTypes : Nat) (h : onHandleMoved env t pos handleTypes = some t') :
    t'.layerScene = t.layerScene := by
  unfold onHandleMoved at h
  split at h
  · obtain rfl := Option.some.inj h
    rfl
  · split at h
    · split at h
      · obtain rfl := Option.some.inj h
        rfl
      · simp only [] at h
        obtain ⟨handles, frame, e, -⟩ := updateGraphicsItems_eq _ _ h
        rw [e]
    · obtain rfl := Option.some.inj h
      rfl

/-- With a complete handle set a handle move returns. -/
theorem onHandleMoved_isSome (env : ToolEnv) (t : RectTool) (pos : Vec2D) (handleTypes : Nat)
    (hc : handlesComplete t.d.handles) : ∃ t', onHandleMoved env t pos handleTypes = some t' := by
  by_cases hlen : t.d.selectedLayerInfos.length ≠ 1
  · exact ⟨t, by unfold onHandleMoved; rw [if_pos hlen]⟩
  · have hone : t.d.selectedLayerInfos.length = 1 := by simpa using hlen
    obtain ⟨info, hsel⟩ := List.length_eq_one.mp hone
    cases hr : info.rectLayer with
    | none =>
      refine ⟨t, ?_⟩
      unfold onHandleMoved
      rw [if_neg hlen]
      simp only [hsel, hr]
    | some rectLayer =>
      obtain ⟨t', hrun, -⟩ := onHandleMoved_eq env t pos handleTypes info rectLayer _ hsel hr hc rfl
      exact ⟨t', hrun⟩

/-- With a complete handle set a move returns, unless the mode is `Inserting`
past the threshold and the provisional layer is null. -/
theorem tabletMoveEvent_isSome (env : ToolEnv) (t : RectTool) (event : CanvasTabletEvent)
    (hc : handlesComplete t.d.handles)
    (hl : t.d.mode = Mode.Inserting → t.d.dragDistanceEnough = true →
      t.d.layerToAdd.isSome = true) :
    ∃ t', tabletMoveEvent env t event = some t' := by
  by_cases hflag : t.d.dragDistanceEnough = false
  · rw [tabletMoveEvent_gate env t event hflag]
    split_ifs
    · exact ⟨_, rfl⟩
    · exact ⟨_, rfl⟩
    · exact ⟨_, rfl⟩
  · have hflag' : t.d.dragDistanceEnough = true := by simpa using hflag
    by_cases hD : t.d.mode = Mode.Dragging
    · obtain ⟨t', hrun, -⟩ := tabletMoveEvent_dragging_infos env t event hD hflag' hc
      exact ⟨t', hrun⟩
    · by_cases hI : t.d.mode = Mode.Inserting
      · obtain ⟨l, hl'⟩ := Option.isSome_iff_exists.mp (hl hI hflag')
        obtain ⟨handles, frame, keys, hrun, -⟩ :=
          tabletMoveEvent_inserting env t event l hI hflag' hl' hc
        exact ⟨_, hrun⟩
      · refine ⟨t, ?_⟩
        unfold tabletMoveEvent
        simp only [hflag', if_true]

/-- C19: for every tool state and every event, `tabletMoveEvent` and
`onHandleMoved` issue no edit to the layer scene: whenever one of them
returns, the layer scene (its edit log with the `setLayerProperty`,
`editLayer` and `addLayers` calls, its selection and its current layer) is the
one from before the call.  Both return when the handle set is complete, the
move provided that `layerToAdd` is not null in mode `Inserting` past the
threshold. -/
theorem drag_frames_issue_no_edit (env : ToolEnv) (t : RectTool) (event : CanvasTabletEvent)
    (pos : Vec2D) (handleTypes : Nat) :
    (∀ t', tabletMoveEvent env t event = some t' →
      t'.layerScene = t.layerScene ∧ t'.layerScene.edits = t.layerScene.edits) ∧
    (∀ t', onHandleMoved env t pos handleTypes = some t' →
      t'.layerScene = t.layerScene ∧ t'.layerScene.edits = t.layerScene.edits) ∧
    (handlesComplete t.d.handles →
      (∃ t', onHandleMoved env t pos handleTypes = some t') ∧
      ((t.d.mode = Mode.Inserting → t.d.dragDistanceEnough = true →
          t.d.layerToAdd.isSome = true) →
        ∃ t', tabletMoveEvent env t event = some t')) := by
  refine ⟨?_, ?_, ?_⟩
  · intro t' h
    have hs := tabletMoveEvent_scene env t t' event h
    exact ⟨hs, by rw [hs]⟩
  · intro t' h
    have hs := onHandleMoved_scene env t t' pos handleTypes h
    exact ⟨hs, by rw [hs]⟩
  · intro hc
    exact ⟨onHandleMoved_isSome env t pos handleTypes hc,
      fun hl => tabletMoveEvent_isSome env t event hc hl⟩

/-- Witness of C19: the dragging tool moved to (5, 7), and its `Right` handle
moved to (5, 35); both calls return and the layer scene is the one from
before. -/
theorem drag_frames_issue_no_edit_witness :
    (∃ t', tabletMoveEvent sampleEnv draggingTool (moveTo ⟨5, 7⟩) = some t' ∧
      t'.layerScene = draggingTool.layerScene) ∧
    (∃ t', onHandleMoved sampleEnv draggingTool ⟨5, 35⟩ Right = some t' ∧
      t'.layerScene = draggingTool.layerScene) := by
  obtain ⟨h1, h2, h3⟩ :=
    drag_frames_issue_no_edit sampleEnv draggingTool (moveTo ⟨5, 7⟩) ⟨5, 35⟩ Right
  obtain ⟨⟨t2, r2⟩, hmove⟩ := h3 constructedHandles_complete
  obtain ⟨t1, r1⟩ := hmove (fun h => absurd h (by decide))
  exact ⟨⟨t1, r1, (h1 t1 r1).1⟩, ⟨t2, r2, (h2 t2 r2).1⟩⟩

/-! ## Rectangle tool: commit -/

/-- The commit loop submits the edits of the selected layers in order and
changes nothing else. -/
theorem commit_foldl (infos : List LayerInfo) :
    ∀ t : RectTool,
      infos.foldl
        (fun tool info =>
          match commitEdit info with
          | some edit => submitEdit tool edit
          | none => tool) t =
      { t with layerScene :=
        { t.layerScene with edits := t.layerScene.edits ++ infos.filterMap commitEdit } } := by
  induction infos with
  | nil =>
    intro t
    simp only [List.foldl_nil, List.filterMap_nil, List.append_nil]
  | cons info rest ih =>
    intro t
    rw [List.foldl_cons, ih]
    cases hedit : commitEdit info with
    | none => simp only [List.filterMap_cons, hedit]
    | some edit =>
      simp only [List.filterMap_cons, hedit, submitEdit, List.append_assoc,
        List.singleton_append]

theorem commit_eq (t : RectTool) :
    commit t = { t with layerScene :=
      { t.layerScene with
        edits := t.layerScene.edits ++ t.d.selectedLayerInfos.filterMap commitEdit } } :=
  commit_foldl t.d.selectedLayerInfos t

/-- One edit for each selected layer that has a working rectangle or is a
raster layer. -/
theorem commitEdit_count (infos : List LayerInfo) :
    (infos.filterMap commitEdit).length =
      (infos.filter (fun info =>
        info.rectLayer.isSome || decide (info.original.kind = LayerKind.raster))).length := by
  induction infos with
  | nil => rfl
  | cons info rest ih =>
    unfold commitEdit at ih ⊢
    cases hr : info.rectLayer with
    | some rectLayer =>
      simp only [List.filterMap_cons, hr, List.filter_cons, Option.isSome_some, Bool.true_or,
        if_true, List.length_cons, ih]
    | none =>
      by_cases hk : info.original.kind = LayerKind.raster
      · simp only [List.filterMap_cons, hr, hk, if_true, List.filter_cons, Option.isSome_none,
          Bool.false_or, decide_True, List.length_cons, ih]
      · simp only [List.filterMap_cons, hr, hk, if_false, List.filter_cons, Option.isSome_none,
          Bool.false_or, decide_False, ih]
        simp

/-- A release in mode `Dragging` past the threshold returns; it commits. -/
theorem tabletReleaseEvent_dragging (t : RectTool) (event : CanvasTabletEvent)
    (hmode : t.d.mode = Mode.Dragging) (hflag : t.d.dragDistanceEnough = true)
    (hc : handlesComplete t.d.handles) :
    ∃ t', tabletReleaseEvent t event = some t' ∧
      t'.layerScene.edits =
        t.layerScene.edits ++ t.d.selectedLayerInfos.filterMap commitEdit ∧
      t'.d.mode = Mode.NoOperation ∧
      t'.d.selectedLayerInfos = t.d.selectedLayerInfos := by
  obtain ⟨t', ht'⟩ := updateGraphicsItems_isSome
    { commit t with d := { (commit t).d with mode := Mode.NoOperation } }
    (by rw [commit_eq]; exact hc) (by simp)
  obtain ⟨handles, frame, e, -⟩ := updateGraphicsItems_eq _ _ ht'
  refine ⟨t', ?_, ?_, ?_, ?_⟩
  · unfold tabletReleaseEvent
    simp only [hflag, if_true, hmode, Option.some_bind]
    exact ht'
  · rw [e, commit_eq]
  · rw [e]
  · rw [e, commit_eq]

/-- A press on the selected layer A, with the layers A and B selected, enters
`Dragging` and keeps the selection. -/
theorem tabletPressEvent_selected (pos : Vec2D) :
    tabletPressEvent (idleTool AddingType.NoAdding [rectLayerA, rectLayerB] (some rectLayerA))
      (pressAt pos) none (some rectLayerA) true =
      some (true, pressedTool [rectLayerA, rectLayerB] (some rectLayerA) pos) := by
  simp [tabletPressEvent, pressSelect, pressMode, setCurrent, idleTool, pressedTool, pressAt]

/-- Counterexample to C20 as stated: the layers A and B are selected; a press
on A at (5, 5), a move to (50, 5) that crosses the threshold 10, a move to
(55, 5) and a release.  The release submits two edits to the layer scene, one
`setLayerProperty` for each selected layer. -/
theorem release_commit_counterexample :
    ∃ t', gesture sampleEnv
        (idleTool AddingType.NoAdding [rectLayerA, rectLayerB] (some rectLayerA))
        (pressAt ⟨5, 5⟩) none (some rectLayerA) [moveTo ⟨50, 5⟩, moveTo ⟨55, 5⟩]
        (releaseAt ⟨55, 5⟩) = some t' ∧
      (idleTool AddingType.NoAdding [rectLayerA, rectLayerB]
        (some rectLayerA)).layerScene.edits = [] ∧
      t'.layerScene.edits =
        [SceneEdit.setLayerProperty rectLayerA ⟨50, 0, 10, 10⟩ "Change Rect",
          SceneEdit.setLayerProperty rectLayerB ⟨250, 0, 30, 20⟩ "Change Rect"] ∧
      t'.layerScene.edits.length ≠ 1 := by
  have hd : dragDistance (pressedTool [rectLayerA, rectLayerB] (some rectLayerA) ⟨5, 5⟩)
      (moveTo ⟨50, 5⟩) = 45 := by
    simp only [dragDistance, pressedTool, moveTo, vec2d_sub_def]
    norm_num
  have h1 := tabletMoveEvent_gate sampleEnv
    (pressedTool [rectLayerA, rectLayerB] (some rectLayerA) ⟨5, 5⟩) (moveTo ⟨50, 5⟩) rfl
  rw [hd, if_pos (by norm_num [sampleEnv]), if_neg (by decide)] at h1
  obtain ⟨t2, h2, i2, m2, f2, -, c2, s2⟩ := tabletMoveEvent_dragging_infos sampleEnv
    { pressedTool [rectLayerA, rectLayerB] (some rectLayerA) ⟨5, 5⟩ with
      d := { (pressedTool [rectLayerA, rectLayerB] (some rectLayerA) ⟨5, 5⟩).d with
        dragDistanceEnough := true } }
    (moveTo ⟨55, 5⟩) rfl rfl constructedHandles_complete
  obtain ⟨t3, h3, e3, -⟩ := tabletReleaseEvent_dragging t2 (releaseAt ⟨55, 5⟩) m2 f2 c2
  have hedits : t3.layerScene.edits =
      [SceneEdit.setLayerProperty rectLayerA ⟨50, 0, 10, 10⟩ "Change Rect",
        SceneEdit.setLayerProperty rectLayerB ⟨250, 0, 30, 20⟩ "Change Rect"] := by
    rw [e3, i2, s2]
    simp [pressedTool, idleTool, dragInfo, commitEdit, LayerInfo.create,
      LayerInfo.setOriginalLayer, rectLayerA, rectLayerB, Layer.clone, moveTo,
      AbstractRectLayer.setRect, QRectF.moveTopLeft, QRectF.topLeft, vec2d_add_def,
      vec2d_sub_def]
    norm_num
  refine ⟨t3, ?_, rfl, hedits, by rw [hedits]; decide⟩
  simp only [gesture, tabletPressEvent_selected, Option.some_bind, tabletMoveEvents, h1, h2, h3]

/-- C20, amended: a release in mode `Dragging` after the threshold was crossed
(handle set complete) returns and submits to the layer scene one edit for each
selected layer that has a working rectangle or is a raster layer, in selection
order: `setLayerProperty` with the working rectangle for a rect layer,
`editLayer` with the paint offset for a raster layer, nothing for another
layer.  The number of edits is the number of such layers; exactly one edit is
submitted when exactly one such layer is selected. -/
theorem tabletReleaseEvent_commit (t : RectTool) (event : CanvasTabletEvent)
    (hmode : t.d.mode = Mode.Dragging) (hflag : t.d.dragDistanceEnough = true)
    (hc : handlesComplete t.d.handles) :
    ∃ t', tabletReleaseEvent t event = some t' ∧
      t'.layerScene.edits =
        t.layerScene.edits ++ t.d.selectedLayerInfos.filterMap commitEdit ∧
      (∀ info : LayerInfo,
        (∀ r, info.rectLayer = some r →
          commitEdit info = some (SceneEdit.setLayerProperty info.original r.rect "Change Rect")) ∧
        (info.rectLayer = none → info.original.kind = LayerKind.raster →
          commitEdit info =
            some (SceneEdit.editLayer info.original info.rasterOffset "Move Layer")) ∧
        (info.rectLayer = none → info.original.kind ≠ LayerKind.raster →
          commitEdit info = none)) ∧
      (t.d.selectedLayerInfos.filterMap commitEdit).length =
        (t.d.selectedLayerInfos.filter (fun info =>
          info.rectLayer.isSome || decide (info.original.kind = LayerKind.raster))).length ∧
      ((t.d.selectedLayerInfos.filter (fun info =>
          info.rectLayer.isSome || decide (info.original.kind = LayerKind.raster))).length = 1 →
        ∃ edit, t'.layerScene.edits = t.layerScene.edits ++ [edit]) := by
  obtain ⟨t', hrun, hedits, -⟩ := tabletReleaseEvent_dragging t event hmode hflag hc
  refine ⟨t', hrun, hedits, ?_, commitEdit_count _, ?_⟩
  · intro info
    refine ⟨?_, ?_, ?_⟩
    · intro r hr
      simp only [commitEdit, hr]
    · intro hr hk
      simp only [commitEdit, hr, hk, if_true]
    · intro hr hk
      simp only [commitEdit, hr, hk, if_false]
  · intro hone
    rw [← commitEdit_count, List.length_eq_one] at hone
    obtain ⟨edit, he⟩ := hone
    exact ⟨edit, by rw [hedits, he]⟩

/-- Witness of C20, amended: one rect layer is selected and dragged; the
release submits the single edit `setLayerProperty` with its working
rectangle. -/
theorem tabletReleaseEvent_commit_witness :
    ∃ t', tabletReleaseEvent draggingTool (releaseAt ⟨0, 0⟩) = some t' ∧
      t'.layerScene.edits =
        [SceneEdit.setLayerProperty rectLayerA ⟨0, 0, 10, 10⟩ "Change Rect"] := by
  obtain ⟨t', h1, h2, -⟩ :=
    tabletReleaseEvent_commit draggingTool (releaseAt ⟨0, 0⟩) rfl rfl
      constructedHandles_complete
  refine ⟨t', h1, ?_⟩
  rw [h2]
  rfl

/-! ## Tool event sender: unmodelled event types -/

/-- A mouse event of a type other than press, release, move and double click
is left ignored by `mouseEvent`: nothing is delivered and the sender, with its
pressure latch, is unchanged. -/
theorem mouseEvent_unmodelled (s : CanvasToolEventSender) (e : QMouseEvent)
    (h1 : e.type ≠ QEventType.MouseButtonPress) (h2 : e.type ≠ QEventType.MouseButtonRelease)
    (h3 : e.type ≠ QEventType.MouseMove) (h4 : e.type ≠ QEventType.MouseButtonDblClick) :
    CanvasToolEventSender.mouseEvent s e = (s, { e with accepted := false }) := by
  unfold CanvasToolEventSender.mouseEvent
  cases ht : e.type <;> rw [ht] at h1 h2 h3 h4 <;>
    simp only [ne_eq, not_true_eq_false] at h1 h2 h3 h4

/-- The event `tabletEvent` hands to a tool that is set, for a stylus event of
any type: one canvas tablet event, typed press or release for a press or a
release and move for every other type; the stylus event ends with the tool's
answer as its accepted flag. -/
theorem tabletEvent_eq (s : CanvasToolEventSender) (tool : Tool) (e : QTabletEvent)
    (htool : s.d.tool = some tool) :
    ∃ te : CanvasTabletEvent,
      CanvasToolEventSender.tabletEvent s e =
        ({ s with delivered := s.delivered ++ [CanvasEvent.tablet te] },
          { e with accepted := tool.tabletAccepted te }) ∧
      te.type =
        (if e.type = QEventType.TabletPress then CanvasEventType.EventCanvasTabletPress
        else if e.type = QEventType.TabletRelease then CanvasEventType.EventCanvasTabletRelease
        else CanvasEventType.EventCanvasTabletMove) ∧
      te.data.pressure = e.pressure ∧ te.data.tangentialPressure = e.tangentialPressure ∧
      te.data.rotation = e.rotation ∧ te.data.tilt = ⟨e.xTilt, e.yTilt⟩ := by
  unfold CanvasToolEventSender.tabletEvent CanvasToolEventSender.customTabletEvent
    CanvasToolEventSender.sendCanvasTabletEvent
  simp only [htool]
  refine ⟨_, rfl, ?_, rfl, rfl, rfl, rfl⟩
  cases e.type <;> simp

/-- C21, at the failing input: the mouse half of the claim holds (a mouse
event of an unmodelled type is left ignored, nothing is delivered, the sender
with its latch is unchanged), but `tabletEvent` hands a stylus event of an
unmodelled type to the tool as a tablet move, and the event ends accepted when
the tool accepts that move. -/
theorem tabletEvent_unmodelled_delivered :
    (∀ (s : CanvasToolEventSender) (e : QMouseEvent), e.type = QEventType.Other →
      CanvasToolEventSender.mouseEvent s e = (s, { e with accepted := false })) ∧
    proximityEvent.type = QEventType.Other ∧
    ∃ te : CanvasTabletEvent,
      (CanvasToolEventSender.tabletEvent
        ((CanvasToolEventSender.create (fun p => p)).setTool (some acceptingTool))
        proximityEvent).1.delivered = [CanvasEvent.tablet te] ∧
      te.type = CanvasEventType.EventCanvasTabletMove ∧
      (CanvasToolEventSender.tabletEvent
        ((CanvasToolEventSender.create (fun p => p)).setTool (some acceptingTool))
        proximityEvent).2.accepted = true := by
  refine ⟨?_, rfl, ?_⟩
  · intro s e he
    exact mouseEvent_unmodelled s e (by rw [he]; decide) (by rw [he]; decide)
      (by rw [he]; decide) (by rw [he]; decide)
  · obtain ⟨te, hrun, htype, -⟩ := tabletEvent_eq
      ((CanvasToolEventSender.create (fun p => p)).setTool (some acceptingTool))
      acceptingTool proximityEvent rfl
    refine ⟨te, by rw [hrun]; rfl, by rw [htype]; rfl, by rw [hrun]; rfl⟩

/-! ## Tool event sender: stylus pressure -/

/-- Counterexample to C22 as stated: a stylus move with pressure -1/2 and
tangential pressure 3/2 is delivered with pressure -1/2 and tangential
pressure 3/2; nothing is clamped. -/
theorem tabletEvent_pressure_counterexample :
    ∃ te : CanvasTabletEvent,
      (CanvasToolEventSender.tabletEvent
        ((CanvasToolEventSender.create (fun p => p)).setTool (some acceptingTool))
        outOfRangeMove).1.delivered = [CanvasEvent.tablet te] ∧
      te.data.pressure = -1 / 2 ∧ te.data.tangentialPressure = 3 / 2 ∧
      ¬ (0 ≤ te.data.pressure ∧ te.data.pressure ≤ 1) ∧
      ¬ (0 ≤ te.data.tangentialPressure ∧ te.data.tangentialPressure ≤ 1) := by
  obtain ⟨te, hrun, -, hp, htp, -⟩ := tabletEvent_eq
    ((CanvasToolEventSender.create (fun p => p)).setTool (some acceptingTool))
    acceptingTool outOfRangeMove rfl
  have hp' : te.data.pressure = -1 / 2 := hp
  have htp' : te.data.tangentialPressure = 3 / 2 := htp
  refine ⟨te, by rw [hrun]; rfl, hp', htp', ?_, ?_⟩
  · rw [hp']; norm_num
  · rw [htp']; norm_num

/-- C22, amended: for every stylus event passed to `tabletEvent` while a tool
is set, one canonical tablet event is delivered, and its pressure and
tangential pressure are those of the stylus event, unchanged; they lie in
[0, 1] exactly when the values of the stylus event do. -/
theorem tabletEvent_pressure (s : CanvasToolEventSender) (tool : Tool) (e : QTabletEvent)
    (htool : s.d.tool = some tool) :
    ∃ te : CanvasTabletEvent,
      (CanvasToolEventSender.tabletEvent s e).1.delivered =
        s.delivered ++ [CanvasEvent.tablet te] ∧
      te.data.pressure = e.pressure ∧ te.data.tangentialPressure = e.tangentialPressure ∧
      ((0 ≤ te.data.pressure ∧ te.data.pressure ≤ 1) ↔ (0 ≤ e.pressure ∧ e.pressure ≤ 1)) ∧
      ((0 ≤ te.data.tangentialPressure ∧ te.data.tangentialPressure ≤ 1) ↔
        (0 ≤ e.tangentialPressure ∧ e.tangentialPressure ≤ 1)) := by
  obtain ⟨te, hrun, -, hp, htp, -⟩ := tabletEvent_eq s tool e htool
  refine ⟨te, by rw [hrun], hp, htp, by rw [hp], by rw [htp]⟩

/-- Witness of C22, amended: a stylus move with pressure 1/2 is delivered
with pressure 1/2. -/
theorem tabletEvent_pressure_witness :
    ∃ te : CanvasTabletEvent,
      (CanvasToolEventSender.tabletEvent
        ((CanvasToolEventSender.create (fun p => p)).setTool (some acceptingTool))
        stylusMove).1.delivered = [CanvasEvent.tablet te] ∧
      te.data.pressure = 1 / 2 ∧ te.data.tangentialPressure = 0 := by
  obtain ⟨te, h1, h2, h3, -⟩ := tabletEvent_pressure
    ((CanvasToolEventSender.create (fun p => p)).setTool (some acceptingTool))
    acceptingTool stylusMove rfl
  exact ⟨te, h1, h2, h3⟩

/-! ## Tool event sender: interleaved streams -/

theorem sendCanvasTabletEventFromMouse_tool (s : CanvasToolEventSender) (e : QMouseEvent) :
    (CanvasToolEventSender.sendCanvasTabletEventFromMouse s e).2.d.tool = s.d.tool := by
  unfold CanvasToolEventSender.sendCanvasTabletEventFromMouse
  cases h : s.d.tool with
  | none => simp only [h]
  | some tool => simp only [h]

theorem mouseEvent_tool (s : CanvasToolEventSender) (e : QMouseEvent) :
    (CanvasToolEventSender.mouseEvent s e).1.d.tool = s.d.tool := by
  rw [CanvasToolEventSender.mouseEvent_sender]
  split_ifs
  · rw [CanvasToolEventSender.sendCanvasMouseEvent_data]
  · exact sendCanvasTabletEventFromMouse_tool s e
  · rw [CanvasToolEventSender.sendCanvasMouseEvent_data]
    exact sendCanvasTabletEventFromMouse_tool s e
  · rfl

theorem tabletEvent_tool (s : CanvasToolEventSender) (e : QTabletEvent) :
    (CanvasToolEventSender.tabletEvent s e).1.d.tool = s.d.tool := by
  unfold CanvasToolEventSender.tabletEvent CanvasToolEventSender.customTabletEvent
    CanvasToolEventSender.sendCanvasTabletEvent
  cases h : s.d.tool with
  | none => simp only [h]
  | some tool => simp only [h]

theorem deviceEvents_tool (events : List DeviceEvent) :
    ∀ s : CanvasToolEventSender, (s.deviceEvents events).d.tool = s.d.tool := by
  induction events with
  | nil => intro s; rfl
  | cons e rest ih =>
    intro s
    unfold CanvasToolEventSender.deviceEvents
    rw [List.foldl_cons]
    have h := ih (s.deviceEvent e)
    unfold CanvasToolEventSender.deviceEvents at h
    rw [h]
    cases e with
    | mouse m => exact mouseEvent_tool s m
    | stylus t => exact tabletEvent_tool s t

/-- While a tool is set, a mouse press, release, move or double click reaches
the tool, whatever the sender went through before. -/
theorem mouseEvent_reaches (s : CanvasToolEventSender) (tool : Tool) (e : QMouseEvent)
    (htool : s.d.tool = some tool)
    (he : e.type = QEventType.MouseButtonPress ∨ e.type = QEventType.MouseButtonRelease ∨
      e.type = QEventType.MouseMove ∨ e.type = QEventType.MouseButtonDblClick) :
    ∃ first rest, (CanvasToolEventSender.mouseEvent s e).1.delivered =
      s.delivered ++ first :: rest := by
  have h1 : ∃ te, (CanvasToolEventSender.sendCanvasTabletEventFromMouse s e).2.delivered =
      s.delivered ++ [CanvasEvent.tablet te] := by
    unfold CanvasToolEventSender.sendCanvasTabletEventFromMouse
    simp only [htool]
    exact ⟨_, rfl⟩
  obtain ⟨te, hte⟩ := h1
  obtain ⟨ce, hce, -⟩ := CanvasToolEventSender.sendCanvasMouseEvent_delivered s tool e htool
  obtain ⟨ce2, hce2, -⟩ := CanvasToolEventSender.sendCanvasMouseEvent_delivered
    (CanvasToolEventSender.sendCanvasTabletEventFromMouse s e).2 tool e
    (by rw [sendCanvasTabletEventFromMouse_tool, htool])
  rw [CanvasToolEventSender.mouseEvent_sender]
  split_ifs with hd hp ha
  · exact ⟨_, [], hce⟩
  · exact ⟨_, [], hte⟩
  · exact ⟨CanvasEvent.tablet te, [CanvasEvent.mouse ce2], by rw [hce2, hte]; simp⟩
  · exfalso
    rcases he with h | h | h | h
    · exact hp (Or.inl h)
    · exact hp (Or.inr (Or.inl h))
    · exact hp (Or.inr (Or.inr h))
    · exact hd h

/-- Counterexample to C23 as stated: a stylus press followed, before any
stylus release, by a mouse move at (7, 8).  The tool receives the stylus press
and then the tablet move synthesized from the mouse move. -/
theorem stream_ownership_counterexample :
    stylusPress.type = QEventType.TabletPress ∧
    ∃ press move : CanvasTabletEvent,
      (((CanvasToolEventSender.create (fun p => p)).setTool (some acceptingTool)).deviceEvents
        [DeviceEvent.stylus stylusPress,
          DeviceEvent.mouse (mouseAt QEventType.MouseMove 7 8)]).delivered =
        [CanvasEvent.tablet press, CanvasEvent.tablet move] ∧
      press.type = CanvasEventType.EventCanvasTabletPress ∧
      move.type = CanvasEventType.EventCanvasTabletMove ∧ move.viewPosInt = ⟨7, 8⟩ := by
  obtain ⟨te, hrun, htype, -⟩ := tabletEvent_eq
    ((CanvasToolEventSender.create (fun p => p)).setTool (some acceptingTool))
    acceptingTool stylusPress rfl
  refine ⟨rfl, te,
    ⟨CanvasEventType.EventCanvasTabletMove, ⟨7, 8⟩, ⟨7, 8⟩, ⟨7, 8⟩, ⟨7, 8⟩,
      ⟨⟨7, 8⟩, 0, 0, 0, ⟨0, 0⟩⟩, 0⟩, ?_, by rw [htype]; rfl, rfl, rfl⟩
  simp only [CanvasToolEventSender.deviceEvents, List.foldl_cons, List.foldl_nil,
    CanvasToolEventSender.deviceEvent, hrun]
  simp [CanvasToolEventSender.mouseEvent, CanvasToolEventSender.sendCanvasTabletEventFromMouse,
    CanvasToolEventSender.setTool, CanvasToolEventSender.create, mouseAt, acceptingTool,
    QPoint.toVec2D]

/-- C23, amended: the sender keeps no record of the stream that pressed last.
While a tool is set, after every run of interleaved mouse and stylus events,
every stylus event is delivered to the tool as one tablet event and every
mouse press, release, move or double click is delivered to the tool, in
arrival order, whatever the other stream did before. -/
theorem deviceEvent_reaches (s : CanvasToolEventSender) (tool : Tool)
    (earlier : List DeviceEvent) (htool : s.d.tool = some tool) :
    (∀ m : QMouseEvent,
      (m.type = QEventType.MouseButtonPress ∨ m.type = QEventType.MouseButtonRelease ∨
        m.type = QEventType.MouseMove ∨ m.type = QEventType.MouseButtonDblClick) →
      ∃ first rest,
        ((s.deviceEvents earlier).deviceEvent (DeviceEvent.mouse m)).delivered =
          (s.deviceEvents earlier).delivered ++ first :: rest) ∧
    (∀ t : QTabletEvent, ∃ te : CanvasTabletEvent,
      ((s.deviceEvents earlier).deviceEvent (DeviceEvent.stylus t)).delivered =
        (s.deviceEvents earlier).delivered ++ [CanvasEvent.tablet te]) := by
  have ht : (s.deviceEvents earlier).d.tool = some tool := by
    rw [deviceEvents_tool, htool]
  refine ⟨fun m hm => mouseEvent_reaches _ tool m ht hm, fun t => ?_⟩
  obtain ⟨te, hrun, -⟩ := tabletEvent_eq (s.deviceEvents earlier) tool t ht
  exact ⟨te, by simp only [CanvasToolEventSender.deviceEvent, hrun]⟩

/-- Witness of C23, amended: after a stylus press, a mouse move is delivered
to the tool. -/
theorem deviceEvent_reaches_witness :
    ∃ first rest,
      ((((CanvasToolEventSender.create (fun p => p)).setTool (some acceptingTool)).deviceEvents
        [DeviceEvent.stylus stylusPress]).deviceEvent
          (DeviceEvent.mouse (mouseAt QEventType.MouseMove 7 8))).delivered =
        (((CanvasToolEventSender.create (fun p => p)).setTool (some acceptingTool)).deviceEvents
          [DeviceEvent.stylus stylusPress]).delivered ++ first :: rest :=
  (deviceEvent_reaches ((CanvasToolEventSender.create (fun p => p)).setTool (some acceptingTool))
    acceptingTool [DeviceEvent.stylus stylusPress] rfl).1
    (mouseAt QEventType.MouseMove 7 8) (Or.inr (Or.inr (Or.inl rfl)))

/-! ## Tool event sender: dispatch of a mouse event -/

/-- The result of `mouseEvent` for a press, a release or a move. -/
theorem mouseEvent_eq (s : CanvasToolEventSender) (e : QMouseEvent)
    (he : e.type = QEventType.MouseButtonPress ∨ e.type = QEventType.MouseButtonRelease ∨
      e.type = QEventType.MouseMove) :
    CanvasToolEventSender.mouseEvent s e =
      if (CanvasToolEventSender.sendCanvasTabletEventFromMouse s e).1 = true then
        ((CanvasToolEventSender.sendCanvasTabletEventFromMouse s e).2,
          { e with accepted := true })
      else
        ((CanvasToolEventSender.sendCanvasMouseEvent
            (CanvasToolEventSender.sendCanvasTabletEventFromMouse s e).2 e).2,
          { e with accepted := (CanvasToolEventSender.sendCanvasMouseEvent
            (CanvasToolEventSender.sendCanvasTabletEventFromMouse s e).2 e).1 }) := by
  unfold CanvasToolEventSender.mouseEvent
  rcases he with h | h | h
  all_goals
    cases ht : e.type <;> rw [ht] at h <;> simp only [reduceCtorEq] at h

/-- The tablet event `sendCanvasTabletEvent(QMouseEvent *)` hands to a tool
that is set. -/
theorem sendCanvasTabletEventFromMouse_eq (s : CanvasToolEventSender) (tool : Tool)
    (e : QMouseEvent) (htool : s.d.tool = some tool) :
    ∃ (te : CanvasTabletEvent) (pressure : ℚ),
      CanvasToolEventSender.sendCanvasTabletEventFromMouse s e =
        (tool.tabletAccepted te,
          { d := { s.d with mousePressure := pressure }
            delivered := s.delivered ++ [CanvasEvent.tablet te] }) ∧
      te.type =
        (if e.type = QEventType.MouseButtonPress then CanvasEventType.EventCanvasTabletPress
        else if e.type = QEventType.MouseButtonRelease then
          CanvasEventType.EventCanvasTabletRelease
        else CanvasEventType.EventCanvasTabletMove) ∧
      te.data.pos = s.d.transformToScene e.posF := by
  unfold CanvasToolEventSender.sendCanvasTabletEventFromMouse
  simp only [htool]
  refine ⟨_, _, rfl, ?_, rfl⟩
  cases e.type <;> simp

/-- The canvas mouse event `sendCanvasMouseEvent` hands to a tool that is
set. -/
theorem sendCanvasMouseEvent_eq (s : CanvasToolEventSender) (tool : Tool)
    (e : QMouseEvent) (htool : s.d.tool = some tool) :
    ∃ ce : CanvasMouseEvent,
      CanvasToolEventSender.sendCanvasMouseEvent s e =
        (tool.mouseAccepted ce,
          { s with delivered := s.delivered ++ [CanvasEvent.mouse ce] }) ∧
      ce.type =
        (if e.type = QEventType.MouseButtonPress then CanvasEventType.EventCanvasMousePress
        else if e.type = QEventType.MouseButtonRelease then
          CanvasEventType.EventCanvasMouseRelease
        else if e.type = QEventType.MouseButtonDblClick then
          CanvasEventType.EventCanvasMouseDoubleClick
        else CanvasEventType.EventCanvasMouseMove) ∧
      ce.scenePos = s.d.transformToScene e.posF := by
  unfold CanvasToolEventSender.sendCanvasMouseEvent
  simp only [htool]
  refine ⟨_, rfl, ?_, rfl⟩
  cases e.type <;> simp

/-- C27: for a mouse press, move or release passed to `mouseEvent` while a
tool is set, the tool first receives the tablet event synthesized from it (a
tablet press, move or release at the document position of the mouse event);
the plain canvas mouse event follows if and only if the tool did not accept
the tablet event; the device event ends accepted if and only if the tool
accepted one of the two.  With no tool set, for a mouse event of any type,
nothing is delivered, the device event ends not accepted and the sender with
its pressure latch is unchanged. -/
theorem mouseEvent_dispatch (s : CanvasToolEventSender) (e : QMouseEvent) :
    (∀ tool, s.d.tool = some tool →
      (e.type = QEventType.MouseButtonPress ∨ e.type = QEventType.MouseButtonRelease ∨
        e.type = QEventType.MouseMove) →
      ∃ (te : CanvasTabletEvent) (ce : CanvasMouseEvent),
        (CanvasToolEventSender.mouseEvent s e).1.delivered =
          s.delivered ++ CanvasEvent.tablet te ::
            (if tool.tabletAccepted te = true then [] else [CanvasEvent.mouse ce]) ∧
        (CanvasToolEventSender.mouseEvent s e).2 =
          { e with accepted := tool.tabletAccepted te || tool.mouseAccepted ce } ∧
        te.type =
          (if e.type = QEventType.MouseButtonPress then CanvasEventType.EventCanvasTabletPress
          else if e.type = QEventType.MouseButtonRelease then
            CanvasEventType.EventCanvasTabletRelease
          else CanvasEventType.EventCanvasTabletMove) ∧
        ce.type =
          (if e.type = QEventType.MouseButtonPress then CanvasEventType.EventCanvasMousePress
          else if e.type = QEventType.MouseButtonRelease then
            CanvasEventType.EventCanvasMouseRelease
          else CanvasEventType.EventCanvasMouseMove) ∧
        te.data.pos = s.d.transformToScene e.posF ∧
        ce.scenePos = s.d.transformToScene e.posF) ∧
    (s.d.tool = none →
      CanvasToolEventSender.mouseEvent s e = (s, { e with accepted := false })) := by
  constructor
  · intro tool htool he
    obtain ⟨te, pressure, hte, htype, hpos⟩ := sendCanvasTabletEventFromMouse_eq s tool e htool
    obtain ⟨ce, hce, hctype, hcpos⟩ := sendCanvasMouseEvent_eq
      (CanvasToolEventSender.sendCanvasTabletEventFromMouse s e).2 tool e
      (by rw [sendCanvasTabletEventFromMouse_tool, htool])
    have hnd : e.type ≠ QEventType.MouseButtonDblClick := by
      rcases he with h | h | h <;> rw [h] <;> decide
    refine ⟨te, ce, ?_, ?_, htype, ?_, hpos, ?_⟩
    · rw [mouseEvent_eq s e he, hce, hte]
      by_cases ha : tool.tabletAccepted te = true
      · simp [ha]
      · simp [ha]
    · rw [mouseEvent_eq s e he, hce, hte]
      by_cases ha : tool.tabletAccepted te = true
      · simp [ha]
      · simp [ha]
    · rw [hctype]
      simp only [hnd, if_false]
    · rw [hcpos, hte]
  · intro htool
    unfold CanvasToolEventSender.mouseEvent CanvasToolEventSender.sendCanvasMouseEvent
      CanvasToolEventSender.sendCanvasTabletEventFromMouse
    simp only [htool]
    cases e.type <;> simp

/-- Witness of C27: a press at (1, 1) with a tool that accepts only mouse
events is delivered as the synthesized tablet press followed by the canvas
mouse press, and ends accepted. -/
theorem mouseEvent_dispatch_witness :
    ∃ (te : CanvasTabletEvent) (ce : CanvasMouseEvent),
      (CanvasToolEventSender.mouseEvent
        ((CanvasToolEventSender.create (fun p => p)).setTool (some mouseOnlyTool))
        (mouseAt QEventType.MouseButtonPress 1 1)).1.delivered =
        [CanvasEvent.tablet te, CanvasEvent.mouse ce] ∧
      (CanvasToolEventSender.mouseEvent
        ((CanvasToolEventSender.create (fun p => p)).setTool (some mouseOnlyTool))
        (mouseAt QEventType.MouseButtonPress 1 1)).2.accepted = true ∧
      te.type = CanvasEventType.EventCanvasTabletPress ∧
      ce.type = CanvasEventType.EventCanvasMousePress := by
  obtain ⟨te, ce, h1, h2, h3, h4, -⟩ :=
    (mouseEvent_dispatch
      ((CanvasToolEventSender.create (fun p => p)).setTool (some mouseOnlyTool))
      (mouseAt QEventType.MouseButtonPress 1 1)).1 mouseOnlyTool rfl (Or.inl rfl)
  exact ⟨te, ce, h1, by rw [h2]; rfl, h3, h4⟩

/-! ## Rectangle tool: handle visibility -/

theorem modify_visible (f : RectHandleItem → RectHandleItem)
    (hf : ∀ h, (f h).visible = h.visible) :
    ∀ (handles : List RectHandleItem) (i : Nat),
      (handles.modify f i).map (fun x => x.visible) = handles.map (fun x => x.visible) := by
  intro handles
  induction handles with
  | nil => intro i; simp
  | cons h rest ih =>
    intro i
    cases i with
    | zero => simp only [List.modify_zero_cons, List.map_cons, hf]
    | succ j =>
      rw [List.modify_succ_cons]
      simp only [List.map_cons, ih]

theorem setHandlePos_visible (handles moved : List RectHandleItem) (types : Nat) (pos : Vec2D)
    (h : setHandlePos handles types pos = some moved) :
    moved.map (fun x => x.visible) = handles.map (fun x => x.visible) := by
  unfold setHandlePos at h
  cases hf : findHandle handles types with
  | none => simp [hf] at h
  | some i =>
    simp only [hf, Option.map_some', Option.some.injEq] at h
    rw [← h]
    exact modify_visible (fun h => { h with pos := pos }) (fun _ => rfl) handles i

theorem map_setVisible (v : Bool) (handles : List RectHandleItem) :
    (handles.map (fun h => { h with visible := v })).map (fun x => x.visible) =
      handles.map (fun _ => v) := by
  simp only [List.map_map]
  rfl

theorem map_transparent_visible (v : Bool) (handles : List RectHandleItem) :
    (handles.map (fun h => { h with transparent := v })).map (fun x => x.visible) =
      handles.map (fun x => x.visible) := by
  simp only [List.map_map]
  rfl

/-- The handle part of `updateGraphicsItems` shows every handle when exactly
one layer is selected and hides every handle otherwise. -/
theorem updateHandles_visible (t : RectTool) (handles : List RectHandleItem)
    (h : updateHandles t = some handles) :
    handles.map (fun x => x.visible) =
      t.d.handles.map (fun _ => decide (t.d.selectedLayerInfos.length = 1)) := by
  unfold updateHandles at h
  split_ifs at h with hlen
  · simp only [hlen, decide_True]
    cases hhead : t.d.selectedLayerInfos.head? with
    | none =>
      simp only [hhead, Option.some.injEq] at h
      rw [← h]
      exact map_setVisible true _
    | some info =>
      cases hrl : info.rectLayer with
      | none =>
        simp only [hhead, hrl, Option.some.injEq] at h
        rw [← h]
        exact map_setVisible true _
      | some rectLayer =>
        simp only [hhead, hrl, Option.bind_eq_some, Option.map_eq_some'] at h
        obtain ⟨h1, e1, h2, e2, h3, e3, h4, e4, h5, e5, h6, e6, h7, e7, h8, e8, rfl⟩ := h
        rw [map_transparent_visible, setHandlePos_visible _ _ _ _ e8,
          setHandlePos_visible _ _ _ _ e7, setHandlePos_visible _ _ _ _ e6,
          setHandlePos_visible _ _ _ _ e5, setHandlePos_visible _ _ _ _ e4,
          setHandlePos_visible _ _ _ _ e3, setHandlePos_visible _ _ _ _ e2,
          setHandlePos_visible _ _ _ _ e1]
        exact map_setVisible true _
  · simp only [hlen, decide_False, Option.some.injEq] at h ⊢
    rw [← h]
    exact map_setVisible false _

theorem updateGraphicsItems_visible (t t' : RectTool) (h : updateGraphicsItems t = some t') :
    t'.d.handles.map (fun x => x.visible) =
      t.d.handles.map (fun _ => decide (t.d.selectedLayerInfos.length = 1)) := by
  unfold updateGraphicsItems at h
  simp only [Option.bind_eq_some, Option.map_eq_some'] at h
  obtain ⟨handles, hh, frame, -, rfl⟩ := h
  exact updateHandles_visible t handles hh

theorem visible_of_map (handles base : List RectHandleItem) (v : Bool)
    (h : handles.map (fun x => x.visible) = base.map (fun _ => v)) :
    handles.length = base.length ∧ ∀ x ∈ handles, x.visible = v := by
  constructor
  · have := congrArg List.length h
    simpa using this
  · intro x hx
    have hmem : x.visible ∈ handles.map (fun x => x.visible) := List.mem_map_of_mem _ hx
    rw [h, List.mem_map] at hmem
    obtain ⟨_, -, e⟩ := hmem
    exact e.symm

/-- Counterexample to C24 as stated: the raster layer C is the only selected
layer and all handles are hidden; after `updateGraphicsItems` the eight
handles are visible, although the selected layer is not a shape layer. -/
theorem handles_visible_counterexample :
    rasterSelectedTool.d.selectedLayerInfos.map (fun info => info.original.kind) =
      [LayerKind.raster] ∧
    rasterSelectedTool.d.selectedLayerInfos.map (fun info => info.rectLayer) = [none] ∧
    (∀ x ∈ rasterSelectedTool.d.handles, x.visible = false) ∧
    ∃ t', updateGraphicsItems rasterSelectedTool = some t' ∧
      t'.d.handles.length = 8 ∧ ∀ x ∈ t'.d.handles, x.visible = true := by
  have hc : handlesComplete rasterSelectedTool.d.handles :=
    handlesComplete_types constructedHandles _ (map_visible_types false _).symm
      constructedHandles_complete
  obtain ⟨t', ht'⟩ := updateGraphicsItems_isSome rasterSelectedTool hc
    (fun h => absurd h (by decide))
  have hv := updateGraphicsItems_visible _ _ ht'
  have hone : rasterSelectedTool.d.selectedLayerInfos.length = 1 := rfl
  simp only [hone, decide_True] at hv
  obtain ⟨hlen, hvis⟩ := visible_of_map _ _ true hv
  refine ⟨rfl, rfl, ?_, t', ht', hlen.trans rfl, hvis⟩
  intro x hx
  simp only [rasterSelectedTool, List.mem_map] at hx
  obtain ⟨y, -, rfl⟩ := hx
  rfl

/-- C24, amended: whenever `updateGraphicsItems` returns, the tool has the
handles it had, and every handle is visible if exactly one layer is selected,
whatever its type, and hidden in every other case (no selection or several
layers).  The call returns when the handle set is complete and `layerToAdd`
is not null in mode `Inserting`. -/
theorem updateGraphicsItems_handles_visible (t : RectTool) :
    (∀ t', updateGraphicsItems t = some t' →
      t'.d.handles.length = t.d.handles.length ∧
      (t.d.selectedLayerInfos.length = 1 → ∀ x ∈ t'.d.handles, x.visible = true) ∧
      (t.d.selectedLayerInfos.length ≠ 1 → ∀ x ∈ t'.d.handles, x.visible = false)) ∧
    (handlesComplete t.d.handles →
      (t.d.mode = Mode.Inserting → t.d.layerToAdd.isSome = true) →
      ∃ t', updateGraphicsItems t = some t') := by
  refine ⟨?_, fun hc hm => updateGraphicsItems_isSome t hc hm⟩
  intro t' h
  have hv := updateGraphicsItems_visible _ _ h
  refine ⟨(visible_of_map _ _ _ hv).1, ?_, ?_⟩
  · intro hone
    simp only [hone, decide_True] at hv
    exact (visible_of_map _ _ true hv).2
  · intro hne
    simp only [hne, decide_False] at hv
    exact (visible_of_map _ _ false hv).2

/-- Witness of C24, amended: with the rect layer A selected the handles are
visible after `updateGraphicsItems`; with the layers A and B selected they are
hidden. -/
theorem updateGraphicsItems_handles_visible_witness :
    (∃ t', updateGraphicsItems (idleTool AddingType.NoAdding [rectLayerA] none) = some t' ∧
      ∀ x ∈ t'.d.handles, x.visible = true) ∧
    (∃ t', updateGraphicsItems (idleTool AddingType.NoAdding [rectLayerA, rectLayerB] none) =
        some t' ∧
      ∀ x ∈ t'.d.handles, x.visible = false) := by
  obtain ⟨p1, q1⟩ := updateGraphicsItems_handles_visible
    (idleTool AddingType.NoAdding [rectLayerA] none)
  obtain ⟨p2, q2⟩ := updateGraphicsItems_handles_visible
    (idleTool AddingType.NoAdding [rectLayerA, rectLayerB] none)
  obtain ⟨t1, r1⟩ := q1 constructedHandles_complete (fun h => absurd h (by decide))
  obtain ⟨t2, r2⟩ := q2 constructedHandles_complete (fun h => absurd h (by decide))
  exact ⟨⟨t1, r1, (p1 t1 r1).2.1 rfl⟩, ⟨t2, r2, (p2 t2 r2).2.2 (by decide)⟩⟩

/-! ## Rectangle tool: the handle set -/

theorem retyped_perm (leftRight topBottom : Bool) :
    (allHandleTypes.map (retyped leftRight topBottom)).Perm allHandleTypes := by
  cases leftRight <;> cases topBottom <;> decide

theorem handlesExact_mem (handles : List RectHandleItem) (h : handlesExact handles) :
    ∀ x ∈ handles, x.handleTypes ∈ allHandleTypes := by
  intro x hx
  exact (List.Perm.mem_iff h).mp (List.mem_map_of_mem _ hx)

theorem handlesExact_complete (handles : List RectHandleItem) (h : handlesExact handles) :
    handlesComplete handles := by
  intro types hty
  rw [findHandle_isSome_iff]
  exact (List.Perm.mem_iff h).mpr hty

theorem constructedHandles_exact : handlesExact constructedHandles := by
  unfold handlesExact
  decide

/-- A handle move keeps the handle set: it returns, and the handles carry the
eight handle types, each once, as before. -/
theorem onHandleMoved_exact (env : ToolEnv) (t : RectTool) (pos : Vec2D) (handleTypes : Nat)
    (h : handlesExact t.d.handles) :
    ∃ t', onHandleMoved env t pos handleTypes = some t' ∧ handlesExact t'.d.handles := by
  have hc := handlesExact_complete _ h
  have hv := handlesExact_mem _ h
  by_cases hlen : t.d.selectedLayerInfos.length ≠ 1
  · exact ⟨t, by unfold onHandleMoved; rw [if_pos hlen], h⟩
  · have hone : t.d.selectedLayerInfos.length = 1 := by simpa using hlen
    obtain ⟨info, hsel⟩ := List.length_eq_one.mp hone
    cases hr : info.rectLayer with
    | none =>
      refine ⟨t, ?_, h⟩
      unfold onHandleMoved
      rw [if_neg hlen]
      simp only [hsel, hr]
    | some rectLayer =>
      obtain ⟨t', hrun, -, -, -, -, hty⟩ :=
        onHandleMoved_eq env t pos handleTypes info rectLayer _ hsel hr hc rfl
      refine ⟨t', hrun, ?_⟩
      have hmap := hty hv
      have hre : t'.d.handles.map (fun x => x.handleTypes) =
          (t.d.handles.map (fun x => x.handleTypes)).map
            (retyped
              (decide ((movedEdges rectLayer.rect (t.transformToScene pos) handleTypes).2.2.1 <
                (movedEdges rectLayer.rect (t.transformToScene pos) handleTypes).1))
              (decide ((movedEdges rectLayer.rect (t.transformToScene pos) handleTypes).2.2.2 <
                (movedEdges rectLayer.rect (t.transformToScene pos) handleTypes).2.1))) := by
        rw [hmap, List.map_map]
        apply List.map_congr_left
        intro x _
        simp only [Function.comp, retyped, decide_eq_true_eq]
      unfold handlesExact
      rw [hre]
      exact (List.Perm.map _ h).trans (retyped_perm _ _)

theorem onHandleMoves_exact (env : ToolEnv) (moves : List (Vec2D × Nat)) :
    ∀ t : RectTool, handlesExact t.d.handles →
      ∃ t', onHandleMoves env t moves = some t' ∧ handlesExact t'.d.handles := by
  induction moves with
  | nil => intro t h; exact ⟨t, rfl, h⟩
  | cons move rest ih =>
    intro t h
    obtain ⟨t1, h1, e1⟩ := onHandleMoved_exact env t move.1 move.2 h
    obtain ⟨t2, h2, e2⟩ := ih t1 e1
    exact ⟨t2, by simp only [onHandleMoves, h1, Option.some_bind, h2], e2⟩

/-- C26: for every tool state whose handles carry the type masks the
constructor gave them (the other handlers change only position, visibility
and transparency of a handle) and every sequence of `onHandleMoved` calls (the
empty one included), every call returns and afterwards the tool owns exactly
8 handles whose type masks are the masks `Left`, `Right`, `Top`, `Bottom`,
`Left|Top`, `Left|Bottom`, `Right|Top`, `Right|Bottom`, each once; `findHandle`
finds a handle for each of them and the handle part of `updateGraphicsItems`
dereferences no null handle. -/
theorem handle_set_invariant (env : ToolEnv) (t : RectTool) (moves : List (Vec2D × Nat))
    (h0 : t.d.handles.map (fun x => x.handleTypes) =
      constructedHandles.map (fun x => x.handleTypes)) :
    ∃ t', onHandleMoves env t moves = some t' ∧
      t'.d.handles.length = 8 ∧
      (t'.d.handles.map (fun x => x.handleTypes)).Perm
        [Left, Right, Top, Bottom, Left ||| Top, Left ||| Bottom, Right ||| Top,
          Right ||| Bottom] ∧
      (∀ types ∈ allHandleTypes, (findHandle t'.d.handles types).isSome = true) ∧
      (updateHandles t').isSome = true := by
  obtain ⟨t', hrun, hex⟩ := onHandleMoves_exact env moves t
    (by unfold handlesExact; rw [h0]; exact constructedHandles_exact)
  have hc := handlesExact_complete _ hex
  refine ⟨t', hrun, ?_, hex, hc, updateHandles_isSome t' hc⟩
  have hl := List.Perm.length_eq hex
  rw [List.length_map] at hl
  exact hl.trans rfl

/-- Witness of C26: the `Right` handle of the selected rectangle (left 10,
right 50) is moved to x = 5, which inverts the handle types, and then the
`Left|Top` handle is moved to (60, 70). -/
theorem handle_set_invariant_witness :
    ∃ t', onHandleMoves sampleEnv (idleTool AddingType.NoAdding [rectLayerD] (some rectLayerD))
        [(⟨5, 35⟩, Right), (⟨60, 70⟩, Left ||| Top)] = some t' ∧
      t'.d.handles.length = 8 ∧
      (t'.d.handles.map (fun x => x.handleTypes)).Perm
        [Left, Right, Top, Bottom, Left ||| Top, Left ||| Bottom, Right ||| Top,
          Right ||| Bottom] ∧
      (updateHandles t').isSome = true := by
  obtain ⟨t', h1, h2, h3, -, h5⟩ :=
    handle_set_invariant sampleEnv (idleTool AddingType.NoAdding [rectLayerD] (some rectLayerD))
      [(⟨5, 35⟩, Right), (⟨60, 70⟩, Left ||| Top)] rfl
  exact ⟨t', h1, h2, h3, h5⟩

/-! ## Rectangle tool: the key set of a drag over several layers -/

/-- One axis of the inclusion of key sets: a narrower interval keeps fewer
tile columns. -/
theorem axis_subset (T : Int) (hT : 0 < T) (lo lo' hi hi' : ℚ) (h1 : lo' ≤ lo) (h2 : hi ≤ hi')
    (k : Int)
    (hk : ⌊((⌊lo - 4⌋ : Int) : ℚ) / T⌋ ≤ k ∧ k < ⌈((⌈hi + 4⌉ : Int) : ℚ) / T⌉) :
    ⌊((⌊lo' - 4⌋ : Int) : ℚ) / T⌋ ≤ k ∧ k < ⌈((⌈hi' + 4⌉ : Int) : ℚ) / T⌉ := by
  have hTq : (0 : ℚ) < T := by exact_mod_cast hT
  constructor
  · refine le_trans ?_ hk.1
    apply Int.floor_mono
    apply div_le_div_of_nonneg_right _ hTq.le
    exact_mod_cast Int.floor_mono (by linarith : lo' - 4 ≤ lo - 4)
  · refine lt_of_lt_of_le hk.2 ?_
    apply Int.ceil_mono
    apply div_le_div_of_nonneg_right _ hTq.le
    exact_mod_cast Int.ceil_mono (by linarith : hi + 4 ≤ hi' + 4)

/-- The key set of a rectangle that is not null is part of the key set of a
bounding rectangle that holds its points. -/
theorem rectKeys_subset (T : Int) (hT : 0 < T) (r whole : QRectF)
    (hn : 0 ≤ whole.w ∧ 0 ≤ whole.h) (hnull : r.isNull = false)
    (h : ∀ p, r.holds p → whole.holds p) :
    rectKeysWithHandleMargin T r ⊆ rectKeysWithHandleMargin T whole := by
  obtain ⟨n1, n2, n3, n4⟩ := QRectF.norm_of_nonneg whole hn.1 hn.2
  have hx := QRectF.normLeft_le_normRight r
  have hy := QRectF.normTop_le_normBottom r
  have c1 := h ⟨r.normLeft, r.normTop⟩ ⟨hnull, ⟨le_refl _, hx⟩, le_refl _, hy⟩
  have c2 := h ⟨r.normRight, r.normBottom⟩ ⟨hnull, ⟨hx, le_refl _⟩, hy, le_refl _⟩
  obtain ⟨-, ⟨a1, -⟩, a2, -⟩ := c1
  obtain ⟨-, ⟨-, b1⟩, -, b2⟩ := c2
  rw [n1] at a1
  rw [n3] at a2
  rw [n2] at b1
  rw [n4] at b2
  simp only at a1 a2 b1 b2
  have l1 : r.normLeft ≤ r.xp := by unfold QRectF.normLeft; split_ifs <;> linarith
  have l2 : r.xp + r.w ≤ r.normRight := by unfold QRectF.normRight; split_ifs <;> linarith
  have l3 : r.normTop ≤ r.yp := by unfold QRectF.normTop; split_ifs <;> linarith
  have l4 : r.yp + r.h ≤ r.normBottom := by unfold QRectF.normBottom; split_ifs <;> linarith
  intro k hk
  rw [mem_rectKeysWithHandleMargin] at hk ⊢
  exact ⟨axis_subset T hT r.xp whole.xp (r.xp + r.w) (whole.xp + whole.w) (by linarith)
      (by linarith) k.x hk.1,
    axis_subset T hT r.yp whole.yp (r.yp + r.h) (whole.yp + whole.h) (by linarith)
      (by linarith) k.y hk.2⟩

/-- A move in mode `Dragging` past the threshold returns; the key set it
emits is the key set of the bounding rectangle collected by the drag loop. -/
theorem tabletMoveEvent_dragging_keys (env : ToolEnv) (t : RectTool)
    (event : CanvasTabletEvent)
    (hmode : t.d.mode = Mode.Dragging) (hflag : t.d.dragDistanceEnough = true)
    (hc : handlesComplete t.d.handles) :
    ∃ t', tabletMoveEvent env t event = some t' ∧
      t'.requestUpdate =
        rectKeysWithHandleMargin env.tileWidth
          (dragInfos env (event.data.pos - t.d.dragStartPos) QRectF.null
            t.d.selectedLayerInfos).1 :: t.requestUpdate ∧
      t'.d.selectedLayerInfos =
        (dragInfos env (event.data.pos - t.d.dragStartPos) QRectF.null
          t.d.selectedLayerInfos).2 := by
  obtain ⟨t', ht', hinfos, hreq⟩ := updateGraphicsItems_some
    { t with
      d := { t.d with selectedLayerInfos :=
        (dragInfos env (event.data.pos - t.d.dragStartPos) QRectF.null
          t.d.selectedLayerInfos).2 }
      requestUpdate := rectKeysWithHandleMargin env.tileWidth
        (dragInfos env (event.data.pos - t.d.dragStartPos) QRectF.null
          t.d.selectedLayerInfos).1 :: t.requestUpdate }
    hc (by simp [hmode])
  simp only at hinfos hreq
  refine ⟨t', ?_, hreq, hinfos⟩
  simp only [hflag, hmode] at ht'
  simp only [tabletMoveEvent, hflag, hmode, if_true]
  exact ht'

/-- The bounding rectangle the drag loop collects when the layers A and E are
dragged by (1, 0). -/
theorem dragInfos_sample :
    (dragInfos sampleEnv ((moveTo ⟨6, 5⟩).data.pos -
        (draggedTool [rectLayerA, rectLayerE] ⟨5, 5⟩).d.dragStartPos) QRectF.null
      (draggedTool [rectLayerA, rectLayerE] ⟨5, 5⟩).d.selectedLayerInfos).1 =
      ⟨0, 0, 211, 210⟩ := by
  simp [dragInfos, dragInfo, draggedTool, pressedTool, idleTool, moveTo, LayerInfo.create,
    LayerInfo.setOriginalLayer, rectLayerA, rectLayerE, Layer.clone, QRectF.united,
    QRectF.isNull, QRectF.null, QRectF.moveTopLeft, QRectF.topLeft, vec2d_add_def,
    vec2d_sub_def]
  norm_num

/-- Counterexample to C25 as stated: the layers A, with the rectangle
(0, 0, 10, 10), and E, with the rectangle (200, 200, 10, 10), are dragged by
(1, 0) with the tile edge length 64.  The key set passed to `requestUpdate`
holds the tile (1, 1), which belongs to none of the key sets of the four layer
rectangles before and after the move. -/
theorem dragging_keys_counterexample :
    (draggedTool [rectLayerA, rectLayerE] ⟨5, 5⟩).d.selectedLayerInfos.map
      (fun info => info.workingRect) = [some ⟨0, 0, 10, 10⟩, some ⟨200, 200, 10, 10⟩] ∧
    ∃ t' keys,
      tabletMoveEvent sampleEnv (draggedTool [rectLayerA, rectLayerE] ⟨5, 5⟩) (moveTo ⟨6, 5⟩) =
        some t' ∧
      t'.requestUpdate = [keys] ∧
      t'.d.selectedLayerInfos.map (fun info => info.workingRect) =
        [some ⟨1, 0, 10, 10⟩, some ⟨201, 200, 10, 10⟩] ∧
      (⟨1, 1⟩ : QPoint) ∈ keys ∧
      (⟨1, 1⟩ : QPoint) ∉
        rectKeysWithHandleMargin 64 ⟨0, 0, 10, 10⟩ ∪ rectKeysWithHandleMargin 64 ⟨1, 0, 10, 10⟩ ∪
          rectKeysWithHandleMargin 64 ⟨200, 200, 10, 10⟩ ∪
          rectKeysWithHandleMargin 64 ⟨201, 200, 10, 10⟩ := by
  obtain ⟨t', hrun, hreq, hinfos⟩ := tabletMoveEvent_dragging_keys sampleEnv
    (draggedTool [rectLayerA, rectLayerE] ⟨5, 5⟩) (moveTo ⟨6, 5⟩) rfl rfl
    constructedHandles_complete
  rw [dragInfos_sample] at hreq
  refine ⟨?_, t', _, hrun, hreq, ?_, ?_, ?_⟩
  · simp [draggedTool, pressedTool, idleTool, LayerInfo.create, LayerInfo.setOriginalLayer,
      LayerInfo.workingRect, rectLayerA, rectLayerE, Layer.clone]
  · rw [hinfos]
    simp [dragInfos, dragInfo, draggedTool, pressedTool, idleTool, moveTo, LayerInfo.create,
      LayerInfo.setOriginalLayer, LayerInfo.workingRect, rectLayerA, rectLayerE, Layer.clone,
      AbstractRectLayer.setRect, QRectF.moveTopLeft, QRectF.topLeft, vec2d_add_def,
      vec2d_sub_def]
    norm_num
  · rw [mem_rectKeysWithHandleMargin]
    simp only [sampleEnv, Int.floor_le_iff, Int.lt_ceil]
    norm_num
  · simp only [Finset.mem_union, mem_rectKeysWithHandleMargin, not_or]
    norm_num
    have h : ⌈(7 : ℚ) / 32⌉ ≤ 1 := by
      rw [Int.ceil_le]
      norm_num
    exact ⟨h, fun _ => h⟩

/-- C25, amended: a move in mode `Dragging` after the threshold was crossed
(tile edge length positive, handle set complete) returns and passes one key
set to `requestUpdate`: the key set the tracker computes, in one call, for the
bounding rectangle of the rectangles of all affected layers before and after
the move.  That key set contains the key set the tracker computes for each of
these rectangles separately, provided the rectangle is not null (a null
rectangle is skipped by the bounding rectangle); it may contain further
tiles. -/
theorem tabletMoveEvent_dragging_union (env : ToolEnv) (hT : 0 < env.tileWidth)
    (t : RectTool) (event : CanvasTabletEvent)
    (hmode : t.d.mode = Mode.Dragging) (hflag : t.d.dragDistanceEnough = true)
    (hc : handlesComplete t.d.handles) :
    ∃ t' keys, tabletMoveEvent env t event = some t' ∧
      t'.requestUpdate = keys :: t.requestUpdate ∧
      keys = rectKeysWithHandleMargin env.tileWidth
        (dragInfos env (event.data.pos - t.d.dragStartPos) QRectF.null
          t.d.selectedLayerInfos).1 ∧
      ∀ (i : Nat) (before after : LayerInfo) (r : QRectF),
        t.d.selectedLayerInfos[i]? = some before →
        t'.d.selectedLayerInfos[i]? = some after →
        (before.workingRect = some r ∨ after.workingRect = some r) →
        r.isNull = false →
        rectKeysWithHandleMargin env.tileWidth r ⊆ keys := by
  obtain ⟨t', hrun, hreq, hinfos⟩ := tabletMoveEvent_dragging_keys env t event hmode hflag hc
  refine ⟨t', _, hrun, hreq, rfl, ?_⟩
  intro i before after r hb ha hr hnull
  rw [hinfos] at ha
  have hzero : 0 ≤ QRectF.null.w ∧ 0 ≤ QRectF.null.h := by simp [QRectF.null]
  apply rectKeys_subset env.tileWidth hT r _
    (dragInfos_nonneg env (event.data.pos - t.d.dragStartPos) t.d.selectedLayerInfos
      QRectF.null hzero) hnull
  intro p hp
  exact dragInfos_covers env (event.data.pos - t.d.dragStartPos) p t.d.selectedLayerInfos
    QRectF.null i before after r hb ha hr hp

/-- Witness of C25, amended: when the layers A and E are dragged by (1, 0),
the emitted key set contains the key set of the rectangle of E before the
move, with the tile (3, 3). -/
theorem tabletMoveEvent_dragging_union_witness :
    ∃ t' keys,
      tabletMoveEvent sampleEnv (draggedTool [rectLayerA, rectLayerE] ⟨5, 5⟩) (moveTo ⟨6, 5⟩) =
        some t' ∧
      t'.requestUpdate = [keys] ∧
      rectKeysWithHandleMargin 64 ⟨200, 200, 10, 10⟩ ⊆ keys ∧
      (⟨3, 3⟩ : QPoint) ∈ rectKeysWithHandleMargin 64 ⟨200, 200, 10, 10⟩ := by
  obtain ⟨t', keys, h1, h2, -, h4⟩ :=
    tabletMoveEvent_dragging_union sampleEnv (by decide)
      (draggedTool [rectLayerA, rectLayerE] ⟨5, 5⟩) (moveTo ⟨6, 5⟩) rfl rfl
      constructedHandles_complete
  obtain ⟨after, hafter⟩ : ∃ after, t'.d.selectedLayerInfos[1]? = some after := by
    obtain ⟨s, hs, hi, -⟩ := tabletMoveEvent_dragging_infos sampleEnv
      (draggedTool [rectLayerA, rectLayerE] ⟨5, 5⟩) (moveTo ⟨6, 5⟩) rfl rfl
      constructedHandles_complete
    rw [h1] at hs
    obtain rfl := Option.some.inj hs
    rw [hi]
    exact ⟨_, rfl⟩
  refine ⟨t', keys, h1, h2, ?_, ?_⟩
  · exact h4 1 (LayerInfo.create rectLayerE) after ⟨200, 200, 10, 10⟩ rfl hafter (Or.inl rfl)
      (by simp [QRectF.isNull])
  · rw [mem_rectKeysWithHandleMargin]
    simp only [Int.floor_le_iff, Int.lt_ceil]
    norm_num

/-! ## Rectangle tool: the provisional layer -/

/-- In mode `Inserting` with a null `layerToAdd`, `updateGraphicsItems` reads
the rectangle of the null layer. -/
theorem updateGraphicsItems_null (t : RectTool) (hmode : t.d.mode = Mode.Inserting)
    (hl : t.d.layerToAdd = none) : updateGraphicsItems t = none := by
  have hf : updateFrame t = none := by
    unfold updateFrame
    simp only [hmode, if_true, hl, Option.map_none']
  unfold updateGraphicsItems
  rw [hf]
  cases updateHandles t <;> rfl

/-- C28, at the failing input: a press on empty canvas with the idle
rectangle-adding tool enters `Inserting` and leaves `layerToAdd` null (it is
created only when the drag threshold is crossed); a change of the view
transform before that runs the slot `updateGraphicsItems`, which reads the
rectangle of the null `layerToAdd`. -/
theorem provisional_layer_null_read :
    tabletPressEvent (idleTool AddingType.AddRect [] none) (pressAt ⟨10, 10⟩) none none true =
      some (true, insertingTool ⟨10, 10⟩) ∧
    (insertingTool ⟨10, 10⟩).d.mode = Mode.Inserting ∧
    (insertingTool ⟨10, 10⟩).d.dragDistanceEnough = false ∧
    (insertingTool ⟨10, 10⟩).d.layerToAdd = none ∧
    updateGraphicsItems (insertingTool ⟨10, 10⟩) = none :=
  ⟨tabletPressEvent_sample ⟨10, 10⟩, rfl, rfl, rfl,
    updateGraphicsItems_null (insertingTool ⟨10, 10⟩) rfl rfl⟩

/-! ## Canvas navigator: mouse events -/

theorem tryBeginDragNavigation_fst (n : CanvasNavigator) (pos : QPoint) :
    (n.tryBeginDragNavigation pos).1 =
      (n.keyTracker n.d.scaleKeys || n.keyTracker n.d.rotationKeys ||
        n.keyTracker n.d.translationKeys) := by
  unfold CanvasNavigator.tryBeginDragNavigation
  split_ifs with h1 h2 h3
  · simp [h1]
  · simp [h1, h2]
  · simp [h1, h2, h3]
  · simp [h1, h2, h3]

theorem continueDragNavigation_fst (env : MathEnv) (n : CanvasNavigator) (pos : QPoint) :
    (n.continueDragNavigation env pos).1 = decide (n.d.navigationMode ≠ DragMode.NoNavigation) := by
  unfold CanvasNavigator.continueDragNavigation
  cases n.d.navigationMode <;> simp

theorem endDragNavigation_mode (n : CanvasNavigator) :
    n.endDragNavigation.d.navigationMode = DragMode.NoNavigation := rfl

/-- C29: `CanvasNavigator::mouseEvent` first ignores the event.  A press ends
accepted if and only if its button is the left button and one of the three
navigation chords matches; a press with another button leaves the navigator
unchanged.  A move ends accepted if and only if the navigation mode is not
`NoNavigation`.  A release ends not accepted and leaves the mode
`NoNavigation`.  An event of any other type ends not accepted and leaves the
navigator unchanged. -/
theorem navigator_mouseEvent_accepted (env : MathEnv) (n : CanvasNavigator)
    (event : QMouseEvent) :
    (event.type = QEventType.MouseButtonPress →
      ((n.mouseEvent env event).2.1.accepted = true ↔
        event.button = MouseButton.LeftButton ∧
          (n.keyTracker n.d.scaleKeys = true ∨ n.keyTracker n.d.rotationKeys = true ∨
            n.keyTracker n.d.translationKeys = true)) ∧
      (event.button ≠ MouseButton.LeftButton → (n.mouseEvent env event).1 = n)) ∧
    (event.type = QEventType.MouseMove →
      ((n.mouseEvent env event).2.1.accepted = true ↔
        n.d.navigationMode ≠ DragMode.NoNavigation)) ∧
    (event.type = QEventType.MouseButtonRelease →
      (n.mouseEvent env event).2.1.accepted = false ∧
      (n.mouseEvent env event).1.d.navigationMode = DragMode.NoNavigation) ∧
    (event.type ≠ QEventType.MouseButtonPress → event.type ≠ QEventType.MouseMove →
      event.type ≠ QEventType.MouseButtonRelease →
      (n.mouseEvent env event).2.1.accepted = false ∧ (n.mouseEvent env event).1 = n) := by
  refine ⟨?_, ?_, ?_, ?_⟩
  · intro ht
    unfold CanvasNavigator.mouseEvent
    simp only [ht]
    by_cases hb : event.button = MouseButton.LeftButton
    · simp only [hb, if_true, ne_eq, not_true_eq_false, false_implies, and_true, true_and]
      have hf := tryBeginDragNavigation_fst n event.pos
      by_cases hr : (n.tryBeginDragNavigation event.pos).1 = true
      · rw [if_pos hr]
        rw [hr] at hf
        simp only [true_iff]
        simpa [Bool.or_eq_true, or_assoc] using hf.symm
      · rw [if_neg hr]
        have hr' : (n.tryBeginDragNavigation event.pos).1 = false := by simpa using hr
        rw [hr'] at hf
        simp only [Bool.false_eq_true, false_iff]
        intro hany
        have : (n.keyTracker n.d.scaleKeys || n.keyTracker n.d.rotationKeys ||
            n.keyTracker n.d.translationKeys) = true := by
          simpa [Bool.or_eq_true, or_assoc] using hany
        rw [← hf] at this
        exact absurd this (by decide)
    · simp only [hb, if_false, false_and, Bool.false_eq_true, ne_eq, not_false_eq_true,
        forall_true_left, and_self]
  · intro ht
    unfold CanvasNavigator.mouseEvent
    simp only [ht]
    have hf := continueDragNavigation_fst env n event.pos
    by_cases hr : (n.continueDragNavigation env event.pos).1 = true
    · rw [if_pos hr]
      rw [hr] at hf
      simp only [true_iff]
      simpa using hf.symm
    · rw [if_neg hr]
      have hr' : (n.continueDragNavigation env event.pos).1 = false := by simpa using hr
      rw [hr'] at hf
      simp only [Bool.false_eq_true, false_iff]
      simpa using hf.symm
  · intro ht
    unfold CanvasNavigator.mouseEvent
    simp only [ht]
    exact ⟨trivial, rfl⟩
  · intro h1 h2 h3
    unfold CanvasNavigator.mouseEvent
    cases ht : event.type <;> rw [ht] at h1 h2 h3 <;>
      simp only [ne_eq, not_true_eq_false] at h1 h2 h3 <;> exact ⟨rfl, rfl⟩

/-- Witness of C29: with the translation chord held, a press with the left
button is accepted; a press with the right button is not accepted and leaves
the navigator unchanged. -/
theorem navigator_mouseEvent_accepted_witness :
    ((restingNavigator ⟨0, 0⟩ ⟨400, 300⟩ (holding [⟨"Space"⟩])).mouseEvent sampleMath
      (mouseWith QEventType.MouseButtonPress MouseButton.LeftButton 10 10)).2.1.accepted =
      true ∧
    ((restingNavigator ⟨0, 0⟩ ⟨400, 300⟩ (holding [⟨"Space"⟩])).mouseEvent sampleMath
      (mouseWith QEventType.MouseButtonPress MouseButton.RightButton 10 10)).2.1.accepted ≠
      true ∧
    ((restingNavigator ⟨0, 0⟩ ⟨400, 300⟩ (holding [⟨"Space"⟩])).mouseEvent sampleMath
      (mouseWith QEventType.MouseButtonPress MouseButton.RightButton 10 10)).1 =
      restingNavigator ⟨0, 0⟩ ⟨400, 300⟩ (holding [⟨"Space"⟩]) := by
  refine ⟨?_, ?_, ?_⟩
  · exact ((navigator_mouseEvent_accepted sampleMath
      (restingNavigator ⟨0, 0⟩ ⟨400, 300⟩ (holding [⟨"Space"⟩]))
      (mouseWith QEventType.MouseButtonPress MouseButton.LeftButton 10 10)).1 rfl).1.mpr
      ⟨rfl, Or.inr (Or.inr (by decide))⟩
  · intro h
    have := ((navigator_mouseEvent_accepted sampleMath
      (restingNavigator ⟨0, 0⟩ ⟨400, 300⟩ (holding [⟨"Space"⟩]))
      (mouseWith QEventType.MouseButtonPress MouseButton.RightButton 10 10)).1 rfl).1.mp h
    exact absurd this.1 (by decide)
  · exact ((navigator_mouseEvent_accepted sampleMath
      (restingNavigator ⟨0, 0⟩ ⟨400, 300⟩ (holding [⟨"Space"⟩]))
      (mouseWith QEventType.MouseButtonPress MouseButton.RightButton 10 10)).1 rfl).2
      (by decide)

/-! ## Canvas controller: closing -/

/-- C30: `closeCanvas` returns true and emits `shouldBeDeleted` (once) exactly
when the document is unmodified, or the user answers Discard, or the user
answers Save and `saveCanvas` returns true; in every other case (Cancel, any
other answer, or Save with a failed save) it returns false and emits nothing:
a modified document is not closed after a failed save. -/
theorem closeCanvas_result (env : ControllerEnv) :
    (CanvasController.closeCanvas env = (true, [ControllerSignal.shouldBeDeleted]) ↔
      (env.isModified = false ∨ env.answer = StandardButton.Discard ∨
        (env.answer = StandardButton.Save ∧ CanvasController.saveCanvas env = true))) ∧
    (¬ (env.isModified = false ∨ env.answer = StandardButton.Discard ∨
        (env.answer = StandardButton.Save ∧ CanvasController.saveCanvas env = true)) →
      CanvasController.closeCanvas env = (false, [])) ∧
    (env.isModified = true → env.answer = StandardButton.Save →
      CanvasController.saveCanvas env = false →
      CanvasController.closeCanvas env = (false, [])) := by
  unfold CanvasController.closeCanvas
  cases hm : env.isModified <;> cases ha : env.answer <;>
    cases hs : CanvasController.saveCanvas env <;> simp

/-- Witness of C30: a modified document, the answer Save and a failing save:
`closeCanvas` returns false and emits nothing. -/
theorem closeCanvas_result_witness :
    CanvasController.saveCanvas failedSave = false ∧
    CanvasController.closeCanvas failedSave = (false, []) :=
  ⟨rfl, (closeCanvas_result failedSave).2.2 rfl rfl rfl⟩

/-! ## Rectangle tool: gestures below the threshold, both routes -/

/-- The sample tool with the layer D selected is what `updateSelected` makes of
the idle tool. -/
theorem updateSelected_sample :
    updateSelected (idleTool AddingType.NoAdding [rectLayerD] (some rectLayerD)) =
      some selectedTool := by
  simp [updateSelected, updateGraphicsItems, updateHandles, updateFrame, idleTool, selectedTool,
    constructedHandles, addHandle, setHandlePos, findHandle, LayerInfo.create,
    LayerInfo.setOriginalLayer, rectLayerD, Layer.clone, midpoint, Left, Right, Top, Bottom,
    QRectF.topLeft, QRectF.topRight, QRectF.bottomLeft, QRectF.bottomRight,
    LayerInfo.workingRect, QRectF.united, QRectF.null, QRectF.isNull, QRectF.isValid, rectPath]
  norm_num

theorem selectedTool_complete : handlesComplete selectedTool.d.handles :=
  handlesComplete_types constructedHandles selectedTool.d.handles (by decide)
    constructedHandles_complete

/-- When no handle lies under the cursor, the moves and the release of a
gesture go to the tool. -/
theorem pointerGesture_tool (env : ToolEnv) (t : RectTool) (press : CanvasTabletEvent)
    (item : Option SceneItem) (hit : Option Layer) (moves : List CanvasTabletEvent)
    (release : CanvasTabletEvent) (hitem : ∀ index, item ≠ some (SceneItem.handle index)) :
    pointerGesture env t press item hit moves release =
      gesture env t press item hit moves release := by
  unfold pointerGesture gesture
  cases tabletPressEvent t press item hit true with
  | none => rfl
  | some pressed =>
    simp only [Option.some_bind]
    split
    · next index _ => exact absurd rfl (hitem index)
    · rfl

/-- A press on a handle of the idle tool is ignored by the tool, and the
gesture is the handle's: its moves, then `onHandleMoveFinished`. -/
theorem pointerGesture_handle (env : ToolEnv) (t : RectTool) (press : CanvasTabletEvent)
    (index : Nat) (hit : Option Layer) (moves : List CanvasTabletEvent)
    (release : CanvasTabletEvent) (handle : RectHandleItem)
    (hmode : t.d.mode = Mode.NoOperation) (hh : t.d.handles[index]? = some handle) :
    pointerGesture env t press (some (SceneItem.handle index)) hit moves release =
      (handleMouseMoves env t index (handle.mousePressEvent press.viewPos)
        (moves.map fun m => m.viewPos)).bind onHandleMoveFinished := by
  simp [pointerGesture, tabletPressEvent, hmode, hh, RectHandleItem.mouseReleaseEvent]

/-- With a complete handle set `onHandleMoveFinished` returns: the mode is
`NoOperation` and the edits of `commit` are submitted, one for each working
copy that has one. -/
theorem onHandleMoveFinished_eq (t : RectTool) (hc : handlesComplete t.d.handles) :
    ∃ t', onHandleMoveFinished t = some t' ∧
      t'.d.selectedLayerInfos = t.d.selectedLayerInfos ∧ t'.d.mode = Mode.NoOperation ∧
      t'.layerInsertions = t.layerInsertions ∧
      t'.layerScene = { t.layerScene with
        edits := t.layerScene.edits ++ t.d.selectedLayerInfos.filterMap commitEdit } := by
  obtain ⟨t1, h1⟩ := updateGraphicsItems_isSome
    { t with d := { t.d with mode := Mode.NoOperation } } hc (by intro h; cases h)
  obtain ⟨handles, frame, e, -⟩ := updateGraphicsItems_eq _ _ h1
  refine ⟨commit t1, ?_, ?_, ?_, ?_, ?_⟩
  · unfold onHandleMoveFinished
    rw [h1]
    rfl
  · rw [commit_eq, e]
  · rw [commit_eq, e]
  · rw [commit_eq, e]
  · rw [commit_eq, e]

/-- A click on the `Left` handle of the sample tool (press, release, no move):
the release of the handle runs `commit`, which submits `setLayerProperty` for
the selected layer. -/
theorem handle_click_sample (hit : Option Layer) (release : CanvasTabletEvent) :
    ∃ t', pointerGesture sampleEnv selectedTool (pressAt ⟨10, 35⟩) (some (SceneItem.handle 6))
        hit [] release = some t' ∧
      t'.d.mode = Mode.NoOperation ∧
      t'.layerScene.edits =
        [SceneEdit.setLayerProperty rectLayerD ⟨10, 20, 40, 30⟩ "Change Rect"] := by
  have hh : selectedTool.d.handles[6]? = some ⟨Left, ⟨10, 35⟩, true, 0, false⟩ := rfl
  obtain ⟨t', h1, -, hm, -, hs⟩ := onHandleMoveFinished_eq selectedTool selectedTool_complete
  refine ⟨t', ?_, hm, ?_⟩
  · rw [pointerGesture_handle sampleEnv selectedTool _ 6 hit _ release _ rfl hh]
    simp only [List.map_nil, handleMouseMoves, Option.some_bind]
    exact h1
  · rw [hs]
    simp [selectedTool, idleTool, commitEdit, LayerInfo.create, LayerInfo.setOriginalLayer,
      rectLayerD, Layer.clone]

/-- A drag of the `Left` handle of the sample tool: press on the handle, one
move of the pointer to (x, 35) with x at most 50, release.  The working
rectangle gets its left edge at x, and the release submits `setLayerProperty`
with that rectangle. -/
theorem handle_drag_sample (x : ℚ) (hx : x ≤ 50) (hit : Option Layer)
    (release : CanvasTabletEvent) :
    ∃ t', pointerGesture sampleEnv selectedTool (pressAt ⟨10, 35⟩) (some (SceneItem.handle 6))
        hit [moveTo ⟨x, 35⟩] release = some t' ∧
      t'.d.mode = Mode.NoOperation ∧
      t'.d.selectedLayerInfos.map LayerInfo.workingRect = [some ⟨x, 20, 50 - x, 30⟩] ∧
      t'.layerScene.edits =
        [SceneEdit.setLayerProperty rectLayerD ⟨x, 20, 50 - x, 30⟩ "Change Rect"] := by
  have hh : selectedTool.d.handles[6]? = some ⟨Left, ⟨10, 35⟩, true, 0, false⟩ := rfl
  have hpos : (RectHandleItem.mousePressEvent ⟨Left, ⟨10, 35⟩, true, 0, false⟩
      (pressAt ⟨10, 35⟩).viewPos).originalPos + ((moveTo ⟨x, 35⟩).viewPos -
      (RectHandleItem.mousePressEvent ⟨Left, ⟨10, 35⟩, true, 0, false⟩
        (pressAt ⟨10, 35⟩).viewPos).dragStartPos) = ⟨x, 35⟩ := by
    simp [RectHandleItem.mousePressEvent, pressAt, moveTo, vec2d_add_def, vec2d_sub_def]
  have he : (x, (20 : ℚ), (50 : ℚ), (50 : ℚ)) =
      movedEdges rectLayerD.clone.rect (selectedTool.transformToScene ⟨x, 35⟩) Left := by
    have h1 : Left &&& Left ≠ 0 := by decide
    have h2 : Left &&& Top = 0 := by decide
    have h3 : Left &&& Right = 0 := by decide
    have h4 : Left &&& Bottom = 0 := by decide
    simp only [movedEdges, h1, h2, h3, h4, ne_eq, not_true_eq_false, not_false_eq_true,
      if_true, if_false, rectLayerD, Layer.clone, QRectF.right, QRectF.top, QRectF.bottom,
      selectedTool, idleTool]
    norm_num
  obtain ⟨t1, r1, i1, -, s1, c1, -⟩ :=
    onHandleMoved_eq sampleEnv selectedTool ⟨x, 35⟩ Left (LayerInfo.create rectLayerD)
      rectLayerD.clone (x, 20, 50, 50) rfl rfl selectedTool_complete he
  obtain ⟨t', r2, i2, hm, -, s2⟩ := onHandleMoveFinished_eq t1 c1
  have hmin : min x 50 = x := min_eq_left hx
  have hmax : max x 50 = 50 := max_eq_right hx
  refine ⟨t', ?_, hm, ?_, ?_⟩
  · rw [pointerGesture_handle sampleEnv selectedTool _ 6 hit _ release _ rfl hh]
    simp only [List.map_cons, List.map_nil, handleMouseMoves, RectHandleItem.mouseMoveEvent, hh,
      hpos, r1, Option.some_bind]
    exact r2
  · rw [i2, i1]
    simp only [List.map_cons, List.map_nil, LayerInfo.workingRect, AbstractRectLayer.setRect,
      hmin, hmax]
    norm_num
  · rw [s2, i1, s1]
    simp only [List.filterMap_cons, List.filterMap_nil, commitEdit, AbstractRectLayer.setRect,
      hmin, hmax, create_original]
    simp [selectedTool, idleTool]
    norm_num

/-- What `setSelection` leaves as the selection: the given layers; when that
is the selection it had, nothing changes, otherwise the working copies are
fresh copies of the selected layers. -/
theorem setSelection_selection (t ts : RectTool) (layers : List (Option Layer))
    (h : setSelection t layers = some ts) :
    ts.layerScene.selection = layers.reduceOption ∧
    (ts.layerScene.selection = t.layerScene.selection → ts = t) ∧
    (ts.layerScene.selection ≠ t.layerScene.selection →
      ts.d.selectedLayerInfos = ts.layerScene.selection.map LayerInfo.create) := by
  unfold setSelection at h
  split_ifs at h with hsame
  · obtain rfl := Option.some.inj h
    exact ⟨hsame.symm, fun _ => rfl, fun hne => absurd rfl hne⟩
  · obtain ⟨handles, frame, rfl, -⟩ := updateSelected_eq _ _ h
    exact ⟨rfl, fun heq => absurd heq hsame, fun _ => rfl⟩

/-- The selection after the selection update of a press. -/
theorem pressSelect_selection (t ts : RectTool) (event : CanvasTabletEvent)
    (hit : Option Layer) (h : pressSelect t event hit = some ts) :
    ts.layerScene.selection =
      (if hit ∈ t.layerScene.selection.map some then t.layerScene.selection
      else if event.modifiers &&& ShiftModifier ≠ 0 then
        (t.layerScene.selection.map some ++ [hit]).reduceOption
      else [hit].reduceOption) ∧
    (ts.layerScene.selection = t.layerScene.selection → ts = t) ∧
    (ts.layerScene.selection ≠ t.layerScene.selection →
      ts.d.selectedLayerInfos = ts.layerScene.selection.map LayerInfo.create) := by
  unfold pressSelect at h
  split_ifs at h with h1 h2
  · obtain rfl := Option.some.inj h
    rw [if_pos h1]
    exact ⟨rfl, fun _ => rfl, fun hne => absurd rfl hne⟩
  · rw [if_neg h1, if_pos h2]
    exact setSelection_selection _ _ _ h
  · rw [if_neg h1, if_neg h2]
    exact setSelection_selection _ _ _ h

/-- The working copies after a gesture below the threshold on the route of the
tool: untouched when the selection is the one from before the press, fresh
copies of the selected layers when it is another one. -/
theorem gesture_calm_copies (env : ToolEnv) (t : RectTool) (press : CanvasTabletEvent)
    (item : Option SceneItem) (hit : Option Layer) (moves : List CanvasTabletEvent)
    (release : CanvasTabletEvent)
    (hmode : t.d.mode = Mode.NoOperation) (hc : handlesComplete t.d.handles)
    (hmoves : ∀ m ∈ moves, distanceFrom press m < env.startDragDistance) (t' : RectTool)
    (h : gesture env t press item hit moves release = some t') :
    (t'.layerScene.selection = t.layerScene.selection →
      t'.d.selectedLayerInfos = t.d.selectedLayerInfos) ∧
    (t'.layerScene.selection ≠ t.layerScene.selection →
      t'.d.selectedLayerInfos = t'.layerScene.selection.map LayerInfo.create) ∧
    (item = none ∨ item = some SceneItem.frame →
      t'.layerScene.selection =
        if hit ∈ t.layerScene.selection.map some then t.layerScene.selection
        else if press.modifiers &&& ShiftModifier ≠ 0 then
          (t.layerScene.selection.map some ++ [hit]).reduceOption
        else [hit].reduceOption) := by
  obtain ⟨b, t1, h1, i1, ty1, -⟩ := tabletPressEvent_calm t press item hit true hmode hc
  obtain ⟨t2, h2, k2, i2⟩ := tabletMoveEvents_calm env press moves t1 i1 hmoves
  have hc2 : handlesComplete t2.d.handles :=
    handlesComplete_types t.d.handles t2.d.handles (by rw [k2.2.2.2, ty1]) hc
  obtain ⟨t3, h3, k3, -⟩ := tabletReleaseEvent_calm t2 release press.data.pos i2 hc2
  simp only [gesture, h1, Option.some_bind, h2, h3] at h
  obtain rfl := Option.some.inj h
  obtain ⟨kinfos, kscene, -, -⟩ := keeps_trans t1 t2 t3 k2 k3
  rw [kinfos, kscene]
  by_cases hitem : item.isSome = true ∧ item ≠ some SceneItem.frame
  · have hrun : tabletPressEvent t press item hit true = some (false, t) := by
      unfold tabletPressEvent
      simp only [hmode, ne_eq, not_true_eq_false, if_false, if_pos hitem]
    rw [hrun] at h1
    obtain ⟨-, rfl⟩ := Prod.mk.inj (Option.some.inj h1)
    refine ⟨fun _ => rfl, fun hne => absurd rfl hne, ?_⟩
    intro hor
    rcases hor with e | e
    · rw [e] at hitem
      simp at hitem
    · exact absurd e hitem.2
  · obtain ⟨ts, hs⟩ := pressSelect_isSome t press hit hc (by simp [hmode])
    have hrun : tabletPressEvent t press item hit true =
        some (true, pressMode (setCurrent ts hit) press hit) := by
      unfold tabletPressEvent
      simp only [hmode, ne_eq, not_true_eq_false, if_false, if_neg hitem, hs, Option.map_some']
    rw [hrun] at h1
    obtain ⟨-, rfl⟩ := Prod.mk.inj (Option.some.inj h1)
    obtain ⟨p1, p2, -⟩ := pressMode_cases (setCurrent ts hit) press hit
      ((pressSelect_eq t ts press hit hs).elim (fun e => by rw [e]; exact hmode)
        (fun ⟨_, _, _, e, _⟩ => by rw [e]; exact hmode))
    obtain ⟨s1, s2, s3⟩ := pressSelect_selection t ts press hit hs
    have hsel : (pressMode (setCurrent ts hit) press hit).layerScene.selection =
        ts.layerScene.selection := by
      rw [p2]
      rfl
    have hinfos : (pressMode (setCurrent ts hit) press hit).d.selectedLayerInfos =
        ts.d.selectedLayerInfos := by
      rw [p1]
      rfl
    rw [hsel, hinfos]
    refine ⟨fun heq => ?_, s3, fun _ => s1⟩
    rw [s2 heq]

/-- Counterexample to C13 as stated.  The rectangle layer D (10, 20, 40, 30) is
the selection and the tool is idle, as `updateSelected` leaves it; the `Left`
handle lies at (10, 35) and no edit has been submitted.  A click on that
handle (press, release, no move) submits a `setLayerProperty` edit.  With one
move to (12, 35), at distance 2 with the threshold 10, the release submits
`setLayerProperty` with the rectangle (12, 20, 38, 30), and the working
rectangle of the layer is (12, 20, 38, 30) instead of (10, 20, 40, 30). -/
theorem handle_gesture_counterexample :
    updateSelected (idleTool AddingType.NoAdding [rectLayerD] (some rectLayerD)) =
      some selectedTool ∧
    selectedTool.d.mode = Mode.NoOperation ∧
    selectedTool.layerScene.edits = [] ∧
    selectedTool.d.selectedLayerInfos.map LayerInfo.workingRect = [some ⟨10, 20, 40, 30⟩] ∧
    selectedTool.d.handles[6]? = some ⟨Left, ⟨10, 35⟩, true, 0, false⟩ ∧
    (∃ t', pointerGesture sampleEnv selectedTool (pressAt ⟨10, 35⟩) (some (SceneItem.handle 6))
        (some rectLayerD) [] (releaseAt ⟨10, 35⟩) = some t' ∧
      t'.layerScene.edits =
        [SceneEdit.setLayerProperty rectLayerD ⟨10, 20, 40, 30⟩ "Change Rect"]) ∧
    distanceFrom (pressAt ⟨10, 35⟩) (moveTo ⟨12, 35⟩) < (sampleEnv.startDragDistance : ℚ) ∧
    ∃ t', pointerGesture sampleEnv selectedTool (pressAt ⟨10, 35⟩) (some (SceneItem.handle 6))
        (some rectLayerD) [moveTo ⟨12, 35⟩] (releaseAt ⟨12, 35⟩) = some t' ∧
      t'.layerScene.edits =
        [SceneEdit.setLayerProperty rectLayerD ⟨12, 20, 38, 30⟩ "Change Rect"] ∧
      t'.d.selectedLayerInfos.map LayerInfo.workingRect = [some ⟨12, 20, 38, 30⟩] := by
  refine ⟨updateSelected_sample, rfl, rfl, rfl, rfl, ?_, ?_, ?_⟩
  · obtain ⟨t', h1, -, h2⟩ := handle_click_sample (some rectLayerD) (releaseAt ⟨10, 35⟩)
    exact ⟨t', h1, h2⟩
  · simp only [distanceFrom, pressAt, moveTo, vec2d_sub_def, sampleEnv]
    norm_num
  · obtain ⟨t', h1, -, h2, h3⟩ :=
      handle_drag_sample 12 (by norm_num) (some rectLayerD) (releaseAt ⟨12, 35⟩)
    refine ⟨t', h1, ?_, ?_⟩
    · rw [h3]; norm_num
    · rw [h2]; norm_num

/-- C13, amended: a gesture (press, moves, release) that starts in mode
`NoOperation`, whose press does not land on a resize handle and whose moves
all stay below the drag threshold returns and makes no geometry commit: no
edit (`setLayerProperty`, `editLayer`, `addLayers`) is submitted to the layer
scene and no layer insertion is registered, and the tool ends in mode
`NoOperation`.  When the selection after the release is the one from before
the press, every working copy is untouched; when the press changed the
selection, `updateSelected` has rebuilt the working copies as fresh copies of
the layers selected now.  So when every working copy was the fresh copy of its
layer before the press, every layer selected before and after has the same
working rectangle and raster offset after the release as before the press. -/
theorem pointerGesture_no_commit (env : ToolEnv) (t : RectTool)
    (press : CanvasTabletEvent) (item : Option SceneItem) (hit : Option Layer)
    (moves : List CanvasTabletEvent) (release : CanvasTabletEvent)
    (hmode : t.d.mode = Mode.NoOperation) (hc : handlesComplete t.d.handles)
    (hitem : ∀ index, item ≠ some (SceneItem.handle index))
    (hmoves : ∀ m ∈ moves, distanceFrom press m < env.startDragDistance) :
    ∃ t', pointerGesture env t press item hit moves release = some t' ∧
      t'.layerScene.edits = t.layerScene.edits ∧
      t'.layerInsertions = t.layerInsertions ∧
      t'.d.mode = Mode.NoOperation ∧
      (t'.layerScene.selection = t.layerScene.selection →
        t'.d.selectedLayerInfos = t.d.selectedLayerInfos) ∧
      (t'.layerScene.selection ≠ t.layerScene.selection →
        t'.d.selectedLayerInfos = t'.layerScene.selection.map LayerInfo.create) ∧
      ((∀ info ∈ t.d.selectedLayerInfos, info = LayerInfo.create info.original) →
        ∀ before ∈ t.d.selectedLayerInfos, ∀ after ∈ t'.d.selectedLayerInfos,
          after.original = before.original →
          after.workingRect = before.workingRect ∧ after.rasterOffset = before.rasterOffset) := by
  obtain ⟨t', hrun, hm, hins, hed, -, -, -, -, -⟩ :=
    gesture_calm env t press item hit moves release hmode hc hmoves
  obtain ⟨hsame, hnew, -⟩ :=
    gesture_calm_copies env t press item hit moves release hmode hc hmoves t' hrun
  refine ⟨t', ?_, hed, hins, hm, hsame, hnew, ?_⟩
  · rw [pointerGesture_tool env t press item hit moves release hitem]
    exact hrun
  · intro hsync before hb after ha horig
    have hafter : after = LayerInfo.create after.original := by
      by_cases hsel : t'.layerScene.selection = t.layerScene.selection
      · rw [hsame hsel] at ha
        exact hsync after ha
      · rw [hnew hsel, List.mem_map] at ha
        obtain ⟨layer, -, rfl⟩ := ha
        rw [create_original]
    have hbefore := hsync before hb
    have : after = before := by
      rw [hafter, hbefore, horig]
    rw [this]
    exact ⟨rfl, rfl⟩

/-- Witness of C13, amended: the layer A (0, 0, 10, 10) is selected; a press
with Shift held on the layer B at (205, 5), moves to (206, 5) and (207, 6) with
the threshold 10, and a release.  The selection becomes A and B and the working
copies are rebuilt; no edit, no insertion, mode `NoOperation`, and the layer A
has the working rectangle (0, 0, 10, 10) and the raster offset (0, 0) it had
before the press. -/
theorem pointerGesture_no_commit_witness :
    (idleTool AddingType.NoAdding [rectLayerA] (some rectLayerA)).d.selectedLayerInfos.map
      (fun info => (info.original, info.workingRect, info.rasterOffset)) =
      [(rectLayerA, some ⟨0, 0, 10, 10⟩, ⟨0, 0⟩)] ∧
    ∃ t', pointerGesture sampleEnv (idleTool AddingType.NoAdding [rectLayerA] (some rectLayerA))
        (shiftPressAt ⟨205, 5⟩) none (some rectLayerB) [moveTo ⟨206, 5⟩, moveTo ⟨207, 6⟩]
        (releaseAt ⟨207, 6⟩) = some t' ∧
      t'.layerScene.selection = [rectLayerA, rectLayerB] ∧
      t'.d.selectedLayerInfos = [LayerInfo.create rectLayerA, LayerInfo.create rectLayerB] ∧
      t'.layerScene.edits = [] ∧ t'.layerInsertions = [] ∧ t'.d.mode = Mode.NoOperation ∧
      ∀ after ∈ t'.d.selectedLayerInfos, after.original = rectLayerA →
        after.workingRect = some ⟨0, 0, 10, 10⟩ ∧ after.rasterOffset = ⟨0, 0⟩ := by
  have hmoves : ∀ m ∈ [moveTo ⟨206, 5⟩, moveTo ⟨207, 6⟩],
      distanceFrom (shiftPressAt ⟨205, 5⟩) m < (sampleEnv.startDragDistance : ℚ) := by
    intro m hm
    simp only [List.mem_cons, List.mem_singleton, List.not_mem_nil, or_false] at hm
    rcases hm with rfl | rfl
    · simp only [distanceFrom, shiftPressAt, pressAt, moveTo, vec2d_sub_def, sampleEnv]
      norm_num
    · simp only [distanceFrom, shiftPressAt, pressAt, moveTo, vec2d_sub_def, sampleEnv]
      norm_num [abs_of_nonneg]
  have hitem : ∀ index, (none : Option SceneItem) ≠ some (SceneItem.handle index) := by
    intro index h
    cases h
  obtain ⟨t', h1, h2, h3, h4, -, h5, h6⟩ :=
    pointerGesture_no_commit sampleEnv
      (idleTool AddingType.NoAdding [rectLayerA] (some rectLayerA))
      (shiftPressAt ⟨205, 5⟩) none (some rectLayerB) [moveTo ⟨206, 5⟩, moveTo ⟨207, 6⟩]
      (releaseAt ⟨207, 6⟩) rfl constructedHandles_complete hitem hmoves
  have hrun := h1
  rw [pointerGesture_tool _ _ _ _ _ _ _ hitem] at hrun
  obtain ⟨-, -, s1⟩ := gesture_calm_copies sampleEnv
    (idleTool AddingType.NoAdding [rectLayerA] (some rectLayerA))
    (shiftPressAt ⟨205, 5⟩) none (some rectLayerB) [moveTo ⟨206, 5⟩, moveTo ⟨207, 6⟩]
    (releaseAt ⟨207, 6⟩) rfl constructedHandles_complete hmoves t' hrun
  have hsel : t'.layerScene.selection = [rectLayerA, rectLayerB] := by
    rw [s1 (Or.inl rfl)]
    decide
  have hsync : ∀ info ∈ (idleTool AddingType.NoAdding [rectLayerA]
      (some rectLayerA)).d.selectedLayerInfos, info = LayerInfo.create info.original := by
    intro info hi
    simp only [idleTool, List.map_cons, List.map_nil, List.mem_singleton] at hi
    rw [hi, create_original]
  refine ⟨rfl, t', h1, hsel, ?_, h2, h3, h4, ?_⟩
  · rw [h5 (by rw [hsel]; decide), hsel]
    rfl
  · intro after ha horig
    have := h6 hsync (LayerInfo.create rectLayerA) (by simp [idleTool]) after ha
      (by rw [horig, create_original])
    rw [this.1, this.2]
    exact ⟨rfl, rfl⟩

/-- Counterexample to C14 as stated.  First, with the layer B current, a click
(press and release, no move) on the layer A leaves the layer A current.
Second, with the rectangle layer D (10, 20, 40, 30) selected and no edit
submitted, a press on the `Left` handle, one move to (11, 35), at distance 1
with the threshold 10, and a release submit `setLayerProperty` for the layer D
with the rectangle (11, 20, 39, 30). -/
theorem pointerGesture_scene_counterexample :
    ((idleTool AddingType.NoAdding [] (some rectLayerB)).layerScene.current = some rectLayerB ∧
      rectLayerA ≠ rectLayerB ∧
      ∃ t', pointerGesture sampleEnv (idleTool AddingType.NoAdding [] (some rectLayerB))
          (pressAt ⟨5, 5⟩) none (some rectLayerA) [] (releaseAt ⟨5, 5⟩) = some t' ∧
        t'.layerScene.current = some rectLayerA) ∧
    (selectedTool.d.mode = Mode.NoOperation ∧ selectedTool.layerScene.edits = [] ∧
      rectLayerD.rect = ⟨10, 20, 40, 30⟩ ∧
      distanceFrom (pressAt ⟨10, 35⟩) (moveTo ⟨11, 35⟩) < (sampleEnv.startDragDistance : ℚ) ∧
      ∃ t', pointerGesture sampleEnv selectedTool (pressAt ⟨10, 35⟩) (some (SceneItem.handle 6))
          (some rectLayerD) [moveTo ⟨11, 35⟩] (releaseAt ⟨11, 35⟩) = some t' ∧
        t'.layerScene.edits =
          [SceneEdit.setLayerProperty rectLayerD ⟨11, 20, 39, 30⟩ "Change Rect"]) := by
  refine ⟨⟨rfl, by decide, ?_⟩, rfl, rfl, rfl, ?_, ?_⟩
  · obtain ⟨t', hrun, -, -, -, -, -, -, hcur, -⟩ :=
      gesture_calm sampleEnv (idleTool AddingType.NoAdding [] (some rectLayerB))
        (pressAt ⟨5, 5⟩) none (some rectLayerA) [] (releaseAt ⟨5, 5⟩) rfl
        constructedHandles_complete (by simp)
    refine ⟨t', ?_, hcur (Or.inl rfl)⟩
    rw [pointerGesture_tool _ _ _ _ _ _ _ (by intro index h; cases h)]
    exact hrun
  · simp only [distanceFrom, pressAt, moveTo, vec2d_sub_def, sampleEnv]
    norm_num
  · obtain ⟨t', h1, -, -, h3⟩ :=
      handle_drag_sample 11 (by norm_num) (some rectLayerD) (releaseAt ⟨11, 35⟩)
    refine ⟨t', h1, ?_⟩
    rw [h3]; norm_num

/-- C14, amended: in a gesture that starts in mode `NoOperation`, whose press
does not land on a resize handle and whose moves stay below the drag
threshold, the selection and the current layer are the only parts of the
layer scene the tool changes: no edit is submitted, so the layer tree and the
properties of every layer are as before the press.  When the tool handles the
press (no graphics item or the frame under the cursor) the current layer is
the layer hit by the press, null if there is none; when another graphics item
lies under the cursor the tool ignores the press and the layer scene is as
before. -/
theorem pointerGesture_scene (env : ToolEnv) (t : RectTool)
    (press : CanvasTabletEvent) (item : Option SceneItem) (hit : Option Layer)
    (moves : List CanvasTabletEvent) (release : CanvasTabletEvent)
    (hmode : t.d.mode = Mode.NoOperation) (hc : handlesComplete t.d.handles)
    (hitem : ∀ index, item ≠ some (SceneItem.handle index))
    (hmoves : ∀ m ∈ moves, distanceFrom press m < env.startDragDistance) :
    ∃ t', pointerGesture env t press item hit moves release = some t' ∧
      t'.layerScene = { t.layerScene with selection := t'.layerScene.selection,
                                          current := t'.layerScene.current } ∧
      (item = none ∨ item = some SceneItem.frame → t'.layerScene.current = hit) ∧
      (item = some SceneItem.other → t'.layerScene = t.layerScene) := by
  obtain ⟨t', hrun, -, -, hed, hroot, hid, hsame, hcur, -⟩ :=
    gesture_calm env t press item hit moves release hmode hc hmoves
  refine ⟨t', ?_, ?_, hcur, ?_⟩
  · rw [pointerGesture_tool env t press item hit moves release hitem]
    exact hrun
  · cases hs : t'.layerScene with
    | mk root cur sel edits next =>
      rw [hs] at hed hroot hid
      simp only at hed hroot hid
      simp only [hed, hroot, hid]
  · intro hother
    apply hsame
    rw [hother]
    simp

/-- Witness of C14, amended: the layer A is selected and the layer B current;
a press on the layer A at (5, 5), moves to (6, 5) and (7, 6) with the threshold
10, and a release leave the layer A current and submit no edit. -/
theorem pointerGesture_scene_witness :
    ∃ t', pointerGesture sampleEnv (idleTool AddingType.NoAdding [rectLayerA] (some rectLayerB))
        (pressAt ⟨5, 5⟩) none (some rectLayerA) [moveTo ⟨6, 5⟩, moveTo ⟨7, 6⟩]
        (releaseAt ⟨7, 6⟩) = some t' ∧
      t'.layerScene.current = some rectLayerA ∧ t'.layerScene.edits = [] := by
  obtain ⟨t', h1, h2, h3, -⟩ :=
    pointerGesture_scene sampleEnv
      (idleTool AddingType.NoAdding [rectLayerA] (some rectLayerB))
      (pressAt ⟨5, 5⟩) none (some rectLayerA) [moveTo ⟨6, 5⟩, moveTo ⟨7, 6⟩]
      (releaseAt ⟨7, 6⟩) rfl constructedHandles_complete (by intro index h; cases h)
      (sample_moves_below (pressAt ⟨5, 5⟩) rfl)
  refine ⟨t', h1, h3 (Or.inl rfl), ?_⟩
  rw [h2]
  rfl

end PaintField
